import Mathlib

/-!
# Verification of the `le-petit-lapin` window-manager core

A shallow embedding of the window-manager state machine of the
`le-petit-lapin` repository (`src/lib.rs`, `src/lapin_api.rs`,
`src/layouts.rs`, `src/rules.rs`, `src/screens.rs`), together with
theorems settling the specification claims about it.

Conventions of the embedding:

* Window handles are an abstract type `Win` with decidable equality
  (the source uses opaque `x::Window` identifiers compared only for
  equality).
* Rust `u16` arithmetic wraps modulo `2 ^ 16` (release semantics);
  the helpers `u16`, `sub16` and `i16` make every wrap explicit.
  All theorems below are stated at inputs (or under hypotheses) where
  no wrap occurs, so debug (panicking) and release (wrapping) Rust
  agree.
* A Rust panic (out-of-bounds `Vec` indexing / `remove`,
  `Option::unwrap` of `None`) is modelled by `Option.none`: a panic
  aborts the process, so a panicking call produces no successor state.
* Outbound X requests are fire-and-forget; they are modelled as a
  list of `Req` values so that "issues no request" is expressible.
-/

namespace LPL

/-- Reduce a `Nat` to a Rust `u16` value (wrapping, release semantics). -/
def u16 (n : Nat) : Nat := n % 65536

/-- Wrapping `u16` subtraction, as Rust release builds perform it. -/
def sub16 (a b : Nat) : Nat := (a % 65536 + 65536 - b % 65536) % 65536

/-- Reduce an `Int` to a Rust `i16` value in `[-32768, 32767]`
(wrapping); also models the `u16 as i16` reinterpreting cast when
applied to a `u16` value. -/
def i16 (v : Int) : Int := (v + 32768) % 65536 - 32768

/-- Items of an `x::ConfigureWindow` request value list. -/
inductive ConfigItem : Type where
  | X (v : Int)
  | Y (v : Int)
  | W (v : Nat)
  | H (v : Nat)
  | borderWidth (v : Nat)
  | stackAbove
  deriving Repr, DecidableEq

/-- An outbound X request, abstracted to what the claims observe. -/
inductive Req (Win : Type) : Type where
  /-- `x::ConfigureWindow` (geometry / border width / stacking). -/
  | configure (w : Win) (items : List ConfigItem)
  /-- `x::ChangeWindowAttributes` (border colors, event masks). -/
  | changeAttributes (w : Win)
  /-- `x::MapWindow`. -/
  | map (w : Win)
  /-- `x::UnmapWindow`. -/
  | unmap (w : Win)
  /-- `x::SetInputFocus` to a client window. -/
  | setInputFocus (w : Win)
  /-- `x::SetInputFocus` to the root window. -/
  | setInputFocusRoot
  /-- `x::ChangeProperty` (EWMH bookkeeping on the root or a client). -/
  | changeProperty
  deriving Repr, DecidableEq

/-! ## Layouts (`src/layouts.rs`) -/

/-- `Tiling` layout parameters (`src/layouts.rs`, `struct Tiling`).
The source stores `master_factor : f32`; it is embedded as the exact
rational `mNum / mDen`.  Every theorem below instantiates it at `1/2`
(the default `1.0 / 2.0`) with small widths and gaps, where the `f32`
operations the source performs (`width as f32 * master_factor`,
`gaps as f32 * 1.5`, truncating casts `as u16`) are exact, so floor
division on `Nat` agrees with the source's float arithmetic. -/
structure Tiling : Type where
  borders : Nat
  mNum : Nat
  mDen : Nat
  gaps : Nat
  deriving Repr, DecidableEq

namespace Tiling

/-- `(width as f32 * master_factor) as u16` (lines 212-214 of
`layouts.rs`): exact float product, truncated. -/
def masterSpan (t : Tiling) (width : Nat) : Nat := u16 (width * t.mNum / t.mDen)

/-- `(gaps as f32 * 1.5) as u16`: exact for every `u16` gap value. -/
def gapsTimes3Div2 (t : Tiling) : Nat := u16 (3 * t.gaps / 2)

/-- Geometry of the sole window (`layouts.rs` lines 192-206):
`x+g, y+g, width - 2g - 2b, height - 2g - 2b`. -/
def singleRect (t : Tiling) (width height : Nat) (x y : Int) : List ConfigItem :=
  [ConfigItem.X (i16 (x + (t.gaps : Int))),
   ConfigItem.Y (i16 (y + (t.gaps : Int))),
   ConfigItem.W (sub16 (sub16 width (u16 (t.gaps * 2))) (u16 (t.borders * 2))),
   ConfigItem.H (sub16 (sub16 height (u16 (t.gaps * 2))) (u16 (t.borders * 2)))]

/-- Master width with `≥ 2` windows (`layouts.rs` lines 211-215). -/
def masterW (t : Tiling) (width : Nat) : Nat :=
  sub16 (sub16 (t.masterSpan width) t.gapsTimes3Div2) (u16 (t.borders * 2))

/-- Master height with `≥ 2` windows (`layouts.rs` line 216). -/
def masterH (t : Tiling) (height : Nat) : Nat :=
  sub16 (sub16 height (u16 (t.gaps * 2))) (u16 (t.borders * 2))

/-- Geometry of the master window (`layouts.rs` lines 208-217). -/
def masterRect (t : Tiling) (width height : Nat) (x y : Int) : List ConfigItem :=
  [ConfigItem.X (i16 (x + (t.gaps : Int))),
   ConfigItem.Y (i16 (y + (t.gaps : Int))),
   ConfigItem.W (t.masterW width),
   ConfigItem.H (t.masterH height)]

/-- Slave-column x coordinate (`layouts.rs` line 223):
`x + ((master_span + gaps/2) as i16)`. -/
def slaveX (t : Tiling) (width : Nat) (x : Int) : Int :=
  i16 (x + i16 ((u16 (t.masterSpan width + t.gaps / 2) : Nat) : Int))

/-- Slave width (`layouts.rs` line 224):
`width/2 - (gaps*1.5 as u16) - borders*2`. -/
def slaveW (t : Tiling) (width : Nat) : Nat :=
  sub16 (sub16 (width / 2) t.gapsTimes3Div2) (u16 (t.borders * 2))

/-- Slave height (`layouts.rs` lines 225-228):
`(height - gaps*(ns+1) - borders*2*ns) / ns` for `ns` slave windows. -/
def slaveH (t : Tiling) (height ns : Nat) : Nat :=
  sub16 (sub16 height (u16 (t.gaps * (ns + 1)))) (u16 (t.borders * 2 * ns)) / ns

/-- Slave y coordinate for the `n`-th slave (`layouts.rs` lines 230-232):
`y + ((h*n + borders*2*n + gaps*(n+1)) as i16)` where `h` is the slave
height. -/
def slaveY (t : Tiling) (h n : Nat) (y : Int) : Int :=
  i16 (y + i16 ((u16 (h * n + t.borders * 2 * n + t.gaps * (n + 1)) : Nat) : Int))

/-- Geometry of the `n`-th slave window (`layouts.rs` lines 229-243). -/
def slaveRect (t : Tiling) (width height ns n : Nat) (x y : Int) : List ConfigItem :=
  [ConfigItem.X (t.slaveX width x),
   ConfigItem.Y (t.slaveY (t.slaveH height ns) n y),
   ConfigItem.W (t.slaveW width),
   ConfigItem.H (t.slaveH height ns)]

/-- `Tiling::reload` (`layouts.rs` lines 180-246): no-op on an empty
sequence, full-area rect for a single window, master/slave split
otherwise.  Never panics. -/
def reload {Win : Type} (t : Tiling) (windows : List Win) (width height : Nat)
    (x y : Int) : List (Req Win) :=
  match windows with
  | [] => []
  | [w] => [Req.configure w (t.singleRect width height x y)]
  | w :: rest =>
    Req.configure w (t.masterRect width height x y) ::
      rest.enum.map (fun p =>
        Req.configure p.2 (t.slaveRect width height rest.length p.1 x y))

/-- `Tiling::newwin` delegates to `reload` (`layouts.rs` lines 248-258). -/
def newwin {Win : Type} (t : Tiling) (windows : List Win) (width height : Nat)
    (x y : Int) : List (Req Win) :=
  t.reload windows width height x y

/-- `Tiling::delwin` ignores `current` and delegates to `reload`
(`layouts.rs` lines 259-270). -/
def delwin {Win : Type} (t : Tiling) (windows : List Win) (_current : Option Nat)
    (width height : Nat) (x y : Int) : List (Req Win) :=
  t.reload windows width height x y

/-- `Tiling::changewin` is a no-op (`layouts.rs` lines 271-281). -/
def changewin {Win : Type} (_t : Tiling) (_windows : List Win) (_number : Nat)
    (_width _height : Nat) (_x _y : Int) : List (Req Win) := []

end Tiling

/-- `Maximized` layout parameters (`src/layouts.rs`, `struct Maximized`). -/
structure Maximized : Type where
  borders : Nat
  gaps : Nat
  deriving Repr, DecidableEq

namespace Maximized

/-- The identical full-area rect every window receives
(`layouts.rs` lines 328-333 and 348-353). -/
def rect (m : Maximized) (width height : Nat) (x y : Int) : List ConfigItem :=
  [ConfigItem.X (i16 (x + (m.gaps : Int))),
   ConfigItem.Y (i16 (y + (m.gaps : Int))),
   ConfigItem.W (sub16 (sub16 width (u16 (m.gaps * 2))) (u16 (m.borders * 2))),
   ConfigItem.H (sub16 (sub16 height (u16 (m.gaps * 2))) (u16 (m.borders * 2)))]

/-- `Maximized::newwin` (`layouts.rs` lines 318-338): it begins with
`let window = *windows.next().unwrap();` — on an empty sequence the
`unwrap` panics, modelled by `none`. -/
def newwin {Win : Type} (m : Maximized) (windows : List Win) (width height : Nat)
    (x y : Int) : Option (List (Req Win)) :=
  match windows with
  | [] => none
  | w :: _ => some [Req.configure w (m.rect width height x y)]

/-- `Maximized::reload` (`layouts.rs` lines 339-360): the same rect for
every window (no-op on an empty sequence). -/
def reload {Win : Type} (m : Maximized) (windows : List Win) (width height : Nat)
    (x y : Int) : List (Req Win) :=
  windows.map (fun w => Req.configure w (m.rect width height x y))

/-- `Maximized::delwin` is a no-op (`layouts.rs` lines 361-371). -/
def delwin {Win : Type} (_m : Maximized) (_windows : List Win) (_current : Option Nat)
    (_width _height : Nat) (_x _y : Int) : List (Req Win) := []

/-- `Maximized::changewin` is a no-op (`layouts.rs` lines 372-382). -/
def changewin {Win : Type} (_m : Maximized) (_windows : List Win) (_number : Nat)
    (_width _height : Nat) (_x _y : Int) : List (Req Win) := []

end Maximized

/-- `Floating` layout parameters (`src/layouts.rs`, `struct Floating`). -/
structure Floating : Type where
  borders : Nat
  deriving Repr, DecidableEq

/-- The layout registry entries (`config.layouts`): a closed variant of
the three shipped `Layout` implementations. -/
inductive LayoutKind : Type where
  | tiling (t : Tiling)
  | maximized (m : Maximized)
  | floating (f : Floating)
  deriving Repr, DecidableEq

namespace LayoutKind

/-- Dynamic dispatch of `Layout::newwin`.  `Floating` does nothing
(`layouts.rs` lines 90-99); `Maximized::newwin` can panic on an empty
sequence. -/
def newwin {Win : Type} : LayoutKind → List Win → Nat → Nat → Int → Int →
    Option (List (Req Win))
  | .tiling t, ws, w, h, x, y => some (t.newwin ws w h x y)
  | .maximized m, ws, w, h, x, y => m.newwin ws w h x y
  | .floating _, _, _, _, _, _ => some []

/-- Dynamic dispatch of `Layout::delwin` (total: no variant panics). -/
def delwin {Win : Type} : LayoutKind → List Win → Option Nat → Nat → Nat → Int → Int →
    List (Req Win)
  | .tiling t, ws, cur, w, h, x, y => t.delwin ws cur w h x y
  | .maximized m, ws, cur, w, h, x, y => m.delwin ws cur w h x y
  | .floating _, _, _, _, _, _, _ => []

/-- Dynamic dispatch of `Layout::reload` (total: no variant panics). -/
def reload {Win : Type} : LayoutKind → List Win → Nat → Nat → Int → Int →
    List (Req Win)
  | .tiling t, ws, w, h, x, y => t.reload ws w h x y
  | .maximized m, ws, w, h, x, y => m.reload ws w h x y
  | .floating _, _, _, _, _, _ => []

/-- Dynamic dispatch of `Layout::changewin` (a no-op in all three
shipped layouts). -/
def changewin {Win : Type} : LayoutKind → List Win → Nat → Nat → Nat → Int → Int →
    List (Req Win)
  | .tiling t, ws, n, w, h, x, y => t.changewin ws n w h x y
  | .maximized m, ws, n, w, h, x, y => m.changewin ws n w h x y
  | .floating _, _, _, _, _, _, _ => []

/-- `Layout::allow_motions`: `true` only for `Floating`. -/
def allow_motions : LayoutKind → Bool
  | .floating _ => true
  | _ => false

/-- `Layout::border_width`. -/
def border_width : LayoutKind → Nat
  | .tiling t => t.borders
  | .maximized m => m.borders
  | .floating f => f.borders

end LayoutKind

/-! ## Rules (`src/rules.rs` and `Lapin::apply_rules` in `src/lib.rs`) -/

/-- `rules::Apply`: what a matching rule does to a window. -/
inductive Apply : Type where
  | workspace (n : Nat)
  | fullscreen
  | float
  deriving Repr, DecidableEq

/-- `rules::Rule`.  `Property` currently has the single variant
`Class(String)`, so the match pattern is embedded as the class string. -/
structure Rule : Type where
  cls : String
  apply : Apply
  deriving Repr, DecidableEq

/-- The `(add_border, ool, workspace)` triple `apply_rules` returns
(`lib.rs` line 263). -/
structure RuleOutcome : Type where
  add_border : Bool
  ool : Bool
  workspace : Nat
  deriving Repr, DecidableEq

/-- One iteration of the rule loop of `apply_rules` (`lib.rs` lines
274-304): a rule fires when its class pattern equals either part of the
window's class; `Workspace n` overwrites the target workspace, `Float`
sets `ool`, `Fullscreen` issues a full-screen-rect `ConfigureWindow`
and a `_NET_WM_STATE` property request, sets `ool` and clears
`add_border`. -/
def ruleStep {Win : Type} (win : Win) (sw sh : Nat) (sx sy : Int) (c1 c2 : String)
    (acc : RuleOutcome × List (Req Win)) (rule : Rule) : RuleOutcome × List (Req Win) :=
  if rule.cls = c1 ∨ rule.cls = c2 then
    match rule.apply with
    | .workspace n => ({ acc.1 with workspace := n }, acc.2)
    | .float => ({ acc.1 with ool := true }, acc.2)
    | .fullscreen =>
      ({ acc.1 with ool := true, add_border := false },
       acc.2 ++ [Req.configure win
           [ConfigItem.X sx, ConfigItem.Y sy, ConfigItem.W sw, ConfigItem.H sh],
         Req.changeProperty])
  else acc

/-- `Lapin::apply_rules` (`lib.rs` lines 262-307), with the current
workspace index and the current screen rectangle passed explicitly and
the window's class (the reply of the `WM_CLASS` round trip, `None`
when the query fails) supplied as an argument: default
`(add_border := true, ool := false, workspace := current)`, returned
unchanged when the class cannot be obtained, else folded over the
rules in declaration order. -/
def apply_rules {Win : Type} (win : Win) (rules : List Rule) (current : Nat)
    (sw sh : Nat) (sx sy : Int) (cls : Option (String × String)) :
    RuleOutcome × List (Req Win) :=
  let dflt : RuleOutcome := { add_border := true, ool := false, workspace := current }
  match cls with
  | none => (dflt, [])
  | some (c1, c2) => rules.foldl (ruleStep win sw sh sx sy c1 c2) (dflt, [])

/-! ## The state model (`src/screens.rs`, fields as used by `src/lib.rs`) -/

/-- A virtual workspace (`screens.rs`, `struct Workspace`, plus the
`respect_reserved_space` field read by
`Lapin::calculate_layout_coordinates`).  The cosmetic `name` field is
omitted: no operation reads it. -/
structure Workspace (Win : Type) : Type where
  windows : List Win
  ool_windows : List Win
  focused : Option Nat
  ool_focus : Bool
  layout : Nat
  respect_reserved_space : Bool
  deriving Repr, DecidableEq

/-- A physical screen (`screens.rs`, `struct Screen`, with the
geometry fields `width`, `height`, `x`, `y` that `lib.rs` reads). -/
structure Screen (Win : Type) : Type where
  workspaces : List (Workspace Win)
  current_wk : Nat
  width : Nat
  height : Nat
  x : Int
  y : Int
  deriving Repr, DecidableEq

/-- The mutable window-manager state (`struct Lapin`): the screen list
and the current-screen index.  The X connection, atoms and keybinds
carry no model state. -/
structure Lapin (Win : Type) : Type where
  screens : List (Screen Win)
  current_scr : Nat
  deriving Repr, DecidableEq

attribute [ext] Workspace Screen Lapin

/-- The immutable configuration (`config.rs`, fields the model
operations read). -/
structure ReservedSpace : Type where
  top : Nat
  right : Nat
  bottom : Nat
  left : Nat
  deriving Repr, DecidableEq

/-- `config::Config`, restricted to the fields the model operations
read: the rule list, the layout registry, the floating border width
and the reserved-space margins. -/
structure Config : Type where
  rules : List Rule
  layouts : List LayoutKind
  border_width : Nat
  reserved : ReservedSpace
  mouse_raises_window : Bool
  deriving Repr, DecidableEq

variable {Win : Type} [DecidableEq Win]

namespace Lapin

/-- `Lapin::current_screen` (`lib.rs` lines 965-967); `none` models the
out-of-bounds panic. -/
def currentScreen? (st : Lapin Win) : Option (Screen Win) :=
  st.screens.get? st.current_scr

/-- `Lapin::current_workspace` (`lib.rs` lines 973-976). -/
def currentWorkspace? (st : Lapin Win) : Option (Workspace Win) :=
  (st.currentScreen?).bind fun scr => scr.workspaces.get? scr.current_wk

/-- `Lapin::current_layout` (`lib.rs` lines 983-986). -/
def currentLayout? (cfg : Config) (st : Lapin Win) : Option LayoutKind :=
  (st.currentWorkspace?).bind fun wk => cfg.layouts.get? wk.layout

/-- Replace workspace `k` of screen `s` (the effect of a
`self.screens[s].workspaces[k]` assignment); `none` models the
out-of-bounds panic. -/
def setWk? (st : Lapin Win) (s k : Nat) (wk : Workspace Win) : Option (Lapin Win) := do
  let scr ← st.screens.get? s
  let _ ← scr.workspaces.get? k
  pure { st with screens :=
    st.screens.set s { scr with workspaces := scr.workspaces.set k wk } }

/-- Mutate workspace `k` of screen `s` through `f`. -/
def modifyWk? (st : Lapin Win) (s k : Nat) (f : Workspace Win → Workspace Win) :
    Option (Lapin Win) := do
  let scr ← st.screens.get? s
  let wk ← scr.workspaces.get? k
  st.setWk? s k (f wk)

/-- Mutate the current workspace (`Lapin::current_workspace_mut`). -/
def modifyCurrentWk? (st : Lapin Win) (f : Workspace Win → Workspace Win) :
    Option (Lapin Win) := do
  let scr ← st.currentScreen?
  st.modifyWk? st.current_scr scr.current_wk f

/-- First index of `win` in a sequence (the
`for (w, window) in ...enumerate()` scans of `window_location`). -/
def idxOf? (win : Win) : List Win → Option Nat
  | [] => none
  | a :: l => if a = win then some 0 else (idxOf? win l).map (· + 1)

/-- Search one workspace for a window: the managed sequence first,
then the out-of-layout sequence, as `window_location`'s inner loops
do (`lib.rs` lines 214-223). -/
def findInWk (wk : Workspace Win) (win : Win) : Option (Nat × Bool) :=
  match idxOf? win wk.windows with
  | some w => some (w, false)
  | none => (idxOf? win wk.ool_windows).map (fun w => (w, true))

/-- The workspace loop of `window_location`, carrying the running
workspace index. -/
def locWks (win : Win) : List (Workspace Win) → Nat → Option (Nat × Nat × Bool)
  | [], _ => none
  | wk :: rest, k =>
    match findInWk wk win with
    | some (w, ool) => some (k, w, ool)
    | none => locWks win rest (k + 1)

/-- The screen loop of `window_location`, carrying the running screen
index. -/
def locScreens (win : Win) : List (Screen Win) → Nat → Option (Nat × Nat × Nat × Bool)
  | [], _ => none
  | scr :: rest, s =>
    match locWks win scr.workspaces 0 with
    | some (k, w, ool) => some (s, k, w, ool)
    | none => locScreens win rest (s + 1)

/-- `Lapin::window_location` (`lib.rs` lines 210-227): the window's
`(screen, workspace, index, is out of layout)` coordinates, scanning
screens and workspaces in order. -/
def window_location (st : Lapin Win) (win : Win) : Option (Nat × Nat × Nat × Bool) :=
  locScreens win st.screens 0

/-- The `(focused, ool_focus)` cursor of the current workspace. -/
def currentFocus? (st : Lapin Win) : Option (Option Nat × Bool) :=
  st.currentWorkspace?.map fun wk => (wk.focused, wk.ool_focus)

/-- The windows of one workspace, managed sequence first. -/
def wkWins (wk : Workspace Win) : List Win := wk.windows ++ wk.ool_windows

/-- All windows of one screen. -/
def scrWins (scr : Screen Win) : List Win := scr.workspaces.flatMap wkWins

/-- Every window the model tracks, flattened over all
`(screen, workspace, sequence)` triples. -/
def allWindows (st : Lapin Win) : List Win := st.screens.flatMap scrWins

/-- The state after replacing workspace `k` of screen `s` (an in-place
`workspaces[k]` assignment); used to phrase the decomposition lemmas
below. -/
def setWkState (st : Lapin Win) (s k : Nat) (scr : Screen Win) (wk' : Workspace Win) :
    Lapin Win :=
  { st with screens := st.screens.set s { scr with workspaces := scr.workspaces.set k wk' } }

/-- The state `set_focus` produces: `current_scr := s`, screen `s`'s
`current_wk := k`, and workspace `(s, k)` replaced. -/
def focusState (st : Lapin Win) (s k : Nat) (scr : Screen Win) (wk' : Workspace Win) :
    Lapin Win :=
  { screens := st.screens.set s { scr with current_wk := k, workspaces := scr.workspaces.set k wk' }, current_scr := s }

/-- `Lapin::get_focused_window` (`lapin_api.rs` lines 235-245).  The
outer `Option` is the panic monad (the source indexes the selected
sequence with the focus cursor); the inner one is the function's own
return value. -/
def get_focused_window (st : Lapin Win) : Option (Option Win) :=
  match st.currentWorkspace? with
  | none => none
  | some wk =>
    match wk.focused with
    | none => some none
    | some w =>
      (if wk.ool_focus then wk.ool_windows.get? w else wk.windows.get? w).map some

/-- `Lapin::calculate_layout_coordinates` (`lib.rs` lines 309-330):
`(width, height, x, y)` of the usable area, subtracting the reserved
margins when the current workspace opts in. -/
def calculate_layout_coordinates (cfg : Config) (st : Lapin Win) :
    Option (Nat × Nat × Int × Int) := do
  let scr ← st.currentScreen?
  let wk ← st.currentWorkspace?
  if wk.respect_reserved_space then
    pure (sub16 (sub16 scr.width cfg.reserved.right) cfg.reserved.left,
          sub16 (sub16 scr.height cfg.reserved.top) cfg.reserved.bottom,
          i16 (scr.x + (cfg.reserved.left : Int)),
          i16 (scr.y + (cfg.reserved.top : Int)))
  else
    pure (scr.width, scr.height, scr.x, scr.y)

/-- `Lapin::set_focus` (`lib.rs` lines 524-550): sets `current_scr`,
the screen's `current_wk`, the workspace's focus cursor and mode, and
issues the input-focus, optional raise, and border-recolor requests. -/
def set_focus (st : Lapin Win) (window : Win) (s k w : Nat) (ool raise : Bool) :
    Option (Lapin Win × List (Req Win)) := do
  -- self.current_scr = s;
  let st1 : Lapin Win := { st with current_scr := s }
  -- self.current_screen_mut().current_wk = k;
  let scr ← st1.screens.get? s
  let st2 : Lapin Win := { st1 with screens := st1.screens.set s { scr with current_wk := k } }
  -- self.current_workspace_mut().focused = Some(w); ... .ool_focus = ool;
  let st3 ← st2.modifyWk? s k (fun wk => { wk with focused := some w, ool_focus := ool })
  pure (st3,
    [Req.setInputFocus window] ++
      (if raise then [Req.configure window [ConfigItem.stackAbove]] else []) ++
      [Req.changeAttributes window])

/-- `Lapin::reset_focus_after_removing` (`lib.rs` lines 417-441): pick
the surviving focus mode (prefer the removed window's mode, else
whichever sequence is non-empty, else clear the focus), clamp the
index, and route through `set_focus`. -/
def reset_focus_after_removing (st : Lapin Win) (s k w : Nat) (ool : Bool) :
    Option (Lapin Win × List (Req Win)) := do
  let wk ← st.currentWorkspace?
  let sel : Option Bool :=
    if ool ∧ 0 < wk.ool_windows.length then some true
    else if 0 < wk.windows.length then some false
    else if 0 < wk.ool_windows.length then some true
    else none
  match sel with
  | none => (st.modifyCurrentWk? (fun wk => { wk with focused := none })).map ((·, []))
  | some ool' =>
    let cmp := if ool' then wk.ool_windows.length else wk.windows.length
    let w' := if cmp ≤ w then cmp - 1 else w
    let window ← if ool' then wk.ool_windows.get? w' else wk.windows.get? w'
    st.set_focus window s k w' ool' true

/-- The new `(index, mode)` the `change_win` arithmetic produces
(`lib.rs` lines 634-651), from the managed count `m`, the
out-of-layout count `o`, and the current cursor `(w, ool)`:
`let (this, other) = if ool { (ool_n, win_n) } else { (win_n, ool_n) };`
followed by the signed step and the two wrap tests. -/
def nextFocusPos (previous : Bool) (m o w : Nat) (ool : Bool) : Nat × Bool :=
  let thisN := if ool then o else m
  let otherN := if ool then m else o
  let nw : Int := if previous then (w : Int) - 1 else (w : Int) + 1
  if nw < 0 then
    (if 0 < otherN then (otherN - 1, !ool) else (thisN - 1, ool))
  else if (thisN : Int) ≤ nw then
    (if 0 < otherN then (0, !ool) else (0, ool))
  else (nw.toNat, ool)

/-- The focus-target computation of `Lapin::change_win` (`lib.rs`
lines 622-673): from the current focus cursor, the new
`(window, index, mode)` plus the previously focused window; `some
none` is the source's early return (no focus, or at most one window
in total), `none` a panic.  The two sequence reads the source
performs before calling `set_focus` (`windows[new_w]` /
`ool_windows[new_w]` and `get_focused_window().unwrap()`) are the
panic points. -/
def change_win_target (previous : Bool) (wk : Workspace Win) :
    Option (Option (Win × Nat × Bool × Win)) :=
  match wk.focused with
  | none => some none
  | some w =>
    let ool_n := wk.ool_windows.length
    let win_n := wk.windows.length
    if win_n + ool_n ≤ 1 then some none
    else
      let p := nextFocusPos previous win_n ool_n w wk.ool_focus
      match (if p.2 then wk.ool_windows.get? p.1 else wk.windows.get? p.1),
            (if wk.ool_focus then wk.ool_windows.get? w else wk.windows.get? w) with
      | some window, some oldWin => some (some (window, p.1, p.2, oldWin))
      | _, _ => none

/-- The effect of `change_win` on the focus cursor of a workspace:
`set_focus` rewrites `current_scr`, `current_wk` with the values just
read from them, so its net state change is the current workspace's
`focused` / `ool_focus`. -/
def change_win_focus (previous : Bool) (wk : Workspace Win) : Option (Workspace Win) :=
  match change_win_target previous wk with
  | none => none
  | some none => some wk
  | some (some (_, new_w, ool, _)) => some { wk with focused := some new_w, ool_focus := ool }

/-- `Lapin::change_win` (`lib.rs` lines 622-673) at the state level:
cyclic next/previous focus navigation over the two rings of the
current workspace, plus a `Layout::changewin` call when the new focus
is managed. -/
def change_win (cfg : Config) (previous : Bool) (st : Lapin Win) :
    Option (Lapin Win × List (Req Win)) := do
  let scr ← st.currentScreen?
  let wk ← st.currentWorkspace?
  match ← change_win_target previous wk with
  | none => pure (st, [])
  | some (window, new_w, ool, oldWin) =>
    -- self.restore_border(self.get_focused_window().unwrap());
    let (st1, reqs) ← st.set_focus window st.current_scr scr.current_wk new_w ool true
    if !ool then do
      let lay ← cfg.layouts.get? wk.layout
      let (cw, ch, cx, cy) ← st1.calculate_layout_coordinates cfg
      let wk1 ← st1.currentWorkspace?
      pure (st1, [Req.changeAttributes oldWin] ++ reqs ++
        lay.changewin wk1.windows new_w cw ch cx cy)
    else
      pure (st1, [Req.changeAttributes oldWin] ++ reqs)

end Lapin

/-- `Vec::remove(i)`, returning the removed element and the remaining
list; `none` models the out-of-bounds panic. -/
def removeAt? {α : Type} : List α → Nat → Option (α × List α)
  | [], _ => none
  | a :: l, 0 => some (a, l)
  | a :: l, n + 1 => (removeAt? l n).map (fun p => (p.1, a :: p.2))

namespace Lapin

/-- `Lapin::manage_window` (`lib.rs` lines 332-415).  The two X round
trips the source performs (the `GetWindowAttributes` reply and the
`WM_CLASS` string) are external inputs, passed as the `attr` and `cls`
arguments: `attr = none` models a failed reply (early return),
`attr = some true` an override-redirect window (never tracked). -/
def manage_window (cfg : Config) (st : Lapin Win) (win : Win)
    (attr : Option Bool) (cls : Option (String × String)) :
    Option (Lapin Win × List (Req Win)) :=
  -- check if we really need to manage the window
  if (st.window_location win).isSome then some (st, []) else
  match attr with
  | none => some (st, [])
  | some true => some (st, [])
  | some false => do
    -- add required attributes
    let attrReq := [Req.changeAttributes win]
    -- let (add_border, ool, workspace) = self.apply_rules(ev.window());
    let scr ← st.currentScreen?
    let (outcome, ruleReqs) :=
      apply_rules win cfg.rules scr.current_wk scr.width scr.height scr.x scr.y cls
    -- if add_border { self.add_border(...) } (reads current_layout().border_width())
    let lay ← st.currentLayout? cfg
    let borderReq :=
      if outcome.add_border then [Req.configure win [ConfigItem.borderWidth lay.border_width]]
      else []
    -- if let Some(old_win) = self.get_focused_window() { self.restore_border(old_win) }
    let oldFocus ← st.get_focused_window
    let restoreReq := match oldFocus with
      | some oldWin => [Req.changeAttributes oldWin]
      | none => []
    -- insert at index 0 of the appropriate sequence of
    -- self.current_screen_mut().workspaces[workspace]
    let st1 ← st.modifyWk? st.current_scr outcome.workspace (fun wk =>
      if outcome.ool then { wk with ool_windows := win :: wk.ool_windows }
      else { wk with windows := win :: wk.windows })
    -- if workspace == current_wk: newwin, map, set_focus(..., 0, ool, true)
    let (st2, visReqs) ←
      if outcome.workspace = scr.current_wk then do
        let (cw, ch, cx, cy) ← st1.calculate_layout_coordinates cfg
        let wk1 ← st1.currentWorkspace?
        let newReqs ← lay.newwin wk1.windows cw ch cx cy
        let (st2, focusReqs) ←
          st1.set_focus win st1.current_scr scr.current_wk 0 outcome.ool true
        pure (st2, newReqs ++ [Req.map win] ++ focusReqs)
      else pure (st1, [])
    -- _NET_WM_DESKTOP hint and client-list append
    pure (st2, attrReq ++ ruleReqs ++ borderReq ++ restoreReq ++ visReqs ++
      [Req.changeProperty, Req.changeProperty])

/-- The layout-request block of `unmanage_window` (`lib.rs` lines
496-516): a `delwin` call after a managed removal, a `changewin` call
after an out-of-layout removal that leaves a managed focus, and nothing
otherwise.  Pure reads; the state is untouched. -/
def unmanageLayReqs (cfg : Config) (ool : Bool) (st2 : Lapin Win) :
    Option (List (Req Win)) :=
  if ¬ool then do
    let lay ← st2.currentLayout? cfg
    let (cw, ch, cx, cy) ← st2.calculate_layout_coordinates cfg
    let wk2 ← st2.currentWorkspace?
    pure (lay.delwin wk2.windows wk2.focused cw ch cx cy)
  else do
    let wk2 ← st2.currentWorkspace?
    if ¬wk2.ool_focus then
      match wk2.focused with
      | some number => do
        let lay ← st2.currentLayout? cfg
        let (cw, ch, cx, cy) ← st2.calculate_layout_coordinates cfg
        pure (lay.changewin wk2.windows number cw ch cx cy)
      | none => pure []
    else pure []

/-- The focus-fixup closure of `unmanage_window` (`lib.rs` lines
470-494): the two clamping chains, keyed on which sequence was removed
from (`ool`) and the focus index captured before the chains run. -/
def focusFixup (ool : Bool) (focused : Nat) (wkc : Workspace Win) : Workspace Win :=
  let wkc :=
    if ool ∧ wkc.ool_focus ∧ wkc.ool_windows.length ≤ focused ∧
        0 < wkc.ool_windows.length then
      { wkc with focused := some (focused - 1) }
    else if ool ∧ wkc.ool_windows.length = 0 then { wkc with focused := none }
    else wkc
  if ¬ool ∧ wkc.windows.length ≤ focused ∧ 0 < wkc.windows.length then
    { wkc with focused := some (focused - 1) }
  else if ¬ool ∧ wkc.windows.length = 0 then { wkc with focused := none }
  else wkc

/-- `Lapin::unmanage_window` (`lib.rs` lines 443-522).  Note that the
source removes index `w` from the sequences of the **current**
workspace, even though `window_location` may have found the window in
a different `(screen, workspace)`. -/
def unmanage_window (cfg : Config) (st : Lapin Win) (win : Win) (setF : Bool) :
    Option (Lapin Win × List (Req Win)) :=
  match st.window_location win with
  | none => some (st, [])
  | some (s, k, w, ool) => do
    let scr ← st.currentScreen?
    let wk ← scr.workspaces.get? scr.current_wk
    let st1 ←
      if ool then do
        let p ← removeAt? wk.ool_windows w
        st.setWk? st.current_scr scr.current_wk { wk with ool_windows := p.2 }
      else do
        let p ← removeAt? wk.windows w
        st.setWk? st.current_scr scr.current_wk { wk with windows := p.2 }
    -- full `_NET_CLIENT_LIST` rebuild: one clearing request plus one
    -- append per tracked window
    let clientReqs := Req.changeProperty :: st1.allWindows.map (fun _ => Req.changeProperty)
    let (st2, focusReqs) ←
      if setF then st1.reset_focus_after_removing s k w ool
      else do
        let wk1 ← st1.currentWorkspace?
        match wk1.focused with
        | none => pure (st1, ([] : List (Req Win)))
        | some focused =>
          -- the two focus-fixup chains of lines 470-494, keyed on `ool`;
          -- `focused` is the value captured before either chain runs
          let st2 ← st1.modifyCurrentWk? (focusFixup ool focused)
          pure (st2, [])
    let layReqs ← unmanageLayReqs cfg ool st2
    pure (st2, clientReqs ++ focusReqs ++ layReqs)

/-- `Lapin::toggle_focus` (`lib.rs` lines 552-559): focus a window at
its located coordinates (the `EnterNotify` handler; `raise` is
`config.mouse_raises_window`). -/
def toggle_focus (st : Lapin Win) (win : Win) (raise : Bool) :
    Option (Lapin Win × List (Req Win)) :=
  match st.window_location win with
  | none => some (st, [])
  | some (s, k, w, ool) => do
    let oldFocus ← st.get_focused_window
    let restoreReq := match oldFocus with
      | some oldWin => [Req.changeAttributes oldWin]
      | none => []
    let (st1, reqs) ← st.set_focus win s k w ool raise
    pure (st1, restoreReq ++ reqs)

/-- `Lapin::toggle_ool` (`lapin_api.rs` lines 504-558): move the
focused window between the two sequences of the current workspace,
always to index 0 of the destination, refocused there. -/
def toggle_ool (cfg : Config) (st : Lapin Win) :
    Option (Lapin Win × List (Req Win)) := do
  let wk ← st.currentWorkspace?
  match wk.focused with
  | none => pure (st, [])
  | some w =>
    let scr ← st.currentScreen?
    if wk.ool_focus then do
      let p ← removeAt? wk.ool_windows w
      let st1 ← st.setWk? st.current_scr scr.current_wk
        { wk with ool_windows := p.2, windows := p.1 :: wk.windows,
                  ool_focus := false, focused := some 0 }
      let lay ← st1.currentLayout? cfg
      let (cw, ch, cx, cy) ← st1.calculate_layout_coordinates cfg
      let wk1 ← st1.currentWorkspace?
      let newReqs ← lay.newwin wk1.windows cw ch cx cy
      pure (st1, newReqs ++ [Req.configure p.1 [ConfigItem.borderWidth lay.border_width]])
    else do
      let p ← removeAt? wk.windows w
      let st1 ← st.setWk? st.current_scr scr.current_wk
        { wk with windows := p.2, ool_windows := p.1 :: wk.ool_windows,
                  ool_focus := true, focused := some 0 }
      let lay ← st1.currentLayout? cfg
      let (cw, ch, cx, cy) ← st1.calculate_layout_coordinates cfg
      let wk1 ← st1.currentWorkspace?
      pure (st1, lay.delwin wk1.windows wk1.focused cw ch cx cy ++
        [Req.configure p.1 [ConfigItem.borderWidth cfg.border_width], Req.changeProperty])

/-- `Lapin::goto_workspace` (`lapin_api.rs` lines 277-336): unmap the
old workspace's windows, switch `current_wk`, map and refocus the new
workspace's windows, reload its layout.  No-op when the target equals
the current workspace. -/
def goto_workspace (cfg : Config) (st : Lapin Win) (k : Nat) :
    Option (Lapin Win × List (Req Win)) := do
  let scr ← st.currentScreen?
  if scr.current_wk = k then pure (st, []) else do
    let wkOld ← st.currentWorkspace?
    let unmaps := wkOld.windows.map Req.unmap ++ wkOld.ool_windows.map Req.unmap
    let st1 : Lapin Win :=
      { st with screens := st.screens.set st.current_scr { scr with current_wk := k } }
    let wkNew ← st1.currentWorkspace?
    let maps := wkNew.windows.map Req.map ++ wkNew.ool_windows.map Req.map
    let focusReqs ←
      match wkNew.focused with
      | some f =>
        (if wkNew.ool_focus then wkNew.ool_windows.get? f else wkNew.windows.get? f).map
          (fun w => [Req.setInputFocus w])
      | none => some [Req.setInputFocusRoot]
    let lay ← st1.currentLayout? cfg
    let (cw, ch, cx, cy) ← st1.calculate_layout_coordinates cfg
    pure (st1, unmaps ++ [Req.changeProperty] ++ maps ++ focusReqs ++
      lay.reload wkNew.windows cw ch cx cy)

/-- Cyclic screen-index arithmetic shared by `change_screen` and
`change_window_screen` (`lib.rs` lines 722-733 and 763-774). -/
def cycleScreen (n cur : Nat) (previous : Bool) : Nat :=
  if previous then (if cur = 0 then n - 1 else cur - 1)
  else (if n ≤ cur + 1 then 0 else cur + 1)

/-- `Lapin::change_screen` (`lib.rs` lines 718-759): move focus to the
next/previous monitor (wrapping), refocusing that screen's current
window or the root. -/
def change_screen (st : Lapin Win) (previous : Bool) :
    Option (Lapin Win × List (Req Win)) := do
  let oldFocus ← st.get_focused_window
  let restoreReq := match oldFocus with
    | some w => [Req.changeAttributes w]
    | none => []
  let st1 : Lapin Win :=
    { st with current_scr := cycleScreen st.screens.length st.current_scr previous }
  let newFocus ← st1.get_focused_window
  let focusReqs := match newFocus with
    | some w => [Req.changeAttributes w, Req.setInputFocus w]
    | none => [Req.setInputFocusRoot]
  let _ ← st1.currentScreen?
  pure (st1, restoreReq ++ focusReqs ++ [Req.changeProperty])

/-- The focused-window removal shared by `change_window_screen` and
`send_window_to_workspace` (`lib.rs` lines 788-796, `lapin_api.rs`
lines 584-599): take the focused window out of the selected sequence
of workspace `(s, k)`. -/
def removeFocusedAt (st : Lapin Win) (s k : Nat) (wk : Workspace Win) (ool : Bool)
    (w : Nat) : Option (Lapin Win) :=
  if ool then do
    let p ← removeAt? wk.ool_windows w
    st.setWk? s k { wk with ool_windows := p.2 }
  else do
    let p ← removeAt? wk.windows w
    st.setWk? s k { wk with windows := p.2 }

/-- The layout `delwin` block shared by `change_window_screen` and
`send_window_to_workspace` (`lib.rs` lines 812-822, `lapin_api.rs`
lines 614-621): pure reads, no state change. -/
def sendDelReqs (cfg : Config) (ool : Bool) (st3 : Lapin Win) :
    Option (List (Req Win)) :=
  if ¬ool then do
    let lay ← st3.currentLayout? cfg
    let (cw, ch, cx, cy) ← st3.calculate_layout_coordinates cfg
    let wk3 ← st3.currentWorkspace?
    pure (lay.delwin wk3.windows wk3.focused cw ch cx cy)
  else pure []

/-- The move of the focused window to workspace `wkIdx` inside
`send_window_to_workspace` (`lapin_api.rs` lines 584-607): remove from
the source sequence, push onto the target sequence, set the target's
focus mode; returns the moved window and the removed mode. -/
def sendMove (st : Lapin Win) (scr : Screen Win) (wk : Workspace Win) (wkIdx w : Nat) :
    Option (Bool × Win × Lapin Win) :=
  if wk.ool_focus then do
    let p ← removeAt? wk.ool_windows w
    let sA ← st.setWk? st.current_scr scr.current_wk { wk with ool_windows := p.2 }
    let sB ← sA.modifyWk? st.current_scr wkIdx (fun twk =>
      { twk with ool_windows := p.1 :: twk.ool_windows, ool_focus := true })
    pure (true, p.1, sB)
  else do
    let p ← removeAt? wk.windows w
    let sA ← st.setWk? st.current_scr scr.current_wk { wk with windows := p.2 }
    let sB ← sA.modifyWk? st.current_scr wkIdx (fun twk =>
      { twk with windows := p.1 :: twk.windows, ool_focus := false })
    pure (false, p.1, sB)

/-- `Lapin::change_window_screen` (`lib.rs` lines 761-839): migrate the
focused window to the next/previous screen's current workspace,
re-resolving focus on the source workspace. -/
def change_window_screen_go (cfg : Config) (st : Lapin Win) (previous : Bool)
    (window : Win) : Option (Lapin Win × List (Req Win)) := do
  let otherScreen := cycleScreen st.screens.length st.current_scr previous
  let scr ← st.currentScreen?
  let wk ← st.currentWorkspace?
  let ool := wk.ool_focus
  let s := st.current_scr
  let k := scr.current_wk
  let w ← wk.focused
  let st1 ← st.removeFocusedAt s k wk ool w
  let (st2, rReqs) ← st1.reset_focus_after_removing s k w ool
  let delReqs ← sendDelReqs cfg ool st2
  let oscr ← st2.screens.get? otherScreen
  let otherK := oscr.current_wk
  -- self.screens[other_screen].workspaces[other_k].focused = Some(0);
  let st3 ← st2.modifyWk? otherScreen otherK (fun owk => { owk with focused := some 0 })
  if ool then do
    let st4 ← st3.modifyWk? otherScreen otherK (fun owk =>
      { owk with ool_windows := window :: owk.ool_windows, ool_focus := true })
    pure (st4, rReqs ++ [Req.changeAttributes window] ++ delReqs ++
      [Req.configure window [ConfigItem.X oscr.x, ConfigItem.Y oscr.y,
        ConfigItem.stackAbove]])
  else do
    let owk ← (st3.screens.get? otherScreen).bind (fun o => o.workspaces.get? otherK)
    let olay ← cfg.layouts.get? owk.layout
    let st4 ← st3.modifyWk? otherScreen otherK (fun owkc =>
      { owkc with windows := window :: owkc.windows, ool_focus := false })
    let owk4 ← (st4.screens.get? otherScreen).bind (fun o => o.workspaces.get? otherK)
    let newReqs ← olay.newwin owk4.windows oscr.width oscr.height oscr.x oscr.y
    pure (st4, rReqs ++ [Req.changeAttributes window] ++ delReqs ++ newReqs)

/-- `Lapin::change_window_screen` (`lib.rs` lines 761-839), entry: a
no-op without a focused window, else the migration above. -/
def change_window_screen (cfg : Config) (st : Lapin Win) (previous : Bool) :
    Option (Lapin Win × List (Req Win)) := do
  let fw ← st.get_focused_window
  match fw with
  | none => pure (st, [])
  | some window => st.change_window_screen_go cfg previous window

/-- `Lapin::send_window_to_workspace` (`lapin_api.rs` lines 571-628):
move the focused window to another workspace of the current screen
(always to index 0, focused there), then re-resolve focus on the
source workspace.  No-op when the target is the current workspace. -/
def send_window_to_workspace (cfg : Config) (st : Lapin Win) (wkIdx : Nat) :
    Option (Lapin Win × List (Req Win)) := do
  let scr ← st.currentScreen?
  if scr.current_wk = wkIdx then pure (st, []) else do
    let wk ← st.currentWorkspace?
    match wk.focused with
    | none => pure (st, [])
    | some w => do
      let (ool, window, st1) ← st.sendMove scr wk wkIdx w
      let st2 ← st1.modifyWk? st.current_scr wkIdx (fun twk => { twk with focused := some 0 })
      -- EWMH desktop property and unmap
      let wkAfter ← st2.currentWorkspace?
      let wNow ← wkAfter.focused
      let scr2 ← st2.currentScreen?
      let (st3, rReqs) ← st2.reset_focus_after_removing st2.current_scr scr2.current_wk wNow ool
      let delReqs ← sendDelReqs cfg ool st3
      pure (st3, [Req.changeProperty, Req.unmap window] ++ rReqs ++ delReqs)

end Lapin

/-! ## The operation alphabet and reachability -/

/-- The model operations of the claims; external inputs of an
operation (query replies, which command the user issued) are
constructor arguments. -/
inductive Op (Win : Type) : Type where
  | manage (win : Win) (attr : Option Bool) (cls : Option (String × String))
  | unmanage (win : Win) (setF : Bool)
  | toggleFocus (win : Win) (raise : Bool)
  | changeWin (previous : Bool)
  | toggleOol
  | gotoWorkspace (k : Nat)
  | changeScreen (previous : Bool)
  | changeWindowScreen (previous : Bool)
  | sendWindowToWorkspace (k : Nat)
  deriving Repr, DecidableEq

/-- Apply one operation, keeping only the state (`none` = panic). -/
def applyOp (cfg : Config) (op : Op Win) (st : Lapin Win) : Option (Lapin Win) :=
  (match op with
   | .manage win attr cls => st.manage_window cfg win attr cls
   | .unmanage win setF => st.unmanage_window cfg win setF
   | .toggleFocus win raise => st.toggle_focus win raise
   | .changeWin previous => st.change_win cfg previous
   | .toggleOol => st.toggle_ool cfg
   | .gotoWorkspace k => st.goto_workspace cfg k
   | .changeScreen previous => st.change_screen previous
   | .changeWindowScreen previous => st.change_window_screen cfg previous
   | .sendWindowToWorkspace k => st.send_window_to_workspace cfg k).map Prod.fst

/-- A startup state: every workspace is empty and unfocused
(`Workspace::new` in `screens.rs`); screen count, geometry and the
current indices are arbitrary. -/
def InitState (st : Lapin Win) : Prop :=
  ∀ scr ∈ st.screens, ∀ wk ∈ scr.workspaces,
    wk.windows = [] ∧ wk.ool_windows = [] ∧ wk.focused = none

/-- States reachable from a startup state through non-panicking
operations. -/
inductive Reachable (cfg : Config) : Lapin Win → Prop where
  | init (st : Lapin Win) (h : InitState st) : Reachable cfg st
  | step (st st' : Lapin Win) (op : Op Win) (h : Reachable cfg st)
      (hs : applyOp cfg op st = some st') : Reachable cfg st'

/-- Linearize a focus position over the two rings: managed positions
first (`0 ≤ w < m`), then out-of-layout positions (`m ≤ m + w < m + o`). -/
def linIdx (m w : Nat) (ool : Bool) : Nat := if ool then m + w else w

/-- Iterate the focus effect of `change_win` (panic-propagating). -/
def iterChangeWin {Win : Type} [DecidableEq Win] (previous : Bool) :
    Nat → Workspace Win → Option (Workspace Win)
  | 0, wk => some wk
  | n + 1, wk => (Lapin.change_win_focus previous wk).bind (iterChangeWin previous n)

/-- The specification's focus invariant (claim C1), stated from the
spec's words: `focused` is `None` exactly when both sequences are
empty, and otherwise indexes inside the sequence `ool_focus` selects. -/
def specFocusInvariant (wk : Workspace Win) : Prop :=
  (wk.focused = none ↔ wk.windows = [] ∧ wk.ool_windows = []) ∧
  (∀ i, wk.focused = some i →
    i < (if wk.ool_focus then wk.ool_windows.length else wk.windows.length))

/-- The spec's focus invariant over every workspace of the state. -/
def specStateInvariant (st : Lapin Win) : Prop :=
  ∀ scr ∈ st.screens, ∀ wk ∈ scr.workspaces, specFocusInvariant wk

/-- The provable part of the focus invariant for one workspace: a
`Some` focus indexes inside the selected sequence, and a workspace
whose two sequences are both empty has no focus. -/
def wkValid (wk : Workspace Win) : Prop :=
  (∀ i, wk.focused = some i →
    i < (if wk.ool_focus then wk.ool_windows.length else wk.windows.length)) ∧
  (wk.windows = [] → wk.ool_windows = [] → wk.focused = none)

/-- Focus validity over every workspace of the state. -/
def stValid (st : Lapin Win) : Prop :=
  ∀ s scr k wk, st.screens.get? s = some scr → scr.workspaces.get? k = some wk →
    wkValid wk

/-- Focus validity over every workspace of the state except the one at
`(s, k)` (the workspace an operation is about to repair). -/
def stValidExcept (st : Lapin Win) (s k : Nat) : Prop :=
  ∀ s2 scr2 k2 wk2, st.screens.get? s2 = some scr2 →
    scr2.workspaces.get? k2 = some wk2 → ¬(s2 = s ∧ k2 = k) → wkValid wk2

/-- Every tracked window occurs at most once over all
`(screen, workspace, sequence)` triples. -/
def Uniq (st : Lapin Win) : Prop := ∀ b : Win, (st.allWindows).count b ≤ 1

/-- An operation is removal-safe at a state when, if it is an
`unmanage`, the window it would remove is located in the current
workspace — the workspace `unmanage_window` actually removes from. -/
def SafeOp (op : Op Win) (st : Lapin Win) : Prop :=
  match op with
  | .unmanage win _ => ∀ s k w ool, st.window_location win = some (s, k, w, ool) →
      s = st.current_scr ∧ ∀ scr, st.screens.get? s = some scr → k = scr.current_wk
  | _ => True

/-- Reachability through non-panicking, removal-safe operations. -/
inductive ReachableSafe (cfg : Config) : Lapin Win → Prop where
  | init (st : Lapin Win) (h : InitState st) : ReachableSafe cfg st
  | step (st st' : Lapin Win) (op : Op Win) (h : ReachableSafe cfg st)
      (hsafe : SafeOp op st) (hs : applyOp cfg op st = some st') : ReachableSafe cfg st'

/-! ## Concrete instances for the reachability claims -/

/-- A rule-free configuration with one floating layout. -/
def cfgNoRules : Config := ⟨[], [LayoutKind.floating ⟨4⟩], 4, ⟨0, 0, 0, 0⟩, true⟩

/-- A configuration whose single rule sends class `"x"` to workspace 1. -/
def cfgWkRule : Config :=
  ⟨[⟨"x", Apply.workspace 1⟩], [LayoutKind.floating ⟨4⟩], 4, ⟨0, 0, 0, 0⟩, true⟩

/-- A startup state with one screen holding one empty workspace. -/
def stEmpty1 : Lapin Nat := ⟨[⟨[⟨[], [], none, false, 0, true⟩], 0, 800, 600, 0, 0⟩], 0⟩

/-- A startup state with one screen holding two empty workspaces. -/
def stEmpty2 : Lapin Nat :=
  ⟨[⟨[⟨[], [], none, false, 0, true⟩, ⟨[], [], none, false, 0, true⟩], 0, 800, 600, 0, 0⟩], 0⟩

/-- `stEmpty1` after managing window `7` (no rule fires). -/
def stOne7 : Lapin Nat := ⟨[⟨[⟨[7], [], some 0, false, 0, true⟩], 0, 800, 600, 0, 0⟩], 0⟩

/-- `stEmpty2` after managing window `7` under `cfgWkRule`: the rule
routes the window to the non-current workspace 1, whose `focused`
stays `none` although its managed ring is now `[7]`. -/
def stRuled7 : Lapin Nat :=
  ⟨[⟨[⟨[], [], none, false, 0, true⟩, ⟨[7], [], none, false, 0, true⟩], 0, 800, 600, 0, 0⟩], 0⟩

/-! ## Basic lemmas about the embedding's helpers -/

set_option linter.unusedSectionVars false

open Lapin

theorem u16_eq {a : Nat} (h : a < 65536) : u16 a = a := Nat.mod_eq_of_lt h

theorem sub16_eq {a b : Nat} (hb : b ≤ a) (ha : a < 65536) : sub16 a b = a - b := by
  unfold sub16
  rw [Nat.mod_eq_of_lt ha, Nat.mod_eq_of_lt (lt_of_le_of_lt hb ha)]
  have : a + 65536 - b = (a - b) + 65536 := by omega
  rw [this, Nat.add_mod_right, Nat.mod_eq_of_lt (by omega)]

theorem i16_eq {v : Int} (h1 : -32768 ≤ v) (h2 : v ≤ 32767) : i16 v = v := by
  unfold i16
  rw [Int.emod_eq_of_lt (by omega) (by omega)]
  omega

theorem removeAt?_isSome {α : Type} : ∀ (l : List α) (n : Nat), n < l.length →
    ∃ p, removeAt? l n = some p := by
  intro l
  induction l with
  | nil => intro n h; simp at h
  | cons a t ih =>
    intro n h
    cases n with
    | zero => exact ⟨(a, t), rfl⟩
    | succ m =>
      obtain ⟨p, hp⟩ := ih m (by simpa using h)
      exact ⟨(p.1, a :: p.2), by simp [removeAt?, hp]⟩

theorem removeAt?_perm {α : Type} : ∀ {l : List α} {n : Nat} {p : α × List α},
    removeAt? l n = some p → l.Perm (p.1 :: p.2) := by
  intro l
  induction l with
  | nil => intro n p h; simp [removeAt?] at h
  | cons a t ih =>
    intro n p h
    cases n with
    | zero =>
      simp [removeAt?] at h
      simp [← h]
    | succ m =>
      simp only [removeAt?, Option.map_eq_some'] at h
      obtain ⟨q, hq, rfl⟩ := h
      exact ((ih hq).cons a).trans (List.Perm.swap _ _ _)

theorem removeAt?_get {α : Type} : ∀ {l : List α} {n : Nat} {p : α × List α},
    removeAt? l n = some p → l.get? n = some p.1 ∧ l.length = p.2.length + 1 := by
  intro l
  induction l with
  | nil => intro n p h; simp [removeAt?] at h
  | cons a t ih =>
    intro n p h
    cases n with
    | zero => simp [removeAt?] at h; simp [← h]
    | succ m =>
      simp only [removeAt?, Option.map_eq_some'] at h
      obtain ⟨q, hq, rfl⟩ := h
      have := ih hq
      simpa using this

theorem removeAt?_count {α : Type} [DecidableEq α] {l : List α} {n : Nat}
    {p : α × List α} (h : removeAt? l n = some p) (b : α) :
    l.count b = p.2.count b + if p.1 = b then 1 else 0 := by
  have := (removeAt?_perm h).count_eq b
  rw [this, List.count_cons]
  simp

theorem idxOf?_eq_none {win : Win} : ∀ {l : List Win},
    Lapin.idxOf? win l = none ↔ win ∉ l := by
  intro l
  induction l with
  | nil => simp [Lapin.idxOf?]
  | cons a t ih =>
    by_cases ha : a = win
    · simp [Lapin.idxOf?, ha, eq_comm]
    · have hstep : Lapin.idxOf? win (a :: t) = (Lapin.idxOf? win t).map (· + 1) := by
        simp [Lapin.idxOf?, ha]
      rw [hstep, Option.map_eq_none', ih]
      simp only [List.mem_cons, not_or]
      exact ⟨fun h => ⟨fun heq => ha heq.symm, h⟩, fun h => h.2⟩

theorem idxOf?_get {win : Win} : ∀ {l : List Win} {i : Nat},
    Lapin.idxOf? win l = some i → l.get? i = some win := by
  intro l
  induction l with
  | nil => intro i h; simp [Lapin.idxOf?] at h
  | cons a t ih =>
    intro i h
    by_cases ha : a = win
    · simp [Lapin.idxOf?, ha] at h
      simp [← h, ha]
    · simp only [Lapin.idxOf?, if_neg ha, Option.map_eq_some'] at h
      obtain ⟨j, hj, rfl⟩ := h
      simpa using ih hj

theorem count_flatMap_set {α β : Type} [DecidableEq β] (f : α → List β) :
    ∀ (l : List α) (i : Nat) (x y : α), l.get? i = some y → ∀ b,
      ((l.set i x).flatMap f).count b + (f y).count b
        = (l.flatMap f).count b + (f x).count b := by
  intro l
  induction l with
  | nil => intro i x y h; simp at h
  | cons a t ih =>
    intro i x y h b
    cases i with
    | zero =>
      simp only [List.get?] at h
      obtain rfl : a = y := by injection h
      simp [List.count_append]
      omega
    | succ n =>
      simp only [List.get?] at h
      have := ih n x y h b
      simp [List.count_append]
      omega

/-! ## Claim C4: tiling exactness

The spec's concrete instance is wrong about the master rectangle: at
`n = 3`, `W = 1280`, `H = 800`, `master_factor = 0.5`, `g = b = 4` the
source computes master width `640 - 6 - 8 = 626` (not `628`) and
master height `800 - 8 - 8 = 784` (not `792`).  The slave data
(`386`-pixel heights, y offsets `4` and `402`) is as claimed.  Exact
accounting holds in the corrected concrete case, and in general under
the parity, no-underflow and divisibility hypotheses that make the
source's truncating arithmetic exact. -/

/-- C4 counterexample: at the spec's own concrete instance the master
request carries width `626` and height `784`, not the claimed
`w = 628`, `h = 792`. -/
theorem C4_counterexample :
    (Tiling.reload ⟨4, 1, 2, 4⟩ [0, 1, 2] 1280 800 0 0 : List (Req Nat)).head? =
      some (Req.configure 0
        [ConfigItem.X 4, ConfigItem.Y 4, ConfigItem.W 626, ConfigItem.H 784]) ∧
    (Tiling.reload ⟨4, 1, 2, 4⟩ [0, 1, 2] 1280 800 0 0 : List (Req Nat)).head? ≠
      some (Req.configure 0
        [ConfigItem.X 4, ConfigItem.Y 4, ConfigItem.W 628, ConfigItem.H 792]) := by
  constructor
  · rfl
  · decide

/-- C4 (amended): tiling exactness.  (1) The corrected concrete case:
for three managed windows on a `1280 × 800` area with
`master_factor = 1/2`, gaps and borders `4`, the master rect is
`x = 4, y = 4, w = 626, h = 784` and the two slaves are `626` wide and
`386` tall at `x = 642`, with y offsets `4 + 0*(386+8)` and
`4 + 1*(386+8) + 4`; pixel accounting is exact both horizontally
(`g + (w_m + 2b) + g + (w_s + 2b) + g = W`) and vertically
(`g + h_m + 2b + g = H` for the master, `n·g + Σ(h_s + 2b) = H` over
the slaves).  (2) In general, for `master_factor = 1/2`, even `W` and
even `g`, no underflow, and `ns` slaves dividing the distributable
height exactly, the same three accounting identities hold. -/
theorem C4_tiling_exactness :
    ((Tiling.reload ⟨4, 1, 2, 4⟩ [0, 1, 2] 1280 800 0 0 : List (Req Nat)) =
      [Req.configure 0
         [ConfigItem.X 4, ConfigItem.Y 4, ConfigItem.W 626, ConfigItem.H 784],
       Req.configure 1
         [ConfigItem.X 642, ConfigItem.Y 4, ConfigItem.W 626, ConfigItem.H 386],
       Req.configure 2
         [ConfigItem.X 642, ConfigItem.Y 402, ConfigItem.W 626, ConfigItem.H 386]] ∧
     (Tiling.slaveY ⟨4, 1, 2, 4⟩ 386 0 0 = 4 + 0 * (386 + 8) ∧
      Tiling.slaveY ⟨4, 1, 2, 4⟩ 386 1 0 = 4 + 1 * (386 + 8) + 4) ∧
     (3 * 4 + (Tiling.masterW ⟨4, 1, 2, 4⟩ 1280 + 2 * 4)
        + (Tiling.slaveW ⟨4, 1, 2, 4⟩ 1280 + 2 * 4) = 1280 ∧
      4 + Tiling.masterH ⟨4, 1, 2, 4⟩ 800 + 2 * 4 + 4 = 800 ∧
      2 * Tiling.slaveH ⟨4, 1, 2, 4⟩ 800 2 + 4 * (2 + 1) + 4 * 2 * 2 = 800)) ∧
    (∀ (b g W H ns : Nat),
      g % 2 = 0 → W % 2 = 0 →
      3 * g / 2 + b * 2 ≤ W / 2 →
      g * 2 + b * 2 ≤ H →
      g * (ns + 1) + b * 2 * ns ≤ H →
      W < 65536 → H < 65536 → 1 ≤ ns →
      ns ∣ (H - g * (ns + 1) - b * 2 * ns) →
      (3 * g + (Tiling.masterW ⟨b, 1, 2, g⟩ W + b * 2)
          + (Tiling.slaveW ⟨b, 1, 2, g⟩ W + b * 2) = W ∧
       g + Tiling.masterH ⟨b, 1, 2, g⟩ H + b * 2 + g = H ∧
       ns * Tiling.slaveH ⟨b, 1, 2, g⟩ H ns + g * (ns + 1) + b * 2 * ns = H)) := by
  constructor
  · refine ⟨by rfl, by constructor <;> rfl, by constructor <;> [rfl; constructor <;> rfl]⟩
  · intro b g W H ns hg hW h3 hH hHn hW16 hH16 hns hdvd
    have hmspan : Tiling.masterSpan ⟨b, 1, 2, g⟩ W = W / 2 := by
      show u16 (W * 1 / 2) = W / 2
      rw [Nat.mul_one]
      exact u16_eq (by omega)
    have hg32 : Tiling.gapsTimes3Div2 ⟨b, 1, 2, g⟩ = 3 * g / 2 := by
      show u16 (3 * g / 2) = 3 * g / 2
      exact u16_eq (by omega)
    have hinW : sub16 (W / 2) (3 * g / 2) = W / 2 - 3 * g / 2 :=
      sub16_eq (by omega) (by omega)
    have hmw : Tiling.masterW ⟨b, 1, 2, g⟩ W = W / 2 - 3 * g / 2 - b * 2 := by
      show sub16 (sub16 (Tiling.masterSpan ⟨b, 1, 2, g⟩ W)
        (Tiling.gapsTimes3Div2 ⟨b, 1, 2, g⟩)) (u16 (b * 2)) = _
      rw [hmspan, hg32, u16_eq (by omega), hinW, sub16_eq (by omega) (by omega)]
    have hsw : Tiling.slaveW ⟨b, 1, 2, g⟩ W = W / 2 - 3 * g / 2 - b * 2 := by
      show sub16 (sub16 (W / 2) (Tiling.gapsTimes3Div2 ⟨b, 1, 2, g⟩)) (u16 (b * 2)) = _
      rw [hg32, u16_eq (by omega), hinW, sub16_eq (by omega) (by omega)]
    have hinH : sub16 H (g * 2) = H - g * 2 := sub16_eq (by omega) (by omega)
    have hmh : Tiling.masterH ⟨b, 1, 2, g⟩ H = H - g * 2 - b * 2 := by
      show sub16 (sub16 H (u16 (g * 2))) (u16 (b * 2)) = _
      rw [u16_eq (by omega), u16_eq (by omega), hinH, sub16_eq (by omega) (by omega)]
    have hinHn : sub16 H (g * (ns + 1)) = H - g * (ns + 1) :=
      sub16_eq (by omega) (by omega)
    have hsh : Tiling.slaveH ⟨b, 1, 2, g⟩ H ns
        = (H - g * (ns + 1) - b * 2 * ns) / ns := by
      show sub16 (sub16 H (u16 (g * (ns + 1)))) (u16 (b * 2 * ns)) / ns = _
      rw [u16_eq (by omega), u16_eq (by omega), hinHn, sub16_eq (by omega) (by omega)]
    refine ⟨by rw [hmw, hsw]; omega, by rw [hmh]; omega, ?_⟩
    rw [hsh, Nat.mul_div_cancel' hdvd]
    omega

/-- C4 witness: the general accounting identities of
`C4_tiling_exactness` instantiated at the concrete
`b = g = 4`, `W = 1280`, `H = 800`, `ns = 2`. -/
theorem C4_tiling_exactness_witness :
    3 * 4 + (Tiling.masterW ⟨4, 1, 2, 4⟩ 1280 + 4 * 2)
        + (Tiling.slaveW ⟨4, 1, 2, 4⟩ 1280 + 4 * 2) = 1280 ∧
      4 + Tiling.masterH ⟨4, 1, 2, 4⟩ 800 + 4 * 2 + 4 = 800 ∧
      2 * Tiling.slaveH ⟨4, 1, 2, 4⟩ 800 2 + 4 * (2 + 1) + 4 * 2 * 2 = 800 :=
  C4_tiling_exactness.2 4 4 1280 800 2 (by decide) (by decide) (by decide)
    (by decide) (by decide) (by decide) (by decide) (by decide) (by decide)

/-! ## Claim C5: layout empty/singleton safety

`Maximized::newwin` begins with `*windows.next().unwrap()` and
therefore panics on an empty window sequence; the claim (and the
spec's "must not fail or panic when the sequence is empty") is the
clear intent, so this is a code bug.  Every other
`(variant, operation)` pair is panic-free and issues no request on an
empty sequence, and all handle the singleton case. -/

/-- C5: `Maximized::newwin` panics (`= none`) on an empty sequence,
violating the layout contract, while every other variant/operation
pair is a request-free no-op on the empty sequence and all pairs
(including `Maximized::newwin`) succeed on a singleton. -/
theorem C5_layout_empty_singleton :
    ((LayoutKind.maximized ⟨0, 0⟩).newwin ([] : List Nat) 1280 800 0 0 = none) ∧
    ((LayoutKind.tiling ⟨4, 1, 2, 4⟩).newwin ([] : List Nat) 1280 800 0 0 = some [] ∧
     (LayoutKind.floating ⟨4⟩).newwin ([] : List Nat) 1280 800 0 0 = some []) ∧
    ((LayoutKind.tiling ⟨4, 1, 2, 4⟩).delwin ([] : List Nat) none 1280 800 0 0 = [] ∧
     (LayoutKind.maximized ⟨0, 0⟩).delwin ([] : List Nat) none 1280 800 0 0 = [] ∧
     (LayoutKind.floating ⟨4⟩).delwin ([] : List Nat) none 1280 800 0 0 = []) ∧
    ((LayoutKind.tiling ⟨4, 1, 2, 4⟩).reload ([] : List Nat) 1280 800 0 0 = [] ∧
     (LayoutKind.maximized ⟨0, 0⟩).reload ([] : List Nat) 1280 800 0 0 = [] ∧
     (LayoutKind.floating ⟨4⟩).reload ([] : List Nat) 1280 800 0 0 = []) ∧
    ((LayoutKind.tiling ⟨4, 1, 2, 4⟩).changewin ([] : List Nat) 0 1280 800 0 0 = [] ∧
     (LayoutKind.maximized ⟨0, 0⟩).changewin ([] : List Nat) 0 1280 800 0 0 = [] ∧
     (LayoutKind.floating ⟨4⟩).changewin ([] : List Nat) 0 1280 800 0 0 = []) ∧
    (((LayoutKind.tiling ⟨4, 1, 2, 4⟩).newwin [7] 1280 800 0 0 : Option (List (Req Nat))).isSome ∧
     ((LayoutKind.maximized ⟨0, 0⟩).newwin [7] 1280 800 0 0 : Option (List (Req Nat))).isSome ∧
     ((LayoutKind.floating ⟨4⟩).newwin [7] 1280 800 0 0 : Option (List (Req Nat))).isSome) := by
  decide

/-! ## Claim C8: rule application, last match wins -/

theorem foldl_ruleStep_border_false {W' : Type} (win : W') (sw sh : Nat) (sx sy : Int)
    (c1 c2 : String) : ∀ (rules : List Rule) (acc : RuleOutcome × List (Req W')),
    acc.1.add_border = false →
    (rules.foldl (ruleStep win sw sh sx sy c1 c2) acc).1.add_border = false := by
  intro rules
  induction rules with
  | nil => intro acc h; simpa using h
  | cons r rs ih =>
    intro acc h
    apply ih
    simp only [ruleStep]
    split_ifs with hc
    · cases hr : r.apply <;> simp [h]
    · exact h

theorem foldl_ruleStep_ool_true {W' : Type} (win : W') (sw sh : Nat) (sx sy : Int)
    (c1 c2 : String) : ∀ (rules : List Rule) (acc : RuleOutcome × List (Req W')),
    acc.1.ool = true →
    (rules.foldl (ruleStep win sw sh sx sy c1 c2) acc).1.ool = true := by
  intro rules
  induction rules with
  | nil => intro acc h; simpa using h
  | cons r rs ih =>
    intro acc h
    apply ih
    simp only [ruleStep]
    split_ifs with hc
    · cases hr : r.apply <;> simp [h]
    · exact h

theorem foldl_ruleStep_fullscreen {W' : Type} (win : W') (sw sh : Nat) (sx sy : Int)
    (c1 c2 : String) (c : String) (hc : c = c1 ∨ c = c2) :
    ∀ (rules : List Rule) (acc : RuleOutcome × List (Req W')),
    (⟨c, Apply.fullscreen⟩ : Rule) ∈ rules →
    (rules.foldl (ruleStep win sw sh sx sy c1 c2) acc).1.add_border = false ∧
      (rules.foldl (ruleStep win sw sh sx sy c1 c2) acc).1.ool = true := by
  intro rules
  induction rules with
  | nil => intro acc h; simp at h
  | cons r rs ih =>
    intro acc hmem
    rcases List.mem_cons.mp hmem with heq | hmem'
    · subst heq
      simp only [List.foldl_cons]
      constructor
      · apply foldl_ruleStep_border_false
        simp [ruleStep, hc]
      · apply foldl_ruleStep_ool_true
        simp [ruleStep, hc]
    · exact ih _ hmem'

/-- C8: rule application with last-match-wins.  (1) When the window's
class cannot be obtained, the default
`(add_border = true, ool = false, workspace = current)` is returned
unchanged.  (2) A `Workspace n` rule declared after any other rules
and matching either part of the class leaves the window on workspace
`n` regardless of what earlier rules chose (so of two matching
workspace rules, the later-declared one wins).  (3) A matching
`Fullscreen` rule anywhere in the list forces `add_border = false`
and `ool = true`. -/
theorem C8_rule_application (win : Win) (rules rs : List Rule) (current sw sh : Nat)
    (sx sy : Int) (c1 c2 c : String) (n : Nat) :
    ((apply_rules win rules current sw sh sx sy none).1
        = ⟨true, false, current⟩) ∧
    ((c = c1 ∨ c = c2) →
      (apply_rules win (rs ++ [⟨c, Apply.workspace n⟩]) current sw sh sx sy
          (some (c1, c2))).1.workspace = n) ∧
    ((⟨c, Apply.fullscreen⟩ : Rule) ∈ rules → (c = c1 ∨ c = c2) →
      (apply_rules win rules current sw sh sx sy (some (c1, c2))).1.add_border = false ∧
      (apply_rules win rules current sw sh sx sy (some (c1, c2))).1.ool = true) := by
  refine ⟨rfl, ?_, ?_⟩
  · intro hc
    show (List.foldl (ruleStep win sw sh sx sy c1 c2)
        (⟨true, false, current⟩, []) (rs ++ [⟨c, Apply.workspace n⟩])).1.workspace = n
    rw [List.foldl_append]
    simp [ruleStep, hc]
  · intro hmem hc
    exact foldl_ruleStep_fullscreen win sw sh sx sy c1 c2 c hc rules _ hmem

/-- C8 witness: the three parts of `C8_rule_application` at a concrete
window, rule list and class. -/
theorem C8_rule_application_witness :
    ((apply_rules (0 : Nat) [⟨"c", Apply.fullscreen⟩] 7 1280 800 0 0 none).1
        = ⟨true, false, 7⟩) ∧
    (apply_rules (0 : Nat) ([⟨"c", Apply.workspace 1⟩] ++ [⟨"c", Apply.workspace 5⟩]) 7
        1280 800 0 0 (some ("c", "d"))).1.workspace = 5 ∧
    ((apply_rules (0 : Nat) [⟨"c", Apply.fullscreen⟩] 7 1280 800 0 0
        (some ("c", "d"))).1.add_border = false ∧
     (apply_rules (0 : Nat) [⟨"c", Apply.fullscreen⟩] 7 1280 800 0 0
        (some ("c", "d"))).1.ool = true) :=
  ⟨(C8_rule_application 0 [⟨"c", Apply.fullscreen⟩] [] 7 1280 800 0 0 "c" "d" "c" 5).1,
   (C8_rule_application 0 [⟨"c", Apply.fullscreen⟩] [⟨"c", Apply.workspace 1⟩] 7 1280 800
      0 0 "c" "d" "c" 5).2.1 (Or.inl rfl),
   (C8_rule_application 0 [⟨"c", Apply.fullscreen⟩] [] 7 1280 800 0 0 "c" "d" "c" 5).2.2
      (by decide) (Or.inl rfl)⟩


theorem modifyCurrentWk?_eq (st : Lapin Win) {scr : Screen Win} {wk : Workspace Win}
    (hs : st.screens.get? st.current_scr = some scr)
    (hk : scr.workspaces.get? scr.current_wk = some wk)
    (f : Workspace Win → Workspace Win) :
    st.modifyCurrentWk? f =
      some { st with
             screens := st.screens.set st.current_scr
               { scr with
                 workspaces := scr.workspaces.set scr.current_wk (f wk) } } := by
  rw [List.get?_eq_getElem?] at hs
  rw [List.get?_eq_getElem?] at hk
  simp [Lapin.modifyCurrentWk?, Lapin.modifyWk?, Lapin.setWk?, Lapin.currentScreen?, hs, hk]

theorem currentFocus?_of_set (st : Lapin Win) (s : Nat) (scr' : Screen Win)
    (h : s < st.screens.length) {wk' : Workspace Win}
    (hwk : scr'.workspaces.get? scr'.current_wk = some wk') :
    ({ screens := st.screens.set s scr', current_scr := s } : Lapin Win).currentFocus?
      = some (wk'.focused, wk'.ool_focus) := by
  rw [List.get?_eq_getElem?] at hwk
  have h1 : ({ screens := st.screens.set s scr', current_scr := s } : Lapin Win).currentScreen?
      = some scr' := by
    show (st.screens.set s scr').get? s = some scr'
    rw [List.get?_eq_getElem?]
    exact List.getElem?_set_eq_of_lt _ h
  simp [Lapin.currentFocus?, Lapin.currentWorkspace?, h1, hwk]

theorem set_focus_eq (st : Lapin Win) (window : Win) {s k : Nat} (w : Nat)
    (ool raise : Bool) {scr : Screen Win} {wk : Workspace Win}
    (hs : st.screens.get? s = some scr) (hk : scr.workspaces.get? k = some wk) :
    st.set_focus window s k w ool raise =
      some ({ screens := st.screens.set s
                { scr with
                  current_wk := k,
                  workspaces := scr.workspaces.set k
                    { wk with focused := some w, ool_focus := ool } },
              current_scr := s },
            [Req.setInputFocus window] ++
              (if raise then [Req.configure window [ConfigItem.stackAbove]] else []) ++
              [Req.changeAttributes window]) := by
  obtain ⟨hlens, -⟩ := List.get?_eq_some.mp hs
  obtain ⟨hlenk, -⟩ := List.get?_eq_some.mp hk
  rw [List.get?_eq_getElem?] at hs
  rw [List.get?_eq_getElem?] at hk
  simp only [Lapin.set_focus, Lapin.modifyWk?, Lapin.setWk?]
  simp [hs, hk, List.getElem?_set_eq_of_lt _ hlens, List.getElem?_set_eq_of_lt _ hlenk,
    List.set_set]

theorem currentFocus?_of_set_focus_state (st : Lapin Win) {s k : Nat} (scr : Screen Win)
    (wk' : Workspace Win) (hlens : s < st.screens.length)
    (hlenk : k < scr.workspaces.length) :
    ({ screens := st.screens.set s
         { scr with current_wk := k, workspaces := scr.workspaces.set k wk' },
       current_scr := s } : Lapin Win).currentFocus? = some (wk'.focused, wk'.ool_focus) := by
  apply currentFocus?_of_set st s _ hlens
  show (scr.workspaces.set k wk').get? k = some wk'
  rw [List.get?_eq_getElem?]
  exact List.getElem?_set_eq_of_lt _ hlenk

/-- C6: `reset_focus_after_removing`, called on the current workspace
with the pre-removal focus `(mode, index) = (ool, w)`: the focus stays
in the same mode when that sequence is still non-empty, else switches
to whichever sequence is non-empty, else is cleared; whenever a
sequence survives, the new focus index is `min w (length - 1)` of the
surviving sequence (lengths taken after the removal). -/
theorem C6_reset_focus_after_removing (st : Lapin Win) (scr : Screen Win)
    (wk : Workspace Win) (w : Nat) (ool : Bool)
    (hs : st.screens.get? st.current_scr = some scr)
    (hk : scr.workspaces.get? scr.current_wk = some wk) :
    (ool = true → 0 < wk.ool_windows.length →
      ∃ p, st.reset_focus_after_removing st.current_scr scr.current_wk w ool = some p ∧
        p.1.currentFocus? = some (some (min w (wk.ool_windows.length - 1)), true)) ∧
    (ool = false → 0 < wk.windows.length →
      ∃ p, st.reset_focus_after_removing st.current_scr scr.current_wk w ool = some p ∧
        p.1.currentFocus? = some (some (min w (wk.windows.length - 1)), false)) ∧
    (ool = true → wk.ool_windows.length = 0 → 0 < wk.windows.length →
      ∃ p, st.reset_focus_after_removing st.current_scr scr.current_wk w ool = some p ∧
        p.1.currentFocus? = some (some (min w (wk.windows.length - 1)), false)) ∧
    (ool = false → wk.windows.length = 0 → 0 < wk.ool_windows.length →
      ∃ p, st.reset_focus_after_removing st.current_scr scr.current_wk w ool = some p ∧
        p.1.currentFocus? = some (some (min w (wk.ool_windows.length - 1)), true)) ∧
    (wk.windows.length = 0 → wk.ool_windows.length = 0 →
      ∃ p, st.reset_focus_after_removing st.current_scr scr.current_wk w ool = some p ∧
        p.1.currentFocus? = some (none, wk.ool_focus) ∧ p.2 = []) := by
  obtain ⟨hlens, -⟩ := List.get?_eq_some.mp hs
  obtain ⟨hlenk, -⟩ := List.get?_eq_some.mp hk
  have hcw : st.currentWorkspace? = some wk := by
    have hs2 := hs
    have hk2 := hk
    rw [List.get?_eq_getElem?] at hs2
    rw [List.get?_eq_getElem?] at hk2
    simp [Lapin.currentWorkspace?, Lapin.currentScreen?, hs2, hk2]
  have hoolw : ∀ v : Nat, v < wk.ool_windows.length →
      ∃ x, wk.ool_windows[v]? = some x := fun v hv => ⟨_, List.getElem?_eq_getElem hv⟩
  have hwinw : ∀ v : Nat, v < wk.windows.length →
      ∃ x, wk.windows[v]? = some x := fun v hv => ⟨_, List.getElem?_eq_getElem hv⟩
  refine ⟨?_, ?_, ?_, ?_, ?_⟩
  · intro ho hlen
    subst ho
    simp [Lapin.reset_focus_after_removing, hcw, hlen]
    have hw' : (if wk.ool_windows.length ≤ w then wk.ool_windows.length - 1 else w)
        = min w (wk.ool_windows.length - 1) := by
      rcases le_or_lt wk.ool_windows.length w with h | h
      · rw [if_pos h]; omega
      · rw [if_neg (by omega)]; omega
    rw [hw']
    obtain ⟨window, hwin⟩ := hoolw (min w (wk.ool_windows.length - 1)) (by omega)
    rw [hwin]
    simp only [Option.some_bind]
    rw [set_focus_eq st window (min w (wk.ool_windows.length - 1)) true true hs hk]
    refine ⟨_, ⟨_, rfl⟩, ?_⟩
    exact currentFocus?_of_set_focus_state st scr _ hlens hlenk
  · intro ho hlen
    subst ho
    simp [Lapin.reset_focus_after_removing, hcw, hlen]
    have hw' : (if wk.windows.length ≤ w then wk.windows.length - 1 else w)
        = min w (wk.windows.length - 1) := by
      rcases le_or_lt wk.windows.length w with h | h
      · rw [if_pos h]; omega
      · rw [if_neg (by omega)]; omega
    rw [hw']
    obtain ⟨window, hwin⟩ := hwinw (min w (wk.windows.length - 1)) (by omega)
    rw [hwin]
    simp only [Option.some_bind]
    rw [set_focus_eq st window (min w (wk.windows.length - 1)) false true hs hk]
    refine ⟨_, ⟨_, rfl⟩, ?_⟩
    exact currentFocus?_of_set_focus_state st scr _ hlens hlenk
  · intro ho hoe hlen
    subst ho
    simp [Lapin.reset_focus_after_removing, hcw, hoe, hlen]
    have hw' : (if wk.windows.length ≤ w then wk.windows.length - 1 else w)
        = min w (wk.windows.length - 1) := by
      rcases le_or_lt wk.windows.length w with h | h
      · rw [if_pos h]; omega
      · rw [if_neg (by omega)]; omega
    rw [hw']
    obtain ⟨window, hwin⟩ := hwinw (min w (wk.windows.length - 1)) (by omega)
    rw [hwin]
    simp only [Option.some_bind]
    rw [set_focus_eq st window (min w (wk.windows.length - 1)) false true hs hk]
    refine ⟨_, ⟨_, rfl⟩, ?_⟩
    exact currentFocus?_of_set_focus_state st scr _ hlens hlenk
  · intro ho hme hlen
    subst ho
    simp [Lapin.reset_focus_after_removing, hcw, hme, hlen]
    have hw' : (if wk.ool_windows.length ≤ w then wk.ool_windows.length - 1 else w)
        = min w (wk.ool_windows.length - 1) := by
      rcases le_or_lt wk.ool_windows.length w with h | h
      · rw [if_pos h]; omega
      · rw [if_neg (by omega)]; omega
    rw [hw']
    obtain ⟨window, hwin⟩ := hoolw (min w (wk.ool_windows.length - 1)) (by omega)
    rw [hwin]
    simp only [Option.some_bind]
    rw [set_focus_eq st window (min w (wk.ool_windows.length - 1)) true true hs hk]
    refine ⟨_, ⟨_, rfl⟩, ?_⟩
    exact currentFocus?_of_set_focus_state st scr _ hlens hlenk
  · intro hme hoe
    simp [Lapin.reset_focus_after_removing, hcw, hme, hoe,
      modifyCurrentWk?_eq st hs hk]
    have hwk5 : ({ scr with workspaces := scr.workspaces.set scr.current_wk { wk with focused := none } } : Screen Win).workspaces.get? ({ scr with workspaces := scr.workspaces.set scr.current_wk { wk with focused := none } } : Screen Win).current_wk = some { wk with focused := none } := by
      show (scr.workspaces.set scr.current_wk _).get? scr.current_wk = _
      rw [List.get?_eq_getElem?]
      exact List.getElem?_set_eq_of_lt _ hlenk
    exact currentFocus?_of_set st st.current_scr _ hlens hwk5

/-- C6 witness: `C6_reset_focus_after_removing` applied to a concrete
one-screen state whose current workspace holds two managed windows,
with pre-removal focus `(managed, 3)`: the focus is clamped to
index `min 3 1 = 1` in managed mode. -/
theorem C6_reset_focus_after_removing_witness :
    ∃ p, (⟨[⟨[⟨[5, 6], [], some 1, false, 0, true⟩], 0, 800, 600, 0, 0⟩], 0⟩ :
        Lapin Nat).reset_focus_after_removing 0 0 3 false = some p ∧
      p.1.currentFocus? = some (some (min 3 1), false) := by
  have h := (C6_reset_focus_after_removing
    (⟨[⟨[⟨[5, 6], [], some 1, false, 0, true⟩], 0, 800, 600, 0, 0⟩], 0⟩ : Lapin Nat)
    ⟨[⟨[5, 6], [], some 1, false, 0, true⟩], 0, 800, 600, 0, 0⟩
    ⟨[5, 6], [], some 1, false, 0, true⟩ 3 false rfl rfl).2.1 rfl (by decide)
  simpa using h

/-! ## Claim C3: cycle coverage of focus navigation -/

theorem nextFocusPos_spec (previous : Bool) (m o w : Nat) (ool : Bool)
    (hw : w < (if ool then o else m)) (hk : 2 ≤ m + o) :
    (nextFocusPos previous m o w ool).1
        < (if (nextFocusPos previous m o w ool).2 then o else m) ∧
    linIdx m (nextFocusPos previous m o w ool).1 (nextFocusPos previous m o w ool).2
      = (linIdx m w ool + (if previous then m + o - 1 else 1)) % (m + o) := by
  unfold nextFocusPos
  cases previous with
  | false =>
    cases ool with
    | false =>
      rw [show (if (false : Bool) = true then o else m) = m from rfl] at hw
      simp only [Bool.false_eq_true, Bool.true_eq_false, Bool.not_false, Bool.not_true,
        if_false, if_true, eq_self_iff_true, linIdx]
      rw [if_neg (by omega)]
      by_cases hend : m ≤ w + 1
      · rw [if_pos (by omega)]
        by_cases ho : 0 < o
        · rw [if_pos ho]
          simp only [Bool.true_eq_false, if_true, eq_self_iff_true, if_false,
            Bool.false_eq_true]
          refine ⟨ho, ?_⟩
          rw [Nat.mod_eq_of_lt (by omega)]
          omega
        · rw [if_neg ho]
          simp only [Bool.false_eq_true, if_false]
          refine ⟨by omega, ?_⟩
          have h1 : w + 1 = m + o := by omega
          rw [h1, Nat.mod_self]
      · rw [if_neg (by omega)]
        simp only [Bool.false_eq_true, if_false]
        refine ⟨by omega, ?_⟩
        rw [Nat.mod_eq_of_lt (by omega)]
        omega
    | true =>
      rw [show (if (true : Bool) = true then o else m) = o from rfl] at hw
      simp only [Bool.false_eq_true, Bool.true_eq_false, Bool.not_false, Bool.not_true,
        if_false, if_true, eq_self_iff_true, linIdx]
      rw [if_neg (by omega)]
      by_cases hend : o ≤ w + 1
      · rw [if_pos (by omega)]
        by_cases hm : 0 < m
        · rw [if_pos hm]
          simp only [Bool.false_eq_true, if_false]
          refine ⟨hm, ?_⟩
          have h1 : m + w + 1 = m + o := by omega
          rw [h1, Nat.mod_self]
        · rw [if_neg hm]
          simp only [Bool.true_eq_false, if_true, eq_self_iff_true]
          refine ⟨by omega, ?_⟩
          have h1 : m + w + 1 = m + o := by omega
          rw [h1, Nat.mod_self]
          omega
      · rw [if_neg (by omega)]
        simp only [Bool.true_eq_false, if_true, eq_self_iff_true]
        refine ⟨by omega, ?_⟩
        rw [Nat.mod_eq_of_lt (by omega)]
        omega
  | true =>
    cases ool with
    | false =>
      rw [show (if (false : Bool) = true then o else m) = m from rfl] at hw
      simp only [Bool.false_eq_true, Bool.true_eq_false, Bool.not_false, Bool.not_true,
        if_false, if_true, eq_self_iff_true, linIdx]
      by_cases hzero : w = 0
      · subst hzero
        rw [if_pos (by omega)]
        by_cases ho : 0 < o
        · rw [if_pos ho]
          simp only [Bool.true_eq_false, if_true, eq_self_iff_true, if_false,
            Bool.false_eq_true]
          refine ⟨by omega, ?_⟩
          rw [Nat.mod_eq_of_lt (by omega)]
          omega
        · rw [if_neg ho]
          simp only [Bool.false_eq_true, if_false]
          refine ⟨by omega, ?_⟩
          rw [Nat.mod_eq_of_lt (by omega)]
          omega
      · rw [if_neg (by omega), if_neg (by omega)]
        simp only [Bool.false_eq_true, if_false]
        refine ⟨by omega, ?_⟩
        have h1 : w + (m + o - 1) = (w - 1) + (m + o) := by omega
        rw [h1, Nat.add_mod_right, Nat.mod_eq_of_lt (by omega)]
        omega
    | true =>
      rw [show (if (true : Bool) = true then o else m) = o from rfl] at hw
      simp only [Bool.false_eq_true, Bool.true_eq_false, Bool.not_false, Bool.not_true,
        if_false, if_true, eq_self_iff_true, linIdx]
      by_cases hzero : w = 0
      · subst hzero
        rw [if_pos (by omega)]
        by_cases hm : 0 < m
        · rw [if_pos hm]
          simp only [Bool.false_eq_true, if_false]
          refine ⟨by omega, ?_⟩
          have h1 : m + 0 + (m + o - 1) = (m - 1) + (m + o) := by omega
          rw [h1, Nat.add_mod_right, Nat.mod_eq_of_lt (by omega)]
        · rw [if_neg hm]
          simp only [Bool.true_eq_false, if_true, eq_self_iff_true]
          refine ⟨by omega, ?_⟩
          rw [Nat.mod_eq_of_lt (by omega)]
          omega
      · rw [if_neg (by omega), if_neg (by omega)]
        simp only [Bool.true_eq_false, if_true, eq_self_iff_true]
        refine ⟨by omega, ?_⟩
        have h1 : m + w + (m + o - 1) = (m + w - 1) + (m + o) := by omega
        rw [h1, Nat.add_mod_right, Nat.mod_eq_of_lt (by omega)]
        omega

theorem change_win_target_eq (previous : Bool) (wk : Workspace Win) {w : Nat}
    (hw : wk.focused = some w)
    (hlt : w < (if wk.ool_focus then wk.ool_windows.length else wk.windows.length))
    (hk : 2 ≤ wk.windows.length + wk.ool_windows.length) :
    ∃ win1 win2, change_win_target previous wk
      = some (some (win1,
          (nextFocusPos previous wk.windows.length wk.ool_windows.length w wk.ool_focus).1,
          (nextFocusPos previous wk.windows.length wk.ool_windows.length w wk.ool_focus).2,
          win2)) := by
  have hval := (nextFocusPos_spec previous wk.windows.length wk.ool_windows.length w
    wk.ool_focus hlt hk).1
  obtain ⟨win1, hwin1⟩ : ∃ x,
      (if (nextFocusPos previous wk.windows.length wk.ool_windows.length w
          wk.ool_focus).2 then
        wk.ool_windows.get?
          (nextFocusPos previous wk.windows.length wk.ool_windows.length w wk.ool_focus).1
      else
        wk.windows.get?
          (nextFocusPos previous wk.windows.length wk.ool_windows.length w
            wk.ool_focus).1) = some x := by
    cases hb : (nextFocusPos previous wk.windows.length wk.ool_windows.length w
        wk.ool_focus).2
    · rw [hb] at hval
      simp only [Bool.false_eq_true, if_false] at hval ⊢
      exact ⟨_, List.get?_eq_get hval⟩
    · rw [hb] at hval
      simp only [if_true] at hval ⊢
      exact ⟨_, List.get?_eq_get hval⟩
  obtain ⟨win2, hwin2⟩ : ∃ x,
      (if wk.ool_focus then wk.ool_windows.get? w else wk.windows.get? w) = some x := by
    cases hb : wk.ool_focus
    · rw [hb] at hlt
      simp only [Bool.false_eq_true, if_false] at hlt ⊢
      exact ⟨_, List.get?_eq_get hlt⟩
    · rw [hb] at hlt
      simp only [if_true] at hlt ⊢
      exact ⟨_, List.get?_eq_get hlt⟩
  refine ⟨win1, win2, ?_⟩
  unfold Lapin.change_win_target
  rw [hw]
  simp only []
  rw [if_neg (by omega), hwin1, hwin2]

theorem change_win_focus_eq (previous : Bool) (wk : Workspace Win) {w : Nat}
    (hw : wk.focused = some w)
    (hlt : w < (if wk.ool_focus then wk.ool_windows.length else wk.windows.length))
    (hk : 2 ≤ wk.windows.length + wk.ool_windows.length) :
    Lapin.change_win_focus previous wk = some
      { wk with
        focused := some (nextFocusPos previous wk.windows.length wk.ool_windows.length w
          wk.ool_focus).1,
        ool_focus := (nextFocusPos previous wk.windows.length wk.ool_windows.length w
          wk.ool_focus).2 } := by
  obtain ⟨w1, w2, htgt⟩ := change_win_target_eq previous wk hw hlt hk
  unfold Lapin.change_win_focus
  rw [htgt]

theorem iterChangeWin_spec (previous : Bool) :
    ∀ (j : Nat) (wk : Workspace Win) (w : Nat),
    wk.focused = some w →
    w < (if wk.ool_focus then wk.ool_windows.length else wk.windows.length) →
    2 ≤ wk.windows.length + wk.ool_windows.length →
    ∃ wkj wj, iterChangeWin previous j wk = some wkj ∧
      wkj.windows = wk.windows ∧ wkj.ool_windows = wk.ool_windows ∧
      wkj.layout = wk.layout ∧
      wkj.respect_reserved_space = wk.respect_reserved_space ∧
      wkj.focused = some wj ∧
      wj < (if wkj.ool_focus then wk.ool_windows.length else wk.windows.length) ∧
      linIdx wk.windows.length wj wkj.ool_focus
        = (linIdx wk.windows.length w wk.ool_focus +
            j * (if previous then wk.windows.length + wk.ool_windows.length - 1 else 1))
          % (wk.windows.length + wk.ool_windows.length) := by
  intro j
  induction j with
  | zero =>
    intro wk w hw hlt hk
    refine ⟨wk, w, rfl, rfl, rfl, rfl, rfl, hw, hlt, ?_⟩
    rw [Nat.zero_mul, Nat.add_zero, Nat.mod_eq_of_lt]
    cases hb : wk.ool_focus
    · rw [hb] at hlt
      simp only [Bool.false_eq_true, if_false] at hlt
      simp only [linIdx, Bool.false_eq_true, if_false]
      omega
    · rw [hb] at hlt
      simp only [if_true] at hlt
      simp only [linIdx, if_true]
      omega
  | succ n ih =>
    intro wk w hw hlt hk
    have hstep := change_win_focus_eq previous wk hw hlt hk
    have hval := nextFocusPos_spec previous wk.windows.length wk.ool_windows.length w
      wk.ool_focus hlt hk
    set p := nextFocusPos previous wk.windows.length wk.ool_windows.length w
      wk.ool_focus with hpdef
    set wk1 : Workspace Win :=
      { wk with focused := some p.1, ool_focus := p.2 } with hwk1
    obtain ⟨wkj, wj, hiter, hwin, hool, hlay, hresp, hfoc, hvalid, hlin⟩ :=
      ih wk1 p.1 rfl (by simpa [hwk1] using hval.1) (by simpa [hwk1] using hk)
    refine ⟨wkj, wj, ?_, by simpa [hwk1] using hwin, by simpa [hwk1] using hool,
      by simpa [hwk1] using hlay, by simpa [hwk1] using hresp, hfoc, ?_, ?_⟩
    · show (Lapin.change_win_focus previous wk).bind (iterChangeWin previous n) = some wkj
      rw [hstep, Option.some_bind]
      exact hiter
    · simpa [hwk1] using hvalid
    · have hlin1 : linIdx wk.windows.length wj wkj.ool_focus
          = (linIdx wk.windows.length p.1 p.2 +
              n * (if previous then wk.windows.length + wk.ool_windows.length - 1 else 1))
            % (wk.windows.length + wk.ool_windows.length) := by
        simpa [hwk1] using hlin
      rw [hlin1, hval.2]
      rw [Nat.mod_add_mod]
      congr 1
      ring

theorem linIdx_inj (m o w1 w2 : Nat) (b1 b2 : Bool) (h1 : w1 < (if b1 then o else m))
    (h2 : w2 < (if b2 then o else m)) (hlin : linIdx m w1 b1 = linIdx m w2 b2) :
    w1 = w2 ∧ b1 = b2 := by
  cases b1 with
  | false =>
    cases b2 with
    | false =>
      refine ⟨?_, rfl⟩
      simpa [linIdx] using hlin
    | true =>
      exfalso
      simp only [linIdx, Bool.false_eq_true, if_false, if_true] at h1 h2 hlin
      omega
  | true =>
    cases b2 with
    | false =>
      exfalso
      simp only [linIdx, Bool.false_eq_true, if_false, if_true] at h1 h2 hlin
      omega
    | true =>
      refine ⟨?_, rfl⟩
      simp only [linIdx, if_true] at hlin
      omega

theorem change_win_focus_noop (previous : Bool) (wk : Workspace Win)
    (hk : wk.windows.length + wk.ool_windows.length ≤ 1) :
    Lapin.change_win_focus previous wk = some wk := by
  unfold Lapin.change_win_focus Lapin.change_win_target
  cases hf : wk.focused with
  | none => rfl
  | some w =>
    simp only []
    rw [if_pos (by omega)]

theorem nextFocusPos_forward_switch (m o w : Nat) (ool : Bool)
    (hthis : w + 1 = (if ool then o else m))
    (hother : 0 < (if ool then m else o)) :
    nextFocusPos false m o w ool = (0, !ool) := by
  unfold nextFocusPos
  cases ool with
  | false =>
    simp only [Bool.false_eq_true, Bool.true_eq_false, Bool.not_false, Bool.not_true,
        if_false, if_true, eq_self_iff_true] at hthis hother ⊢
    rw [if_neg (by omega), if_pos (by omega), if_pos hother]
  | true =>
    simp only [Bool.false_eq_true, Bool.true_eq_false, Bool.not_false, Bool.not_true,
        if_false, if_true, eq_self_iff_true] at hthis hother ⊢
    rw [if_neg (by omega), if_pos (by omega), if_pos hother]

theorem nextFocusPos_forward_wrap (m o w : Nat) (ool : Bool)
    (hthis : w + 1 = (if ool then o else m))
    (hother : (if ool then m else o) = 0) :
    nextFocusPos false m o w ool = (0, ool) := by
  unfold nextFocusPos
  cases ool with
  | false =>
    simp only [Bool.false_eq_true, Bool.true_eq_false, Bool.not_false, Bool.not_true,
        if_false, if_true, eq_self_iff_true] at hthis hother ⊢
    rw [if_neg (by omega), if_pos (by omega), if_neg (by omega)]
  | true =>
    simp only [Bool.false_eq_true, Bool.true_eq_false, Bool.not_false, Bool.not_true,
        if_false, if_true, eq_self_iff_true] at hthis hother ⊢
    rw [if_neg (by omega), if_pos (by omega), if_neg (by omega)]

theorem nextFocusPos_backward_switch (m o : Nat) (ool : Bool)
    (hother : 0 < (if ool then m else o)) :
    nextFocusPos true m o 0 ool = ((if ool then m else o) - 1, !ool) := by
  unfold nextFocusPos
  cases ool with
  | false =>
    simp only [Bool.false_eq_true, Bool.true_eq_false, Bool.not_false, Bool.not_true,
        if_false, if_true, eq_self_iff_true] at hother ⊢
    rw [if_pos (by omega), if_pos hother]
  | true =>
    simp only [Bool.false_eq_true, Bool.true_eq_false, Bool.not_false, Bool.not_true,
        if_false, if_true, eq_self_iff_true] at hother ⊢
    rw [if_pos (by omega), if_pos hother]

theorem nextFocusPos_backward_wrap (m o : Nat) (ool : Bool)
    (hother : (if ool then m else o) = 0) :
    nextFocusPos true m o 0 ool = ((if ool then o else m) - 1, ool) := by
  unfold nextFocusPos
  cases ool with
  | false =>
    simp only [Bool.false_eq_true, Bool.true_eq_false, Bool.not_false, Bool.not_true,
        if_false, if_true, eq_self_iff_true] at hother ⊢
    rw [if_pos (by omega), if_neg (by omega)]
  | true =>
    simp only [Bool.false_eq_true, Bool.true_eq_false, Bool.not_false, Bool.not_true,
        if_false, if_true, eq_self_iff_true] at hother ⊢
    rw [if_pos (by omega), if_neg (by omega)]

/-- C3: cycle coverage of focus navigation.  For a current workspace
with `k = |managed| + |out-of-layout|` windows and a valid focus:
(1) `change_win` is a no-op whenever `k ≤ 1`;
(2) `k` applications of next-window return to the starting state;
(3) the focus positions reached by the first `k` applications are
pairwise distinct;
(4) every valid focus position (either ring) is reached within `k`
applications — so all `k` windows are visited exactly once;
(5) one forward step past the end of the active ring lands on the
other ring's start (the same ring's start when the other ring is
empty), and one backward step from position 0 lands on the other
ring's far end (the same ring's far end when the other ring is
empty). -/
theorem C3_change_win_cycle (wk : Workspace Win) (w : Nat)
    (hw : wk.focused = some w)
    (hlt : w < (if wk.ool_focus then wk.ool_windows.length else wk.windows.length)) :
    (∀ (previous : Bool) (wk2 : Workspace Win),
        wk2.windows.length + wk2.ool_windows.length ≤ 1 →
        Lapin.change_win_focus previous wk2 = some wk2) ∧
    iterChangeWin false (wk.windows.length + wk.ool_windows.length) wk = some wk ∧
    (∀ i j wki wkj, i < j → j < wk.windows.length + wk.ool_windows.length →
        iterChangeWin false i wk = some wki → iterChangeWin false j wk = some wkj →
        ¬(wki.focused = wkj.focused ∧ wki.ool_focus = wkj.ool_focus)) ∧
    (∀ (q : Nat) (qool : Bool),
        q < (if qool then wk.ool_windows.length else wk.windows.length) →
        ∃ j wkj, j < wk.windows.length + wk.ool_windows.length ∧
          iterChangeWin false j wk = some wkj ∧
          wkj.focused = some q ∧ wkj.ool_focus = qool) ∧
    (∀ (wk2 : Workspace Win) (w2 : Nat), wk2.focused = some w2 →
        w2 < (if wk2.ool_focus then wk2.ool_windows.length else wk2.windows.length) →
        2 ≤ wk2.windows.length + wk2.ool_windows.length →
        (w2 + 1 = (if wk2.ool_focus then wk2.ool_windows.length else wk2.windows.length) →
          (0 < (if wk2.ool_focus then wk2.windows.length else wk2.ool_windows.length) →
            Lapin.change_win_focus false wk2
              = some { wk2 with focused := some 0, ool_focus := !wk2.ool_focus }) ∧
          ((if wk2.ool_focus then wk2.windows.length else wk2.ool_windows.length) = 0 →
            Lapin.change_win_focus false wk2
              = some { wk2 with focused := some 0, ool_focus := wk2.ool_focus })) ∧
        (w2 = 0 →
          (0 < (if wk2.ool_focus then wk2.windows.length else wk2.ool_windows.length) →
            Lapin.change_win_focus true wk2 = some { wk2 with
              focused := some
                ((if wk2.ool_focus then wk2.windows.length else wk2.ool_windows.length) - 1),
              ool_focus := !wk2.ool_focus }) ∧
          ((if wk2.ool_focus then wk2.windows.length else wk2.ool_windows.length) = 0 →
            Lapin.change_win_focus true wk2 = some { wk2 with
              focused := some
                ((if wk2.ool_focus then wk2.ool_windows.length else wk2.windows.length) - 1),
              ool_focus := wk2.ool_focus }))) := by
  have hlin0 : linIdx wk.windows.length w wk.ool_focus
      < wk.windows.length + wk.ool_windows.length := by
    cases hb : wk.ool_focus <;> rw [hb] at hlt <;>
      simp only [linIdx, Bool.false_eq_true, if_false, if_true] at hlt ⊢ <;> omega
  have hk1 : 1 ≤ wk.windows.length + wk.ool_windows.length := by omega
  refine ⟨fun previous wk2 h => change_win_focus_noop previous wk2 h, ?_, ?_, ?_, ?_⟩
  · -- (2) return after k steps
    rcases le_or_lt (wk.windows.length + wk.ool_windows.length) 1 with hle | hgt
    · have hkeq : wk.windows.length + wk.ool_windows.length = 1 := by omega
      rw [hkeq]
      show (Lapin.change_win_focus false wk).bind (iterChangeWin false 0) = some wk
      rw [change_win_focus_noop false wk hle, Option.some_bind]
      rfl
    · obtain ⟨wkk, wj, hiter, hwin, hool, hlay, hresp, hfoc, hvalid, hlin⟩ :=
        iterChangeWin_spec false (wk.windows.length + wk.ool_windows.length) wk w hw hlt
          (by omega)
      have hlink : linIdx wk.windows.length wj wkk.ool_focus
          = linIdx wk.windows.length w wk.ool_focus := by
        rw [hlin]
        simp only [Bool.false_eq_true, if_false, Nat.mul_one]
        rw [Nat.add_mod_right, Nat.mod_eq_of_lt hlin0]
      obtain ⟨hweq, hooleq⟩ := linIdx_inj wk.windows.length wk.ool_windows.length wj w
        wkk.ool_focus wk.ool_focus hvalid (by rwa [] ) hlink
      have : wkk = wk := by
        apply Workspace.ext hwin hool _ hooleq hlay hresp
        rw [hfoc, hweq, hw]
      rwa [this] at hiter
  · -- (3) distinct positions
    intro i j wki wkj hij hjk hi hj ⟨hfeq, hoeq⟩
    have hk2 : 2 ≤ wk.windows.length + wk.ool_windows.length := by omega
    obtain ⟨wki2, wi2, hiter_i, hwin_i, hool_i, _, _, hfoc_i, hvalid_i, hlin_i⟩ :=
      iterChangeWin_spec false i wk w hw hlt hk2
    obtain ⟨wkj2, wj2, hiter_j, _, _, _, _, hfoc_j, hvalid_j, hlin_j⟩ :=
      iterChangeWin_spec false j wk w hw hlt hk2
    rw [hi] at hiter_i
    rw [hj] at hiter_j
    obtain rfl := Option.some.inj hiter_i
    obtain rfl := Option.some.inj hiter_j
    rw [hfoc_i, hfoc_j] at hfeq
    obtain rfl := Option.some.inj hfeq
    rw [hoeq] at hlin_i hvalid_i
    have hmods : (linIdx wk.windows.length w wk.ool_focus + i)
        % (wk.windows.length + wk.ool_windows.length)
        = (linIdx wk.windows.length w wk.ool_focus + j)
        % (wk.windows.length + wk.ool_windows.length) := by
      have h1 := hlin_i
      have h2 := hlin_j
      simp only [Bool.false_eq_true, if_false, Nat.mul_one] at h1 h2
      rw [← h1, ← h2]
    have hmodeq : Nat.ModEq (wk.windows.length + wk.ool_windows.length) i j :=
      Nat.ModEq.add_left_cancel' _ hmods
    have : i % (wk.windows.length + wk.ool_windows.length)
        = j % (wk.windows.length + wk.ool_windows.length) := hmodeq
    rw [Nat.mod_eq_of_lt (by omega), Nat.mod_eq_of_lt hjk] at this
    omega
  · -- (4) coverage of all valid positions
    intro q qool hq
    rcases le_or_lt (wk.windows.length + wk.ool_windows.length) 1 with hle | hgt
    · refine ⟨0, wk, by omega, rfl, ?_, ?_⟩
      · rw [hw]
        congr 1
        cases hb : qool with
        | false =>
          cases hb2 : wk.ool_focus with
          | false => rw [hb] at hq; rw [hb2] at hlt
                     simp only [Bool.false_eq_true, if_false] at hq hlt; omega
          | true => rw [hb] at hq; rw [hb2] at hlt
                    simp only [Bool.false_eq_true, if_false, if_true] at hq hlt; omega
        | true =>
          cases hb2 : wk.ool_focus with
          | false => rw [hb] at hq; rw [hb2] at hlt
                     simp only [Bool.false_eq_true, if_false, if_true] at hq hlt; omega
          | true => rw [hb] at hq; rw [hb2] at hlt
                    simp only [if_true] at hq hlt; omega
      · cases hb : qool with
        | false =>
          cases hb2 : wk.ool_focus with
          | false => rfl
          | true => rw [hb] at hq; rw [hb2] at hlt
                    simp only [Bool.false_eq_true, if_false, if_true] at hq hlt
                    omega
        | true =>
          cases hb2 : wk.ool_focus with
          | false => rw [hb] at hq; rw [hb2] at hlt
                     simp only [Bool.false_eq_true, if_false, if_true] at hq hlt
                     omega
          | true => rfl
    · have hqlin : linIdx wk.windows.length q qool
          < wk.windows.length + wk.ool_windows.length := by
        cases hb : qool <;> rw [hb] at hq <;>
          simp only [linIdx, Bool.false_eq_true, if_false, if_true] at hq ⊢ <;> omega
      set k := wk.windows.length + wk.ool_windows.length with hkdef
      set L := linIdx wk.windows.length q qool with hLdef
      set L0 := linIdx wk.windows.length w wk.ool_focus with hL0def
      refine ⟨(L + k - L0) % k, ?_⟩
      obtain ⟨wkj, wj, hiter, hwin, hool, _, _, hfoc, hvalid, hlin⟩ :=
        iterChangeWin_spec false ((L + k - L0) % k) wk w hw hlt (by omega)
      have hlinq : linIdx wk.windows.length wj wkj.ool_focus = L := by
        rw [hlin]
        simp only [Bool.false_eq_true, if_false, Nat.mul_one]
        rw [← hL0def, ← hkdef, Nat.add_mod_mod]
        rw [show L0 + (L + k - L0) = L + k from by omega, Nat.add_mod_right,
          Nat.mod_eq_of_lt hqlin]
      obtain ⟨hweq, hooleq⟩ := linIdx_inj wk.windows.length wk.ool_windows.length wj q
        wkj.ool_focus qool hvalid hq hlinq
      exact ⟨wkj, Nat.mod_lt _ (by omega), hiter, by rw [hfoc, hweq], hooleq⟩
  · -- (5) single-step ring-switch behavior
    intro wk2 w2 hw2 hlt2 hk2
    refine ⟨fun hend => ⟨fun hother => ?_, fun hother => ?_⟩,
            fun hzero => ⟨fun hother => ?_, fun hother => ?_⟩⟩
    · rw [change_win_focus_eq false wk2 hw2 hlt2 hk2,
        nextFocusPos_forward_switch wk2.windows.length wk2.ool_windows.length w2
          wk2.ool_focus hend hother]
    · rw [change_win_focus_eq false wk2 hw2 hlt2 hk2,
        nextFocusPos_forward_wrap wk2.windows.length wk2.ool_windows.length w2
          wk2.ool_focus hend hother]
    · subst hzero
      rw [change_win_focus_eq true wk2 hw2 hlt2 hk2,
        nextFocusPos_backward_switch wk2.windows.length wk2.ool_windows.length
          wk2.ool_focus hother]
    · subst hzero
      rw [change_win_focus_eq true wk2 hw2 hlt2 hk2,
        nextFocusPos_backward_wrap wk2.windows.length wk2.ool_windows.length
          wk2.ool_focus hother]

/-- C3 witness: three applications of next-window on a workspace with
two managed and one out-of-layout window return to the start. -/
theorem C3_change_win_cycle_witness :
    iterChangeWin false 3 (⟨[1, 2], [3], some 0, false, 0, true⟩ : Workspace Nat)
      = some ⟨[1, 2], [3], some 0, false, 0, true⟩ :=
  (C3_change_win_cycle (⟨[1, 2], [3], some 0, false, 0, true⟩ : Workspace Nat) 0 rfl
    (by decide)).2.1

theorem change_win_cases (cfg : Config) (previous : Bool) (st : Lapin Win)
    (st' : Lapin Win) (reqs : List (Req Win))
    (h : st.change_win cfg previous = some (st', reqs)) :
    st' = st ∨ ∃ scr wk window new_w ool oldw,
      st.currentScreen? = some scr ∧ st.currentWorkspace? = some wk ∧
      change_win_target previous wk = some (some (window, new_w, ool, oldw)) ∧
      st' = { screens := st.screens.set st.current_scr { scr with current_wk := scr.current_wk, workspaces := scr.workspaces.set scr.current_wk { wk with focused := some new_w, ool_focus := ool } }, current_scr := st.current_scr } := by
  unfold Lapin.change_win at h
  cases hscr : st.currentScreen? with
  | none => rw [hscr] at h; exact absurd h (by simp)
  | some scr =>
  rw [hscr] at h
  cases hwk : st.currentWorkspace? with
  | none => rw [hwk] at h; exact absurd h (by simp)
  | some wk =>
  rw [hwk] at h
  have hscr' : st.screens.get? st.current_scr = some scr := hscr
  have hwk' : scr.workspaces.get? scr.current_wk = some wk := by
    rw [Lapin.currentWorkspace?, hscr] at hwk
    simpa using hwk
  simp only [Option.pure_def, Option.bind_eq_bind, Option.some_bind] at h
  cases htgt : change_win_target previous wk with
  | none => rw [htgt] at h; exact absurd h (by simp)
  | some tgt =>
  rw [htgt] at h
  cases tgt with
  | none =>
    simp only [Option.some_bind, Option.pure_def, Option.some.injEq, Prod.mk.injEq] at h
    exact Or.inl h.1.symm
  | some quad =>
  obtain ⟨window, new_w, ool, oldw⟩ := quad
  simp only [Option.some_bind] at h
  rw [set_focus_eq st window new_w ool true hscr' hwk'] at h
  simp only [Option.some_bind] at h
  refine Or.inr ⟨scr, wk, window, new_w, ool, oldw, rfl, rfl, htgt, ?_⟩
  cases ool with
  | false =>
    simp only [Bool.not_false, if_true] at h
    cases hlay : cfg.layouts.get? wk.layout with
    | none => rw [hlay] at h; exact absurd h (by simp)
    | some lay =>
    rw [hlay] at h
    simp only [Option.some_bind] at h
    cases hco : calculate_layout_coordinates cfg ({ screens := st.screens.set st.current_scr { scr with current_wk := scr.current_wk, workspaces := scr.workspaces.set scr.current_wk { wk with focused := some new_w, ool_focus := false } }, current_scr := st.current_scr } : Lapin Win) with
    | none => rw [hco] at h; exact absurd h (by simp)
    | some co =>
    rw [hco] at h
    simp only [Option.some_bind] at h
    cases hwk1 : ({ screens := st.screens.set st.current_scr { scr with current_wk := scr.current_wk, workspaces := scr.workspaces.set scr.current_wk { wk with focused := some new_w, ool_focus := false } }, current_scr := st.current_scr } : Lapin Win).currentWorkspace? with
    | none => rw [hwk1] at h; exact absurd h (by simp)
    | some wk1 =>
    rw [hwk1] at h
    simp only [Option.some_bind, Option.pure_def, Option.some.injEq, Prod.mk.injEq] at h
    exact h.1.symm
  | true =>
    simp only [Bool.not_true, Bool.false_eq_true, if_false] at h
    simp only [Option.pure_def, Option.some.injEq, Prod.mk.injEq] at h
    exact h.1.symm

/-- C10: frame property of focus navigation.  A successful `change_win`
(next/previous window) leaves the current-screen index, every screen's
current-workspace index, every workspace's managed and out-of-layout
sequences, its active layout and its reserved-space flag unchanged;
any workspace other than the current one is left entirely unchanged
(only the current workspace's `focused` / `ool_focus` may change). -/
theorem C10_change_win_frame (cfg : Config) (previous : Bool) (st st' : Lapin Win)
    (reqs : List (Req Win)) (h : st.change_win cfg previous = some (st', reqs)) :
    st'.current_scr = st.current_scr ∧
    st'.screens.length = st.screens.length ∧
    ∀ s scr scr', st.screens.get? s = some scr → st'.screens.get? s = some scr' →
      scr'.current_wk = scr.current_wk ∧
      scr'.workspaces.length = scr.workspaces.length ∧
      ∀ k wk wk', scr.workspaces.get? k = some wk → scr'.workspaces.get? k = some wk' →
        wk'.windows = wk.windows ∧ wk'.ool_windows = wk.ool_windows ∧
        wk'.layout = wk.layout ∧ wk'.respect_reserved_space = wk.respect_reserved_space ∧
        (¬(s = st.current_scr ∧ k = scr.current_wk) → wk' = wk) := by
  rcases change_win_cases cfg previous st st' reqs h with rfl |
    ⟨scr0, wk0, window, new_w, ool, oldw, hscr0, hwk0, htgt, rfl⟩
  · refine ⟨rfl, rfl, fun s scr scr' h1 h2 => ?_⟩
    rw [h1] at h2
    obtain rfl := Option.some.inj h2
    refine ⟨rfl, rfl, fun k wk wk' hk1 hk2 => ?_⟩
    rw [hk1] at hk2
    obtain rfl := Option.some.inj hk2
    exact ⟨rfl, rfl, rfl, rfl, fun _ => rfl⟩
  · have hscr0'' : st.screens.get? st.current_scr = some scr0 := hscr0
    have hwk0' : scr0.workspaces.get? scr0.current_wk = some wk0 := by
      rw [Lapin.currentWorkspace?, hscr0] at hwk0
      simpa using hwk0
    obtain ⟨hlens, -⟩ := List.get?_eq_some.mp hscr0''
    obtain ⟨hlenk, -⟩ := List.get?_eq_some.mp hwk0'
    refine ⟨rfl, by simp, fun s scr scr' h1 h2 => ?_⟩
    have h2' : (st.screens.set st.current_scr { scr0 with current_wk := scr0.current_wk, workspaces := scr0.workspaces.set scr0.current_wk { wk0 with focused := some new_w, ool_focus := ool } }).get? s = some scr' := h2
    by_cases hs : s = st.current_scr
    · subst hs
      rw [hscr0''] at h1
      obtain rfl := Option.some.inj h1
      rw [List.get?_eq_getElem?, List.getElem?_set_eq_of_lt _ hlens] at h2'
      obtain rfl := Option.some.inj h2'
      refine ⟨rfl, by simp, fun k wk wk' hk1 hk2 => ?_⟩
      have hk2' : (scr0.workspaces.set scr0.current_wk { wk0 with focused := some new_w, ool_focus := ool }).get? k = some wk' := hk2
      by_cases hk : k = scr0.current_wk
      · subst hk
        rw [hwk0'] at hk1
        obtain rfl := Option.some.inj hk1
        rw [List.get?_eq_getElem?, List.getElem?_set_eq_of_lt _ hlenk] at hk2'
        obtain rfl := Option.some.inj hk2'
        exact ⟨rfl, rfl, rfl, rfl, fun hcon => absurd ⟨rfl, rfl⟩ hcon⟩
      · rw [List.get?_set_ne _ _ (fun heq => hk heq.symm)] at hk2'
        rw [hk1] at hk2'
        obtain rfl := Option.some.inj hk2'
        exact ⟨rfl, rfl, rfl, rfl, fun _ => rfl⟩
    · rw [List.get?_set_ne _ _ (fun heq => hs heq.symm)] at h2'
      rw [h1] at h2'
      obtain rfl := Option.some.inj h2'
      refine ⟨rfl, rfl, fun k wk wk' hk1 hk2 => ?_⟩
      rw [hk1] at hk2
      obtain rfl := Option.some.inj hk2
      exact ⟨rfl, rfl, rfl, rfl, fun _ => rfl⟩

/-- C10 witness: a concrete next-window step on a two-window workspace
changes only the focus cursor fields. -/
theorem C10_change_win_frame_witness :
    ∃ st' reqs, (⟨[⟨[⟨[1, 2], [], some 0, false, 0, true⟩], 0, 800, 600, 0, 0⟩], 0⟩ :
        Lapin Nat).change_win ⟨[], [LayoutKind.floating ⟨4⟩], 4, ⟨0, 0, 0, 0⟩, true⟩
        false = some (st', reqs) ∧
      st'.current_scr = 0 ∧ st'.screens.length = 1 := by
  have hrun : (⟨[⟨[⟨[1, 2], [], some 0, false, 0, true⟩], 0, 800, 600, 0, 0⟩], 0⟩ :
      Lapin Nat).change_win ⟨[], [LayoutKind.floating ⟨4⟩], 4, ⟨0, 0, 0, 0⟩, true⟩ false
      = some (⟨[⟨[⟨[1, 2], [], some 1, false, 0, true⟩], 0, 800, 600, 0, 0⟩], 0⟩,
          [Req.changeAttributes 1, Req.setInputFocus 2,
            Req.configure 2 [ConfigItem.stackAbove], Req.changeAttributes 2]) := by rfl
  refine ⟨_, _, hrun, ?_, ?_⟩
  · exact (C10_change_win_frame _ false _ _ _ hrun).1
  · have h := (C10_change_win_frame _ false _ _ _ hrun).2.1
    simpa using h

/-! ## Claim C9: idempotent manage -/

/-- C9: managing a window that is already tracked anywhere in the
model is a complete no-op: the state is returned unchanged and no
request (geometry, map, focus, property) is issued. -/
theorem C9_manage_idempotent (cfg : Config) (st : Lapin Win) (win : Win)
    (attr : Option Bool) (cls : Option (String × String))
    (h : (st.window_location win).isSome) :
    st.manage_window cfg win attr cls = some (st, []) := by
  unfold Lapin.manage_window
  rw [if_pos h]

/-- C9 witness: re-managing the already-tracked window `1` of a
concrete one-screen state changes nothing and issues nothing. -/
theorem C9_manage_idempotent_witness :
    (⟨[⟨[⟨[1], [], some 0, false, 0, true⟩], 0, 800, 600, 0, 0⟩], 0⟩ : Lapin Nat).manage_window
      ⟨[], [LayoutKind.tiling ⟨4, 1, 2, 4⟩], 4, ⟨0, 0, 0, 0⟩, true⟩ 1 (some false) none
      = some (⟨[⟨[⟨[1], [], some 0, false, 0, true⟩], 0, 800, 600, 0, 0⟩], 0⟩, []) :=
  C9_manage_idempotent _ _ 1 (some false) none (by decide)

/-! ## Claim C7: unmanage locality

The not-found half of the claim holds (`window_location` misses make
`unmanage_window` a no-op).  The located half is a code bug: the
source computes `(s, k, w, ool)` with `window_location` but then
removes index `w` from the sequences of the **current** workspace
(`self.current_workspace_mut()`), not of workspace `(s, k)`.  When the
window lives on a non-current workspace this panics (current sequence
shorter than `w + 1`) or silently deletes a different window. -/

/-- C7: concrete demonstration.  (1) Destroying window `7`, managed on
the non-current workspace 1 while the current workspace 0 is empty,
panics (`= none`): `Vec::remove(0)` on the empty current sequence.
(2) With window `5` on the current workspace, the same destroy deletes
`5` and leaves `7` tracked.  (3) Unmanaging an absent window is a
no-op that issues no request. -/
theorem C7_unmanage_locality :
    ((⟨[⟨[⟨[], [], none, false, 0, true⟩, ⟨[7], [], some 0, false, 0, true⟩], 0, 800, 600, 0, 0⟩], 0⟩ : Lapin Nat).unmanage_window
        ⟨[], [LayoutKind.floating ⟨4⟩], 4, ⟨0, 0, 0, 0⟩, true⟩ 7 true = none) ∧
    (∃ p, (⟨[⟨[⟨[5], [], some 0, false, 0, true⟩, ⟨[7], [], some 0, false, 0, true⟩], 0, 800, 600, 0, 0⟩], 0⟩ : Lapin Nat).unmanage_window
        ⟨[], [LayoutKind.floating ⟨4⟩], 4, ⟨0, 0, 0, 0⟩, true⟩ 7 true = some p ∧
      5 ∉ p.1.allWindows ∧ 7 ∈ p.1.allWindows) ∧
    ((⟨[⟨[⟨[5], [], some 0, false, 0, true⟩], 0, 800, 600, 0, 0⟩], 0⟩ : Lapin Nat).unmanage_window
        ⟨[], [LayoutKind.floating ⟨4⟩], 4, ⟨0, 0, 0, 0⟩, true⟩ 9 true
        = some (⟨[⟨[⟨[5], [], some 0, false, 0, true⟩], 0, 800, 600, 0, 0⟩], 0⟩, [])) := by
  refine ⟨by rfl, ⟨_, by rfl, by decide, by decide⟩, by rfl⟩

/-! ## Claims C1 and C2: infrastructure

Counting and location lemmas, plus decomposition lemmas describing
the successful executions of each model operation as explicit
workspace replacements. -/

theorem count_screens_set {screens : List (Screen Win)} {s : Nat} {scr : Screen Win}
    (scr' : Screen Win) (hs : screens.get? s = some scr) (b : Win) :
    ((screens.set s scr').flatMap scrWins).count b + (scrWins scr).count b
      = (screens.flatMap scrWins).count b + (scrWins scr').count b :=
  count_flatMap_set scrWins screens s scr' scr hs b

theorem count_scrWins_set {workspaces : List (Workspace Win)} {k : Nat}
    {wk : Workspace Win} (wk' : Workspace Win) (hk : workspaces.get? k = some wk)
    (b : Win) :
    ((workspaces.set k wk').flatMap wkWins).count b + (wkWins wk).count b
      = (workspaces.flatMap wkWins).count b + (wkWins wk').count b :=
  count_flatMap_set wkWins workspaces k wk' wk hk b

theorem count_setWkState {st : Lapin Win} {s k : Nat} {scr : Screen Win}
    {wk : Workspace Win} (wk' : Workspace Win) (hs : st.screens.get? s = some scr)
    (hk : scr.workspaces.get? k = some wk) (b : Win) :
    ((st.setWkState s k scr wk').allWindows).count b + (wkWins wk).count b
      = (st.allWindows).count b + (wkWins wk').count b := by
  have h1 := count_screens_set { scr with workspaces := scr.workspaces.set k wk' } hs b
  have h2 := count_scrWins_set wk' hk b
  have h3 : scrWins { scr with workspaces := scr.workspaces.set k wk' }
      = (scr.workspaces.set k wk').flatMap wkWins := rfl
  have h4 : scrWins scr = scr.workspaces.flatMap wkWins := rfl
  have h5 : (st.setWkState s k scr wk').allWindows
      = (st.screens.set s { scr with workspaces := scr.workspaces.set k wk' }).flatMap
        scrWins := rfl
  have h6 : st.allWindows = st.screens.flatMap scrWins := rfl
  rw [h5, h6]
  rw [h3, h4] at h1
  omega

theorem count_focusState {st : Lapin Win} {s k : Nat} {scr : Screen Win}
    {wk : Workspace Win} (wk' : Workspace Win) (hs : st.screens.get? s = some scr)
    (hk : scr.workspaces.get? k = some wk) (b : Win) :
    ((focusState st s k scr wk').allWindows).count b + (wkWins wk).count b
      = (st.allWindows).count b + (wkWins wk').count b := by
  have h1 := count_screens_set { scr with current_wk := k, workspaces := scr.workspaces.set k wk' } hs b
  have h2 := count_scrWins_set wk' hk b
  have h3 : scrWins { scr with current_wk := k, workspaces := scr.workspaces.set k wk' }
      = (scr.workspaces.set k wk').flatMap wkWins := rfl
  have h4 : scrWins scr = scr.workspaces.flatMap wkWins := rfl
  have h5 : (focusState st s k scr wk').allWindows = (st.screens.set s { scr with current_wk := k, workspaces := scr.workspaces.set k wk' }).flatMap scrWins := rfl
  have h6 : st.allWindows = st.screens.flatMap scrWins := rfl
  rw [h5, h6]
  rw [h3, h4] at h1
  omega

theorem findInWk_eq_none {wk : Workspace Win} {win : Win} :
    Lapin.findInWk wk win = none ↔ win ∉ wk.windows ∧ win ∉ wk.ool_windows := by
  unfold Lapin.findInWk
  cases h1 : Lapin.idxOf? win wk.windows with
  | some i =>
    dsimp only
    constructor
    · intro h; exact absurd h (by simp)
    · rintro ⟨hm, -⟩
      rw [idxOf?_eq_none.mpr hm] at h1
      exact absurd h1 (by simp)
  | none =>
    dsimp only
    rw [Option.map_eq_none', idxOf?_eq_none]
    simp [idxOf?_eq_none.mp h1]

theorem findInWk_some {wk : Workspace Win} {win : Win} {w : Nat} {ool : Bool}
    (h : Lapin.findInWk wk win = some (w, ool)) :
    (if ool then wk.ool_windows.get? w else wk.windows.get? w) = some win := by
  unfold Lapin.findInWk at h
  cases h1 : Lapin.idxOf? win wk.windows with
  | some i =>
    rw [h1] at h
    dsimp only at h
    obtain ⟨rfl, rfl⟩ : i = w ∧ false = ool := by
      constructor <;> [skip; skip] <;> injection h with h2 <;> cases h2 <;> rfl
    simp only [Bool.false_eq_true, if_false]
    exact idxOf?_get h1
  | none =>
    rw [h1] at h
    dsimp only at h
    rw [Option.map_eq_some'] at h
    obtain ⟨j, hj, hpair⟩ := h
    obtain ⟨rfl, rfl⟩ : j = w ∧ true = ool := by
      constructor <;> injection hpair with h2 h3 <;> simp_all
    simp only [if_true]
    exact idxOf?_get hj

theorem locWks_eq_none {win : Win} : ∀ (wks : List (Workspace Win)) (i : Nat),
    Lapin.locWks win wks i = none ↔ ∀ wk ∈ wks, Lapin.findInWk wk win = none := by
  intro wks
  induction wks with
  | nil => intro i; simp [Lapin.locWks]
  | cons wk rest ih =>
    intro i
    unfold Lapin.locWks
    cases hf : Lapin.findInWk wk win with
    | some r => simp [hf]
    | none => simp [hf, ih]

theorem locWks_some {win : Win} : ∀ (wks : List (Workspace Win)) (i k w : Nat)
    (ool : Bool), Lapin.locWks win wks i = some (k, w, ool) →
    i ≤ k ∧ ∃ wk, wks.get? (k - i) = some wk ∧ Lapin.findInWk wk win = some (w, ool) := by
  intro wks
  induction wks with
  | nil => intro i k w ool h; simp [Lapin.locWks] at h
  | cons wk rest ih =>
    intro i k w ool h
    unfold Lapin.locWks at h
    cases hf : Lapin.findInWk wk win with
    | some r =>
      rw [hf] at h
      obtain ⟨rfl, rfl, rfl⟩ : i = k ∧ r.1 = w ∧ r.2 = ool := by
        obtain ⟨a, b⟩ := r
        injection h with h2
        injection h2 with h3 h4
        injection h4 with h5 h6
        exact ⟨h3, h5, h6⟩
      refine ⟨le_refl _, wk, ?_, by simpa using hf⟩
      simp
    | none =>
      rw [hf] at h
      obtain ⟨hle, wk2, hget, hfind⟩ := ih (i + 1) k w ool h
      refine ⟨by omega, wk2, ?_, hfind⟩
      have : k - i = (k - (i + 1)) + 1 := by omega
      rw [this]
      simpa using hget

theorem locScreens_eq_none {win : Win} : ∀ (scrs : List (Screen Win)) (i : Nat),
    Lapin.locScreens win scrs i = none ↔
      ∀ scr ∈ scrs, ∀ wk ∈ scr.workspaces, Lapin.findInWk wk win = none := by
  intro scrs
  induction scrs with
  | nil => intro i; simp [Lapin.locScreens]
  | cons scr rest ih =>
    intro i
    unfold Lapin.locScreens
    cases hf : Lapin.locWks win scr.workspaces 0 with
    | some r => simp only [hf]
                constructor
                · intro h; exact absurd h (by simp)
                · intro h
                  rw [(locWks_eq_none scr.workspaces 0).mpr (h scr (by simp))] at hf
                  exact absurd hf (by simp)
    | none =>
      simp only [hf, ih]
      constructor
      · intro h
        intro scr2 hmem
        rcases List.mem_cons.mp hmem with rfl | hmem2
        · exact (locWks_eq_none scr2.workspaces 0).mp hf
        · exact h scr2 hmem2
      · intro h scr2 hmem
        exact h scr2 (List.mem_cons_of_mem _ hmem)

theorem locScreens_some {win : Win} : ∀ (scrs : List (Screen Win)) (i s k w : Nat)
    (ool : Bool), Lapin.locScreens win scrs i = some (s, k, w, ool) →
    i ≤ s ∧ ∃ scr, scrs.get? (s - i) = some scr ∧
      Lapin.locWks win scr.workspaces 0 = some (k, w, ool) := by
  intro scrs
  induction scrs with
  | nil => intro i s k w ool h; simp [Lapin.locScreens] at h
  | cons scr rest ih =>
    intro i s k w ool h
    unfold Lapin.locScreens at h
    cases hf : Lapin.locWks win scr.workspaces 0 with
    | some r =>
      rw [hf] at h
      obtain ⟨a, b, c⟩ := r
      obtain ⟨rfl, rfl, rfl, rfl⟩ : i = s ∧ a = k ∧ b = w ∧ c = ool := by
        injection h with h2
        injection h2 with h3 h4
        injection h4 with h5 h6
        injection h6 with h7 h8
        exact ⟨h3, h5, h7, h8⟩
      refine ⟨le_refl _, scr, ?_, hf⟩
      simp
    | none =>
      rw [hf] at h
      obtain ⟨hle, scr2, hget, hloc⟩ := ih (i + 1) s k w ool h
      refine ⟨by omega, scr2, ?_, hloc⟩
      have : s - i = (s - (i + 1)) + 1 := by omega
      rw [this]
      simpa using hget

theorem window_location_none_not_mem {st : Lapin Win} {win : Win}
    (h : st.window_location win = none) : win ∉ st.allWindows := by
  rw [Lapin.window_location] at h
  rw [locScreens_eq_none] at h
  intro hmem
  rw [Lapin.allWindows, List.mem_flatMap] at hmem
  obtain ⟨scr, hscr, hmem2⟩ := hmem
  rw [scrWins, List.mem_flatMap] at hmem2
  obtain ⟨wk, hwk, hmem3⟩ := hmem2
  have := h scr hscr wk hwk
  rw [findInWk_eq_none] at this
  rw [wkWins, List.mem_append] at hmem3
  rcases hmem3 with h3 | h3
  · exact this.1 h3
  · exact this.2 h3

theorem window_location_some_spec {st : Lapin Win} {win : Win} {s k w : Nat} {ool : Bool}
    (h : st.window_location win = some (s, k, w, ool)) :
    ∃ scr wk, st.screens.get? s = some scr ∧ scr.workspaces.get? k = some wk ∧
      (if ool then wk.ool_windows.get? w else wk.windows.get? w) = some win := by
  rw [Lapin.window_location] at h
  obtain ⟨-, scr, hscr, hloc⟩ := locScreens_some st.screens 0 s k w ool h
  obtain ⟨-, wk, hwk, hfind⟩ := locWks_some scr.workspaces 0 k w ool hloc
  exact ⟨scr, wk, by simpa using hscr, by simpa using hwk, findInWk_some hfind⟩

/-! ## State-surgery inversion lemmas

Each state-mutating helper of the embedding is characterised as a
`setWkState` / `focusState` workspace replacement, with the `get?`
facts the source's indexing relies on. -/

theorem get?_set_inv {α : Type} {l : List α} {n : Nat} {a a0 : α} (hn : l.get? n = some a0)
    {m : Nat} {b : α} (h : (l.set n a).get? m = some b) :
    (m = n ∧ b = a) ∨ (m ≠ n ∧ l.get? m = some b) := by
  by_cases hmn : m = n
  · subst hmn
    obtain ⟨hlen, -⟩ := List.get?_eq_some.mp hn
    rw [List.get?_eq_getElem?, List.getElem?_set_eq_of_lt _ hlen] at h
    exact Or.inl ⟨rfl, (Option.some.inj h).symm⟩
  · rw [List.get?_set_ne _ _ (fun heq => hmn heq.symm)] at h
    exact Or.inr ⟨hmn, h⟩

theorem get?_set_self {α : Type} {l : List α} {n : Nat} {a a0 : α}
    (hn : l.get? n = some a0) : (l.set n a).get? n = some a := by
  obtain ⟨hlen, -⟩ := List.get?_eq_some.mp hn
  rw [List.get?_eq_getElem?]
  exact List.getElem?_set_eq_of_lt _ hlen

theorem currentWorkspace?_eq {st : Lapin Win} {scr : Screen Win} {wk : Workspace Win}
    (hs : st.screens.get? st.current_scr = some scr)
    (hk : scr.workspaces.get? scr.current_wk = some wk) :
    st.currentWorkspace? = some wk := by
  rw [Lapin.currentWorkspace?]
  have h1 : st.currentScreen? = some scr := hs
  rw [h1]
  simpa using hk

theorem currentWorkspace?_inv {st : Lapin Win} {wk : Workspace Win}
    (h : st.currentWorkspace? = some wk) :
    ∃ scr, st.screens.get? st.current_scr = some scr ∧
      scr.workspaces.get? scr.current_wk = some wk := by
  rw [Lapin.currentWorkspace?] at h
  cases hs : st.currentScreen? with
  | none => rw [hs] at h; exact absurd h (by simp)
  | some scr =>
    rw [hs] at h
    exact ⟨scr, hs, by simpa using h⟩

theorem setWk?_inv {st : Lapin Win} {s k : Nat} {wkN : Workspace Win} {st2 : Lapin Win}
    (h : st.setWk? s k wkN = some st2) :
    ∃ scr wk, st.screens.get? s = some scr ∧ scr.workspaces.get? k = some wk ∧
      st2 = setWkState st s k scr wkN := by
  unfold Lapin.setWk? at h
  cases hs : st.screens.get? s with
  | none => rw [hs] at h; exact absurd h (by simp)
  | some scr =>
  rw [hs] at h
  simp only [Option.pure_def, Option.bind_eq_bind, Option.some_bind] at h
  cases hk : scr.workspaces.get? k with
  | none => rw [hk] at h; exact absurd h (by simp)
  | some wk =>
  rw [hk] at h
  simp only [Option.some_bind, Option.some.injEq] at h
  exact ⟨scr, wk, rfl, hk, h.symm⟩

theorem modifyWk?_inv {st : Lapin Win} {s k : Nat} {f : Workspace Win → Workspace Win}
    {st2 : Lapin Win} (h : st.modifyWk? s k f = some st2) :
    ∃ scr wk, st.screens.get? s = some scr ∧ scr.workspaces.get? k = some wk ∧
      st2 = setWkState st s k scr (f wk) := by
  unfold Lapin.modifyWk? at h
  cases hs : st.screens.get? s with
  | none => rw [hs] at h; exact absurd h (by simp)
  | some scr =>
  rw [hs] at h
  simp only [Option.pure_def, Option.bind_eq_bind, Option.some_bind] at h
  cases hk : scr.workspaces.get? k with
  | none => rw [hk] at h; exact absurd h (by simp)
  | some wk =>
  rw [hk] at h
  simp only [Option.some_bind] at h
  obtain ⟨scr', wk', hs', hk', hst⟩ := setWk?_inv h
  rw [hs] at hs'
  obtain rfl := Option.some.inj hs'
  rw [hk] at hk'
  obtain rfl := Option.some.inj hk'
  exact ⟨scr, wk, rfl, hk, hst⟩

theorem modifyCurrentWk?_inv {st : Lapin Win} {f : Workspace Win → Workspace Win}
    {st2 : Lapin Win} (h : st.modifyCurrentWk? f = some st2) :
    ∃ scr wk, st.screens.get? st.current_scr = some scr ∧
      scr.workspaces.get? scr.current_wk = some wk ∧
      st2 = setWkState st st.current_scr scr.current_wk scr (f wk) := by
  unfold Lapin.modifyCurrentWk? at h
  cases hs : st.currentScreen? with
  | none => rw [hs] at h; exact absurd h (by simp)
  | some scr =>
  rw [hs] at h
  simp only [Option.pure_def, Option.bind_eq_bind, Option.some_bind] at h
  obtain ⟨scr', wk, hs', hk, hst⟩ := modifyWk?_inv h
  have hs'' : st.screens.get? st.current_scr = some scr := hs
  rw [hs''] at hs'
  obtain rfl := Option.some.inj hs'
  exact ⟨scr, wk, hs'', hk, hst⟩

theorem set_focus_inv {st : Lapin Win} {window : Win} {s k w : Nat} {ool raise : Bool}
    {st2 : Lapin Win} {reqs : List (Req Win)}
    (h : st.set_focus window s k w ool raise = some (st2, reqs)) :
    ∃ scr wk, st.screens.get? s = some scr ∧ scr.workspaces.get? k = some wk ∧
      st2 = focusState st s k scr { wk with focused := some w, ool_focus := ool } := by
  cases hs : st.screens.get? s with
  | none =>
    exfalso
    simp only [Lapin.set_focus] at h
    rw [hs] at h
    exact absurd h (by simp)
  | some scr =>
  cases hk : scr.workspaces.get? k with
  | none =>
    exfalso
    simp only [Lapin.set_focus] at h
    rw [hs] at h
    simp only [Option.pure_def, Option.bind_eq_bind, Option.some_bind] at h
    simp only [Lapin.modifyWk?] at h
    rw [show (st.screens.set s { scr with current_wk := k }).get? s = some { scr with current_wk := k } from get?_set_self hs] at h
    simp only [Option.pure_def, Option.bind_eq_bind, Option.some_bind] at h
    rw [show ({ scr with current_wk := k } : Screen Win).workspaces.get? k = none from hk] at h
    exact absurd h (by simp)
  | some wk =>
  rw [set_focus_eq st window w ool raise hs hk] at h
  simp only [Option.some.injEq, Prod.mk.injEq] at h
  exact ⟨scr, wk, rfl, hk, h.1.symm⟩

theorem setWkState_setWkState {st : Lapin Win} {s k : Nat} {scr : Screen Win}
    (wk1 wk2 : Workspace Win) :
    setWkState (setWkState st s k scr wk1) s k
        { scr with workspaces := scr.workspaces.set k wk1 } wk2 =
      setWkState st s k scr wk2 := by
  unfold setWkState
  simp [List.set_set]

theorem focusState_setWkState {st : Lapin Win} {s k : Nat} {scr : Screen Win}
    (wk1 wk2 : Workspace Win) :
    focusState (setWkState st s k scr wk1) s k
        { scr with workspaces := scr.workspaces.set k wk1 } wk2 =
      focusState st s k scr wk2 := by
  unfold focusState setWkState
  simp [List.set_set]

theorem wkValid_insert_win {wk : Workspace Win} (hv : wkValid wk) (win : Win) :
    wkValid { wk with windows := win :: wk.windows } := by
  constructor
  · intro i hi
    have hb := hv.1 i hi
    cases hf : wk.ool_focus with
    | true => simpa [hf] using hb
    | false =>
      simp only [hf, Bool.false_eq_true, if_false] at hb ⊢
      simp only [List.length_cons]
      omega
  · intro h1
    exact absurd h1 (by simp)

theorem wkValid_insert_ool {wk : Workspace Win} (hv : wkValid wk) (win : Win) :
    wkValid { wk with ool_windows := win :: wk.ool_windows } := by
  constructor
  · intro i hi
    have hb := hv.1 i hi
    cases hf : wk.ool_focus with
    | false => simpa [hf] using hb
    | true =>
      simp only [hf, if_true] at hb ⊢
      simp only [List.length_cons]
      omega
  · intro h1 h2
    exact absurd h2 (by simp)

theorem stGet_setWkState {st : Lapin Win} {s k : Nat} {scr : Screen Win}
    {wk wkN : Workspace Win} (hs : st.screens.get? s = some scr)
    (hk : scr.workspaces.get? k = some wk) {s2 k2 : Nat} {scr2 : Screen Win}
    {wk2 : Workspace Win}
    (h2 : (setWkState st s k scr wkN).screens.get? s2 = some scr2)
    (h3 : scr2.workspaces.get? k2 = some wk2) :
    (s2 = s ∧ k2 = k ∧ wk2 = wkN) ∨
      (¬(s2 = s ∧ k2 = k) ∧ ∃ scr0, st.screens.get? s2 = some scr0 ∧
        scr0.workspaces.get? k2 = some wk2) := by
  have h2' : (st.screens.set s { scr with workspaces := scr.workspaces.set k wkN }).get? s2
      = some scr2 := h2
  rcases get?_set_inv hs h2' with ⟨rfl, rfl⟩ | ⟨hne, hget⟩
  · have h3' : (scr.workspaces.set k wkN).get? k2 = some wk2 := h3
    rcases get?_set_inv hk h3' with ⟨rfl, rfl⟩ | ⟨hne2, hget2⟩
    · exact Or.inl ⟨rfl, rfl, rfl⟩
    · exact Or.inr ⟨fun hc => hne2 hc.2, scr, hs, hget2⟩
  · exact Or.inr ⟨fun hc => hne hc.1, scr2, hget, h3⟩

theorem stGet_focusState {st : Lapin Win} {s k : Nat} {scr : Screen Win}
    {wk wkN : Workspace Win} (hs : st.screens.get? s = some scr)
    (hk : scr.workspaces.get? k = some wk) {s2 k2 : Nat} {scr2 : Screen Win}
    {wk2 : Workspace Win}
    (h2 : (focusState st s k scr wkN).screens.get? s2 = some scr2)
    (h3 : scr2.workspaces.get? k2 = some wk2) :
    (s2 = s ∧ k2 = k ∧ wk2 = wkN) ∨
      (¬(s2 = s ∧ k2 = k) ∧ ∃ scr0, st.screens.get? s2 = some scr0 ∧
        scr0.workspaces.get? k2 = some wk2) := by
  have h2' : (st.screens.set s
      { scr with current_wk := k, workspaces := scr.workspaces.set k wkN }).get? s2
      = some scr2 := h2
  rcases get?_set_inv hs h2' with ⟨rfl, rfl⟩ | ⟨hne, hget⟩
  · have h3' : (scr.workspaces.set k wkN).get? k2 = some wk2 := h3
    rcases get?_set_inv hk h3' with ⟨rfl, rfl⟩ | ⟨hne2, hget2⟩
    · exact Or.inl ⟨rfl, rfl, rfl⟩
    · exact Or.inr ⟨fun hc => hne2 hc.2, scr, hs, hget2⟩
  · exact Or.inr ⟨fun hc => hne hc.1, scr2, hget, h3⟩

theorem stValid_setWkState {st : Lapin Win} {s k : Nat} {scr : Screen Win}
    {wk wkN : Workspace Win} (hs : st.screens.get? s = some scr)
    (hk : scr.workspaces.get? k = some wk) (hv : stValid st) (hw : wkValid wkN) :
    stValid (setWkState st s k scr wkN) := by
  intro s2 scr2 k2 wk2 h2 h3
  rcases stGet_setWkState hs hk h2 h3 with ⟨-, -, rfl⟩ | ⟨-, scr0, h4, h5⟩
  · exact hw
  · exact hv s2 scr0 k2 wk2 h4 h5

theorem stValid_focusState {st : Lapin Win} {s k : Nat} {scr : Screen Win}
    {wk wkN : Workspace Win} (hs : st.screens.get? s = some scr)
    (hk : scr.workspaces.get? k = some wk) (hv : stValid st) (hw : wkValid wkN) :
    stValid (focusState st s k scr wkN) := by
  intro s2 scr2 k2 wk2 h2 h3
  rcases stGet_focusState hs hk h2 h3 with ⟨-, -, rfl⟩ | ⟨-, scr0, h4, h5⟩
  · exact hw
  · exact hv s2 scr0 k2 wk2 h4 h5

/-- Decomposition of `reset_focus_after_removing`: it either clears the
focus of the current workspace (both sequences empty) or routes through
`set_focus` on the target `(s, k)` with an index bounded by the current
workspace's selected sequence. -/
theorem reset_inv {st : Lapin Win} {s k w : Nat} {ool : Bool} {st2 : Lapin Win}
    {reqs : List (Req Win)}
    (h : st.reset_focus_after_removing s k w ool = some (st2, reqs)) :
    ∃ scrC wkC, st.screens.get? st.current_scr = some scrC ∧
      scrC.workspaces.get? scrC.current_wk = some wkC ∧
      ((st2 = setWkState st st.current_scr scrC.current_wk scrC
          { wkC with focused := none } ∧
        wkC.windows = [] ∧ wkC.ool_windows = []) ∨
       (∃ scr wk w' ool', st.screens.get? s = some scr ∧
         scr.workspaces.get? k = some wk ∧
         st2 = focusState st s k scr { wk with focused := some w', ool_focus := ool' } ∧
         w' < (if ool' then wkC.ool_windows.length else wkC.windows.length))) := by
  unfold Lapin.reset_focus_after_removing at h
  cases hwkC : st.currentWorkspace? with
  | none => rw [hwkC] at h; exact absurd h (by simp)
  | some wkC =>
  rw [hwkC] at h
  simp only [Option.pure_def, Option.bind_eq_bind, Option.some_bind] at h
  obtain ⟨scrC, hsC, hkC⟩ := currentWorkspace?_inv hwkC
  refine ⟨scrC, wkC, hsC, hkC, ?_⟩
  by_cases c1 : ool = true ∧ 0 < wkC.ool_windows.length
  · rw [if_pos c1] at h
    dsimp only at h
    simp only [if_true, eq_self_iff_true] at h
    cases hwin : wkC.ool_windows.get?
        (if wkC.ool_windows.length ≤ w then wkC.ool_windows.length - 1 else w) with
    | none => rw [hwin] at h; exact absurd h (by simp)
    | some window =>
    rw [hwin] at h
    simp only [Option.some_bind] at h
    obtain ⟨scr, wk, hs1, hk1, hst⟩ := set_focus_inv h
    obtain ⟨hlt, -⟩ := List.get?_eq_some.mp hwin
    exact Or.inr ⟨scr, wk, _, true, hs1, hk1, hst, by simpa using hlt⟩
  · rw [if_neg c1] at h
    by_cases c2 : 0 < wkC.windows.length
    · rw [if_pos c2] at h
      dsimp only at h
      simp only [Bool.false_eq_true, if_false] at h
      cases hwin : wkC.windows.get?
          (if wkC.windows.length ≤ w then wkC.windows.length - 1 else w) with
      | none => rw [hwin] at h; exact absurd h (by simp)
      | some window =>
      rw [hwin] at h
      simp only [Option.some_bind] at h
      obtain ⟨scr, wk, hs1, hk1, hst⟩ := set_focus_inv h
      obtain ⟨hlt, -⟩ := List.get?_eq_some.mp hwin
      exact Or.inr ⟨scr, wk, _, false, hs1, hk1, hst, by simpa using hlt⟩
    · rw [if_neg c2] at h
      by_cases c3 : 0 < wkC.ool_windows.length
      · rw [if_pos c3] at h
        dsimp only at h
        simp only [if_true, eq_self_iff_true] at h
        cases hwin : wkC.ool_windows.get?
            (if wkC.ool_windows.length ≤ w then wkC.ool_windows.length - 1 else w) with
        | none => rw [hwin] at h; exact absurd h (by simp)
        | some window =>
        rw [hwin] at h
        simp only [Option.some_bind] at h
        obtain ⟨scr, wk, hs1, hk1, hst⟩ := set_focus_inv h
        obtain ⟨hlt, -⟩ := List.get?_eq_some.mp hwin
        exact Or.inr ⟨scr, wk, _, true, hs1, hk1, hst, by simpa using hlt⟩
      · rw [if_neg c3] at h
        dsimp only at h
        rw [Option.map_eq_some'] at h
        obtain ⟨st1, hmod, hpair⟩ := h
        obtain ⟨scr', wk', hs', hk', hst⟩ := modifyCurrentWk?_inv hmod
        rw [hsC] at hs'
        obtain rfl := Option.some.inj hs'
        rw [hkC] at hk'
        obtain rfl := Option.some.inj hk'
        obtain ⟨rfl, -⟩ : st1 = st2 ∧ ([] : List (Req Win)) = reqs := by
          constructor <;> injection hpair with h1 h2 <;> simp_all
        exact Or.inl ⟨hst, List.length_eq_zero.mp (by omega),
          List.length_eq_zero.mp (by omega)⟩

theorem reset_count {st : Lapin Win} {s k w : Nat} {ool : Bool} {st2 : Lapin Win}
    {reqs : List (Req Win)}
    (h : st.reset_focus_after_removing s k w ool = some (st2, reqs)) (b : Win) :
    (st2.allWindows).count b = (st.allWindows).count b := by
  obtain ⟨scrC, wkC, hsC, hkC, hcase⟩ := reset_inv h
  rcases hcase with ⟨rfl, -, -⟩ | ⟨scr, wk, w', ool', hs1, hk1, rfl, -⟩
  · have h1 := count_setWkState { wkC with focused := none } hsC hkC b
    have h2 : wkWins { wkC with focused := none } = wkWins wkC := rfl
    rw [h2] at h1
    omega
  · have h1 := count_focusState { wk with focused := some w', ool_focus := ool' } hs1 hk1 b
    have h2 : wkWins { wk with focused := some w', ool_focus := ool' } = wkWins wk := rfl
    rw [h2] at h1
    omega

theorem reset_valid {st : Lapin Win} {w : Nat} {ool : Bool} {st2 : Lapin Win}
    {reqs : List (Req Win)} {scrC : Screen Win}
    (hsC : st.screens.get? st.current_scr = some scrC)
    (h : st.reset_focus_after_removing st.current_scr scrC.current_wk w ool
      = some (st2, reqs))
    (hv : stValid st) : stValid st2 := by
  obtain ⟨scrC', wkC, hsC', hkC, hcase⟩ := reset_inv h
  rw [hsC] at hsC'
  obtain rfl := Option.some.inj hsC'
  rcases hcase with ⟨rfl, -, -⟩ | ⟨scr, wk, w', ool', hs1, hk1, rfl, hbound⟩
  · refine stValid_setWkState hsC hkC hv ?_
    constructor
    · intro i hi
      simp at hi
    · intro _ _
      rfl
  · rw [hsC] at hs1
    obtain rfl := Option.some.inj hs1
    rw [hkC] at hk1
    obtain rfl := Option.some.inj hk1
    refine stValid_focusState hsC hkC hv ?_
    constructor
    · intro i hi
      obtain rfl : w' = i := by simpa using hi
      simpa using hbound
    · intro h1 h2
      exfalso
      have h1' : wkC.windows = [] := h1
      have h2' : wkC.ool_windows = [] := h2
      cases ool'
      · rw [h1'] at hbound
        simp at hbound
      · rw [h2'] at hbound
        simp at hbound

/-! ## Per-operation preservation lemmas -/

theorem change_screen_inv {st : Lapin Win} {previous : Bool}
    {p : Lapin Win × List (Req Win)} (h : st.change_screen previous = some p) :
    (∀ b : Win, (p.1.allWindows).count b = (st.allWindows).count b) ∧
      (stValid st → stValid p.1) := by
  unfold Lapin.change_screen at h
  simp only [Option.pure_def, Option.bind_eq_bind, Option.bind_eq_some,
    Option.some.injEq] at h
  obtain ⟨oldF, h1, nf, h2, u, h3, hp⟩ := h
  subst hp
  exact ⟨fun b => rfl, fun hv s2 scr2 k2 wk2 hg1 hg2 => hv s2 scr2 k2 wk2 hg1 hg2⟩

theorem goto_workspace_inv {cfg : Config} {st : Lapin Win} {k : Nat}
    {p : Lapin Win × List (Req Win)} (h : st.goto_workspace cfg k = some p) :
    (∀ b : Win, (p.1.allWindows).count b = (st.allWindows).count b) ∧
      (stValid st → stValid p.1) := by
  unfold Lapin.goto_workspace at h
  cases hscr : st.currentScreen? with
  | none => rw [hscr] at h; exact absurd h (by simp)
  | some scr =>
  rw [hscr] at h
  simp only [Option.pure_def, Option.bind_eq_bind, Option.some_bind] at h
  have hscr' : st.screens.get? st.current_scr = some scr := hscr
  by_cases hck : scr.current_wk = k
  · rw [if_pos hck] at h
    obtain rfl := Option.some.inj h
    exact ⟨fun b => rfl, fun hv => hv⟩
  · rw [if_neg hck] at h
    simp only [Option.pure_def, Option.bind_eq_bind, Option.bind_eq_some,
      Option.some.injEq] at h
    obtain ⟨wkOld, h2, wkNew, h3, hrest⟩ := h
    have hp1 : p.1 = { screens := st.screens.set st.current_scr { scr with current_wk := k }, current_scr := st.current_scr } := by
      cases hf : wkNew.focused <;> rw [hf] at hrest <;>
        simp only [Option.bind_eq_some, Option.some.injEq] at hrest
      · obtain ⟨lay, h5, co, h6, hp⟩ := hrest
        rw [← hp]
      · obtain ⟨y, hy, lay, h5, co, h6, hp⟩ := hrest
        rw [← hp]
    constructor
    · intro b
      rw [hp1]
      have hcnt := count_screens_set { scr with current_wk := k } hscr' b
      have hsw : scrWins { scr with current_wk := k } = scrWins scr := rfl
      rw [hsw] at hcnt
      show ((st.screens.set st.current_scr
          { scr with current_wk := k }).flatMap scrWins).count b
        = (st.screens.flatMap scrWins).count b
      omega
    · intro hv s2 scr2 k2 wk2 hg1 hg2
      rw [hp1] at hg1
      have hg1' : (st.screens.set st.current_scr
          { scr with current_wk := k }).get? s2 = some scr2 := hg1
      rcases get?_set_inv hscr' hg1' with ⟨rfl, rfl⟩ | ⟨hne, hget⟩
      · exact hv st.current_scr scr k2 wk2 hscr' hg2
      · exact hv s2 scr2 k2 wk2 hget hg2

theorem toggle_focus_inv {st : Lapin Win} {win : Win} {raise : Bool}
    {p : Lapin Win × List (Req Win)} (h : st.toggle_focus win raise = some p) :
    (∀ b : Win, (p.1.allWindows).count b = (st.allWindows).count b) ∧
      (stValid st → stValid p.1) := by
  unfold Lapin.toggle_focus at h
  cases hloc : st.window_location win with
  | none =>
    rw [hloc] at h
    obtain rfl := Option.some.inj h
    exact ⟨fun b => rfl, fun hv => hv⟩
  | some q =>
  obtain ⟨s, k, w, ool⟩ := q
  rw [hloc] at h
  simp only [Option.pure_def, Option.bind_eq_bind, Option.bind_eq_some,
    Option.some.injEq] at h
  obtain ⟨oldF, h1, x, h2, hp⟩ := h
  obtain ⟨st1, reqs1⟩ := x
  subst hp
  obtain ⟨scr, wk, hs, hk, hst⟩ := set_focus_inv h2
  subst hst
  obtain ⟨scr', wk', hs', hk', hwin⟩ := window_location_some_spec hloc
  rw [hs] at hs'
  obtain rfl := Option.some.inj hs'
  rw [hk] at hk'
  obtain rfl := Option.some.inj hk'
  constructor
  · intro b
    have h1c := count_focusState { wk with focused := some w, ool_focus := ool } hs hk b
    have h2c : wkWins { wk with focused := some w, ool_focus := ool } = wkWins wk := rfl
    rw [h2c] at h1c
    show ((focusState st s k scr
        { wk with focused := some w, ool_focus := ool }).allWindows).count b
      = (st.allWindows).count b
    omega
  · intro hv
    refine stValid_focusState hs hk hv ?_
    constructor
    · intro i hi
      obtain rfl : w = i := by simpa using hi
      cases hb : ool with
      | true =>
        rw [hb] at hwin
        simp only [if_true] at hwin ⊢
        exact (List.get?_eq_some.mp hwin).1
      | false =>
        rw [hb] at hwin
        simp only [Bool.false_eq_true, if_false] at hwin ⊢
        exact (List.get?_eq_some.mp hwin).1
    · intro h1 h2
      exfalso
      have h1' : wk.windows = [] := h1
      have h2' : wk.ool_windows = [] := h2
      cases hb : ool
      · rw [hb, h1'] at hwin
        simp at hwin
      · rw [hb, h2'] at hwin
        simp at hwin

theorem change_win_target_get {previous : Bool} {wk : Workspace Win}
    {window : Win} {new_w : Nat} {ool : Bool} {oldw : Win}
    (h : change_win_target previous wk = some (some (window, new_w, ool, oldw))) :
    (if ool then wk.ool_windows.get? new_w else wk.windows.get? new_w) = some window := by
  unfold change_win_target at h
  cases hf : wk.focused with
  | none => rw [hf] at h; simp at h
  | some w0 =>
  rw [hf] at h
  dsimp only at h
  by_cases hle : wk.windows.length + wk.ool_windows.length ≤ 1
  · rw [if_pos hle] at h
    simp at h
  · rw [if_neg hle] at h
    cases hA : (if (nextFocusPos previous wk.windows.length wk.ool_windows.length w0 wk.ool_focus).2 then wk.ool_windows.get? (nextFocusPos previous wk.windows.length wk.ool_windows.length w0 wk.ool_focus).1 else wk.windows.get? (nextFocusPos previous wk.windows.length wk.ool_windows.length w0 wk.ool_focus).1) with
    | none =>
      rw [hA] at h
      cases hB : (if wk.ool_focus then wk.ool_windows.get? w0 else wk.windows.get? w0) <;>
        rw [hB] at h <;> simp at h
    | some win1 =>
      rw [hA] at h
      cases hB : (if wk.ool_focus then wk.ool_windows.get? w0 else wk.windows.get? w0) with
      | none => rw [hB] at h; simp at h
      | some oldw1 =>
        rw [hB] at h
        simp only [Option.some.injEq, Prod.mk.injEq] at h
        obtain ⟨rfl, rfl, rfl, rfl⟩ := h
        exact hA

theorem change_win_inv {cfg : Config} {st : Lapin Win} {previous : Bool}
    {p : Lapin Win × List (Req Win)} (h : st.change_win cfg previous = some p) :
    (∀ b : Win, (p.1.allWindows).count b = (st.allWindows).count b) ∧
      (stValid st → stValid p.1) := by
  obtain ⟨st', reqs⟩ := p
  rcases change_win_cases cfg previous st st' reqs h with rfl |
    ⟨scr, wk, window, new_w, ool, oldw, hscr, hwk, htgt, rfl⟩
  · exact ⟨fun b => rfl, fun hv => hv⟩
  · have hs : st.screens.get? st.current_scr = some scr := hscr
    obtain ⟨scr2, hs2, hk2⟩ := currentWorkspace?_inv hwk
    rw [hs] at hs2
    obtain rfl := Option.some.inj hs2
    constructor
    · intro b
      have h1c := count_focusState { wk with focused := some new_w, ool_focus := ool } hs hk2 b
      have h2c : wkWins { wk with focused := some new_w, ool_focus := ool } = wkWins wk := rfl
      rw [h2c] at h1c
      show ((focusState st st.current_scr scr.current_wk scr { wk with focused := some new_w, ool_focus := ool }).allWindows).count b = (st.allWindows).count b
      omega
    · intro hv
      have hval : stValid (focusState st st.current_scr scr.current_wk scr { wk with focused := some new_w, ool_focus := ool }) := by
        refine stValid_focusState hs hk2 hv ?_
        have hget := change_win_target_get htgt
        constructor
        · intro i hi
          obtain rfl : new_w = i := by simpa using hi
          cases hb : ool with
          | true =>
            rw [hb] at hget
            simp only [if_true] at hget ⊢
            exact (List.get?_eq_some.mp hget).1
          | false =>
            rw [hb] at hget
            simp only [Bool.false_eq_true, if_false] at hget ⊢
            exact (List.get?_eq_some.mp hget).1
        · intro h1 h2
          exfalso
          have h1' : wk.windows = [] := h1
          have h2' : wk.ool_windows = [] := h2
          cases hb : ool
          · rw [hb, h1'] at hget
            simp at hget
          · rw [hb, h2'] at hget
            simp at hget
      exact hval

theorem toggle_ool_inv {cfg : Config} {st : Lapin Win}
    {p : Lapin Win × List (Req Win)} (h : st.toggle_ool cfg = some p) :
    (∀ b : Win, (p.1.allWindows).count b = (st.allWindows).count b) ∧
      (stValid st → stValid p.1) := by
  unfold Lapin.toggle_ool at h
  cases hwk : st.currentWorkspace? with
  | none => rw [hwk] at h; exact absurd h (by simp)
  | some wk =>
  rw [hwk] at h
  simp only [Option.pure_def, Option.bind_eq_bind, Option.some_bind] at h
  obtain ⟨scrX, hsX, hkX⟩ := currentWorkspace?_inv hwk
  cases hf : wk.focused with
  | none =>
    rw [hf] at h
    dsimp only at h
    obtain rfl := Option.some.inj h
    exact ⟨fun b => rfl, fun hv => hv⟩
  | some w =>
  rw [hf] at h
  dsimp only at h
  cases hscr : st.currentScreen? with
  | none => rw [hscr] at h; exact absurd h (by simp)
  | some scr =>
  rw [hscr] at h
  simp only [Option.pure_def, Option.bind_eq_bind, Option.some_bind] at h
  have hsX' : st.currentScreen? = some scrX := hsX
  rw [hsX'] at hscr
  obtain rfl := Option.some.inj hscr
  cases hoolf : wk.ool_focus with
  | true =>
    rw [hoolf] at h
    simp only [eq_self_iff_true, if_true] at h
    simp only [Option.bind_eq_some, Option.some.injEq] at h
    obtain ⟨pr, hrem, st1, hset, lay, hlay, co, hco, wk1, hwk1, nr, hnr, hp⟩ := h
    obtain ⟨scrY, wkY, hsY, hkY, hstY⟩ := setWk?_inv hset
    rw [hsX] at hsY
    obtain rfl := Option.some.inj hsY
    rw [hkX] at hkY
    obtain rfl := Option.some.inj hkY
    subst hstY
    rw [← hp]
    constructor
    · intro b
      have h1c := count_setWkState { wk with ool_windows := pr.2, windows := pr.1 :: wk.windows, ool_focus := false, focused := some 0 } hsX hkX b
      have h2c : (wkWins { wk with ool_windows := pr.2, windows := pr.1 :: wk.windows, ool_focus := false, focused := some 0 }).count b = (wkWins wk).count b := by
        show ((pr.1 :: wk.windows) ++ pr.2).count b = (wk.windows ++ wk.ool_windows).count b
        have hrc := removeAt?_count hrem b
        simp only [List.count_append, List.count_cons]
        simp only [List.count_append] at hrc ⊢
        rw [hrc]
        by_cases hpb : pr.1 = b <;> simp [hpb] <;> omega
      rw [h2c] at h1c
      show ((setWkState st st.current_scr scrX.current_wk scrX { wk with ool_windows := pr.2, windows := pr.1 :: wk.windows, ool_focus := false, focused := some 0 }).allWindows).count b = (st.allWindows).count b
      omega
    · intro hv
      refine stValid_setWkState hsX hkX hv ?_
      constructor
      · intro i hi
        obtain rfl : (0 : Nat) = i := by simpa using hi
        simp
      · intro h1 h2
        exact absurd h1 (by simp)
  | false =>
    rw [hoolf] at h
    simp only [Bool.false_eq_true, if_false] at h
    simp only [Option.bind_eq_some, Option.some.injEq] at h
    obtain ⟨pr, hrem, st1, hset, lay, hlay, co, hco, wk1, hwk1, hp⟩ := h
    obtain ⟨scrY, wkY, hsY, hkY, hstY⟩ := setWk?_inv hset
    rw [hsX] at hsY
    obtain rfl := Option.some.inj hsY
    rw [hkX] at hkY
    obtain rfl := Option.some.inj hkY
    subst hstY
    rw [← hp]
    constructor
    · intro b
      have h1c := count_setWkState { wk with windows := pr.2, ool_windows := pr.1 :: wk.ool_windows, ool_focus := true, focused := some 0 } hsX hkX b
      have h2c : (wkWins { wk with windows := pr.2, ool_windows := pr.1 :: wk.ool_windows, ool_focus := true, focused := some 0 }).count b = (wkWins wk).count b := by
        show (pr.2 ++ (pr.1 :: wk.ool_windows)).count b = (wk.windows ++ wk.ool_windows).count b
        have hrc := removeAt?_count hrem b
        simp only [List.count_append, List.count_cons]
        simp only [List.count_append] at hrc ⊢
        rw [hrc]
        by_cases hpb : pr.1 = b <;> simp [hpb] <;> omega
      rw [h2c] at h1c
      show ((setWkState st st.current_scr scrX.current_wk scrX { wk with windows := pr.2, ool_windows := pr.1 :: wk.ool_windows, ool_focus := true, focused := some 0 }).allWindows).count b = (st.allWindows).count b
      omega
    · intro hv
      refine stValid_setWkState hsX hkX hv ?_
      constructor
      · intro i hi
        obtain rfl : (0 : Nat) = i := by simpa using hi
        simp
      · intro h1 h2
        exact absurd h2 (by simp)

theorem count_cons_append1 (l1 l2 : List Win) (win b : Win) :
    (l1 ++ (win :: l2)).count b = (l1 ++ l2).count b + (if b = win then 1 else 0) := by
  simp only [List.count_append, List.count_cons]
  by_cases hpb : b = win
  · simp [hpb]
    omega
  · simp [hpb]
    exact fun hw => hpb hw.symm

theorem count_cons_append2 (l1 l2 : List Win) (win b : Win) :
    ((win :: l1) ++ l2).count b = (l1 ++ l2).count b + (if b = win then 1 else 0) := by
  simp only [List.count_append, List.count_cons]
  by_cases hpb : b = win
  · simp [hpb]
    omega
  · simp [hpb]
    exact fun hw => hpb hw.symm

theorem count_cons_append1f (l1 l2 : List Win) (win b : Win) :
    (l1 ++ (win :: l2)).count b = (l1 ++ l2).count b + (if win = b then 1 else 0) := by
  rw [count_cons_append1]
  by_cases h : b = win
  · rw [if_pos h, if_pos h.symm]
  · rw [if_neg h, if_neg (fun hh => h hh.symm)]

theorem count_cons_append2f (l1 l2 : List Win) (win b : Win) :
    ((win :: l1) ++ l2).count b = (l1 ++ l2).count b + (if win = b then 1 else 0) := by
  rw [count_cons_append2]
  by_cases h : b = win
  · rw [if_pos h, if_pos h.symm]
  · rw [if_neg h, if_neg (fun hh => h hh.symm)]

theorem manage_inv {cfg : Config} {st : Lapin Win} {win : Win} {attr : Option Bool}
    {cls : Option (String × String)} {p : Lapin Win × List (Req Win)}
    (h : st.manage_window cfg win attr cls = some p) :
    (p.1 = st ∨
      (st.window_location win = none ∧
        ∀ b : Win, (p.1.allWindows).count b
          = (st.allWindows).count b + (if b = win then 1 else 0))) ∧
    (stValid st → stValid p.1) := by
  unfold Lapin.manage_window at h
  by_cases hloc : (st.window_location win).isSome
  · rw [if_pos hloc] at h
    obtain rfl := Option.some.inj h
    exact ⟨Or.inl rfl, fun hv => hv⟩
  · rw [if_neg hloc] at h
    have hlocn : st.window_location win = none := Option.not_isSome_iff_eq_none.mp hloc
    cases attr with
    | none =>
      obtain rfl := Option.some.inj h
      exact ⟨Or.inl rfl, fun hv => hv⟩
    | some bb =>
    cases bb with
    | true =>
      obtain rfl := Option.some.inj h
      exact ⟨Or.inl rfl, fun hv => hv⟩
    | false =>
    dsimp only at h
    cases hscr : st.currentScreen? with
    | none => rw [hscr] at h; exact absurd h (by simp)
    | some scr =>
    rw [hscr] at h
    simp only [Option.pure_def, Option.bind_eq_bind, Option.some_bind] at h
    have hscr' : st.screens.get? st.current_scr = some scr := hscr
    cases har : apply_rules win cfg.rules scr.current_wk scr.width scr.height scr.x scr.y cls with
    | mk outcome ruleReqs =>
    rw [har] at h
    dsimp only at h
    cases hlay : st.currentLayout? cfg with
    | none => rw [hlay] at h; exact absurd h (by simp)
    | some lay =>
    rw [hlay] at h
    simp only [Option.pure_def, Option.bind_eq_bind, Option.some_bind] at h
    cases hof : st.get_focused_window with
    | none => rw [hof] at h; exact absurd h (by simp)
    | some oldF =>
    rw [hof] at h
    simp only [Option.pure_def, Option.bind_eq_bind, Option.some_bind,
      Option.bind_eq_some, Option.some.injEq] at h
    obtain ⟨st1, hst1, hrest⟩ := h
    obtain ⟨scrM, wkM, hsM, hkM, hstM⟩ := modifyWk?_inv hst1
    rw [hscr'] at hsM
    obtain rfl := Option.some.inj hsM
    by_cases hwkeq : outcome.workspace = scr.current_wk
    · rw [if_pos hwkeq] at hrest
      simp only [Option.bind_eq_some, Option.some.injEq] at hrest
      obtain ⟨co, hco, wk1, hwk1, nreqs, hnr, y, hsf, hp⟩ := hrest
      obtain ⟨stf, fr⟩ := y
      rw [hwkeq] at hstM hkM
      obtain ⟨scrF, wkF, hsF, hkF, hstF⟩ := set_focus_inv hsf
      cases hool : outcome.ool with
      | true =>
        rw [hool] at hstM hstF
        simp only [eq_self_iff_true, if_true] at hstM
        subst hstM
        have hsF' : ((st.screens.set st.current_scr { scr with workspaces := scr.workspaces.set scr.current_wk { wkM with ool_windows := win :: wkM.ool_windows } }).get? st.current_scr) = some scrF := hsF
        rcases get?_set_inv hscr' hsF' with ⟨-, rfl⟩ | ⟨hne, -⟩
        · have hkF' : ((scr.workspaces.set scr.current_wk { wkM with ool_windows := win :: wkM.ool_windows }).get? scr.current_wk) = some wkF := hkF
          rcases get?_set_inv hkM hkF' with ⟨-, rfl⟩ | ⟨hne2, -⟩
          · have hcs : (setWkState st st.current_scr scr.current_wk scr { wkM with ool_windows := win :: wkM.ool_windows }).current_scr = st.current_scr := rfl
            rw [hcs, focusState_setWkState] at hstF
            subst hstF
            rw [← hp]
            constructor
            · refine Or.inr ⟨hlocn, fun b => ?_⟩
              have h1c := count_focusState { { wkM with ool_windows := win :: wkM.ool_windows } with focused := some 0, ool_focus := true } hscr' hkM b
              have h2c : (wkWins { { wkM with ool_windows := win :: wkM.ool_windows } with focused := some 0, ool_focus := true }).count b = (wkWins wkM).count b + (if b = win then 1 else 0) := by
                show (wkM.windows ++ (win :: wkM.ool_windows)).count b = (wkM.windows ++ wkM.ool_windows).count b + (if b = win then 1 else 0)
                exact count_cons_append1 _ _ _ _
              rw [h2c] at h1c
              show ((focusState st st.current_scr scr.current_wk scr { { wkM with ool_windows := win :: wkM.ool_windows } with focused := some 0, ool_focus := true }).allWindows).count b = (st.allWindows).count b + (if b = win then 1 else 0)
              omega
            · intro hv
              refine stValid_focusState hscr' hkM hv ?_
              constructor
              · intro i hi
                obtain rfl : (0 : Nat) = i := by simpa using hi
                simp
              · intro h1 h2
                exact absurd h2 (by simp)
          · exact absurd rfl hne2
        · exact absurd rfl hne
      | false =>
        rw [hool] at hstM hstF
        simp only [Bool.false_eq_true, if_false] at hstM
        subst hstM
        have hsF' : ((st.screens.set st.current_scr { scr with workspaces := scr.workspaces.set scr.current_wk { wkM with windows := win :: wkM.windows } }).get? st.current_scr) = some scrF := hsF
        rcases get?_set_inv hscr' hsF' with ⟨-, rfl⟩ | ⟨hne, -⟩
        · have hkF' : ((scr.workspaces.set scr.current_wk { wkM with windows := win :: wkM.windows }).get? scr.current_wk) = some wkF := hkF
          rcases get?_set_inv hkM hkF' with ⟨-, rfl⟩ | ⟨hne2, -⟩
          · have hcs : (setWkState st st.current_scr scr.current_wk scr { wkM with windows := win :: wkM.windows }).current_scr = st.current_scr := rfl
            rw [hcs, focusState_setWkState] at hstF
            subst hstF
            rw [← hp]
            constructor
            · refine Or.inr ⟨hlocn, fun b => ?_⟩
              have h1c := count_focusState { { wkM with windows := win :: wkM.windows } with focused := some 0, ool_focus := false } hscr' hkM b
              have h2c : (wkWins { { wkM with windows := win :: wkM.windows } with focused := some 0, ool_focus := false }).count b = (wkWins wkM).count b + (if b = win then 1 else 0) := by
                show ((win :: wkM.windows) ++ wkM.ool_windows).count b = (wkM.windows ++ wkM.ool_windows).count b + (if b = win then 1 else 0)
                exact count_cons_append2 _ _ _ _
              rw [h2c] at h1c
              show ((focusState st st.current_scr scr.current_wk scr { { wkM with windows := win :: wkM.windows } with focused := some 0, ool_focus := false }).allWindows).count b = (st.allWindows).count b + (if b = win then 1 else 0)
              omega
            · intro hv
              refine stValid_focusState hscr' hkM hv ?_
              constructor
              · intro i hi
                obtain rfl : (0 : Nat) = i := by simpa using hi
                simp
              · intro h1 h2
                exact absurd h1 (by simp)
          · exact absurd rfl hne2
        · exact absurd rfl hne
    · rw [if_neg hwkeq] at hrest
      obtain hp := Option.some.inj hrest
      cases hool : outcome.ool with
      | true =>
        rw [hool] at hstM
        simp only [eq_self_iff_true, if_true] at hstM
        subst hstM
        rw [← hp]
        constructor
        · refine Or.inr ⟨hlocn, fun b => ?_⟩
          have h1c := count_setWkState { wkM with ool_windows := win :: wkM.ool_windows } hscr' hkM b
          have h2c : (wkWins { wkM with ool_windows := win :: wkM.ool_windows }).count b = (wkWins wkM).count b + (if b = win then 1 else 0) := by
            show (wkM.windows ++ (win :: wkM.ool_windows)).count b = (wkM.windows ++ wkM.ool_windows).count b + (if b = win then 1 else 0)
            exact count_cons_append1 _ _ _ _
          rw [h2c] at h1c
          show ((setWkState st st.current_scr outcome.workspace scr { wkM with ool_windows := win :: wkM.ool_windows }).allWindows).count b = (st.allWindows).count b + (if b = win then 1 else 0)
          omega
        · intro hv
          exact stValid_setWkState hscr' hkM hv
            (wkValid_insert_ool (hv st.current_scr scr outcome.workspace wkM hscr' hkM) win)
      | false =>
        rw [hool] at hstM
        simp only [Bool.false_eq_true, if_false] at hstM
        subst hstM
        rw [← hp]
        constructor
        · refine Or.inr ⟨hlocn, fun b => ?_⟩
          have h1c := count_setWkState { wkM with windows := win :: wkM.windows } hscr' hkM b
          have h2c : (wkWins { wkM with windows := win :: wkM.windows }).count b = (wkWins wkM).count b + (if b = win then 1 else 0) := by
            show ((win :: wkM.windows) ++ wkM.ool_windows).count b = (wkM.windows ++ wkM.ool_windows).count b + (if b = win then 1 else 0)
            exact count_cons_append2 _ _ _ _
          rw [h2c] at h1c
          show ((setWkState st st.current_scr outcome.workspace scr { wkM with windows := win :: wkM.windows }).allWindows).count b = (st.allWindows).count b + (if b = win then 1 else 0)
          omega
        · intro hv
          exact stValid_setWkState hscr' hkM hv
            (wkValid_insert_win (hv st.current_scr scr outcome.workspace wkM hscr' hkM) win)


theorem reset_validE {st : Lapin Win} {w : Nat} {ool : Bool} {st2 : Lapin Win}
    {reqs : List (Req Win)} {scrC : Screen Win}
    (hsC : st.screens.get? st.current_scr = some scrC)
    (h : st.reset_focus_after_removing st.current_scr scrC.current_wk w ool
      = some (st2, reqs))
    (hv : stValidExcept st st.current_scr scrC.current_wk) : stValid st2 := by
  obtain ⟨scrC', wkC, hsC', hkC, hcase⟩ := reset_inv h
  rw [hsC] at hsC'
  obtain rfl := Option.some.inj hsC'
  rcases hcase with ⟨rfl, -, -⟩ | ⟨scr, wk, w', ool', hs1, hk1, rfl, hbound⟩
  · intro s2 scr2 k2 wk2 h2 h3
    rcases stGet_setWkState hsC hkC h2 h3 with ⟨-, -, rfl⟩ | ⟨hne, scr0, h4, h5⟩
    · constructor
      · intro i hi
        simp at hi
      · intro _ _
        rfl
    · exact hv s2 scr0 k2 wk2 h4 h5 hne
  · rw [hsC] at hs1
    obtain rfl := Option.some.inj hs1
    rw [hkC] at hk1
    obtain rfl := Option.some.inj hk1
    intro s2 scr2 k2 wk2 h2 h3
    rcases stGet_focusState hsC hkC h2 h3 with ⟨-, -, rfl⟩ | ⟨hne, scr0, h4, h5⟩
    · constructor
      · intro i hi
        obtain rfl : w' = i := by simpa using hi
        simpa using hbound
      · intro h1 h2
        exfalso
        have h1' : wkC.windows = [] := h1
        have h2' : wkC.ool_windows = [] := h2
        cases ool'
        · rw [h1'] at hbound
          simp at hbound
        · rw [h2'] at hbound
          simp at hbound
    · exact hv s2 scr0 k2 wk2 h4 h5 hne

theorem focusFixup_wkWins (ool : Bool) (f : Nat) (wkc : Workspace Win) :
    wkWins (focusFixup ool f wkc) = wkWins wkc := by
  unfold Lapin.focusFixup
  dsimp only
  repeat' split
  all_goals rfl

theorem focusFixup_valid_ool {wk : Workspace Win} {f : Nat} {rest : List Win}
    (hlen : wk.ool_windows.length = rest.length + 1)
    (hf : wk.focused = some f) (hv : wkValid wk) :
    wkValid (focusFixup true f { wk with ool_windows := rest }) := by
  have hb := hv.1 f hf
  unfold Lapin.focusFixup
  dsimp only
  simp only [eq_self_iff_true, true_and, not_true, false_and, if_false, ite_false, ite_true,
    if_true]
  by_cases c1 : wk.ool_focus = true ∧ rest.length ≤ f ∧ 0 < rest.length
  · rw [if_pos (show ({ wk with ool_windows := rest } : Workspace Win).ool_focus = true ∧ ({ wk with ool_windows := rest } : Workspace Win).ool_windows.length ≤ f ∧ 0 < ({ wk with ool_windows := rest } : Workspace Win).ool_windows.length from ⟨c1.1, c1.2.1, c1.2.2⟩)]
    constructor
    · intro i hi
      obtain rfl : f - 1 = i := by simpa using hi
      have hbo : wk.ool_focus = true := c1.1
      simp only [hbo, if_true]
      rw [hbo] at hb
      simp only [if_true] at hb
      omega
    · intro h1 h2
      exfalso
      have h2' : rest = [] := h2
      rw [h2'] at c1
      simp at c1
  · rw [if_neg (fun hc => c1 ⟨hc.1, hc.2.1, hc.2.2⟩)]
    by_cases c2 : rest.length = 0
    · rw [if_pos (show ({ wk with ool_windows := rest } : Workspace Win).ool_windows.length = 0 from c2)]
      constructor
      · intro i hi
        simp at hi
      · intro _ _
        rfl
    · rw [if_neg (fun hc => c2 hc)]
      constructor
      · intro i hi
        obtain rfl : f = i := by
          have : wk.focused = some i := hi
          rw [hf] at this
          exact Option.some.inj this
        cases hbo : wk.ool_focus with
        | true =>
          simp only [hbo, if_true]
          have hnc : ¬(rest.length ≤ f) := fun hle => c1 ⟨hbo, hle, by omega⟩
          omega
        | false =>
          simp only [hbo, Bool.false_eq_true, if_false]
          rw [hbo] at hb
          simp only [Bool.false_eq_true, if_false] at hb
          exact hb
      · intro h1 h2
        exfalso
        have h2' : rest = [] := h2
        rw [h2'] at c2
        simp at c2

theorem focusFixup_valid_win {wk : Workspace Win} {f : Nat} {rest : List Win}
    (hlen : wk.windows.length = rest.length + 1)
    (hf : wk.focused = some f) (hv : wkValid wk) :
    wkValid (focusFixup false f { wk with windows := rest }) := by
  have hb := hv.1 f hf
  unfold Lapin.focusFixup
  dsimp only
  simp only [Bool.false_eq_true, false_and, if_false, ite_false, not_false_iff, true_and,
    eq_self_iff_true]
  by_cases c1 : rest.length ≤ f ∧ 0 < rest.length
  · rw [if_pos (show ({ wk with windows := rest } : Workspace Win).windows.length ≤ f ∧ 0 < ({ wk with windows := rest } : Workspace Win).windows.length from ⟨c1.1, c1.2⟩)]
    constructor
    · intro i hi
      obtain rfl : f - 1 = i := by simpa using hi
      cases hbo : wk.ool_focus with
      | true =>
        simp only [hbo, if_true]
        rw [hbo] at hb
        simp only [if_true] at hb
        omega
      | false =>
        simp only [hbo, Bool.false_eq_true, if_false]
        rw [hbo] at hb
        simp only [Bool.false_eq_true, if_false] at hb
        omega
    · intro h1 h2
      exfalso
      have h1' : rest = [] := h1
      rw [h1'] at c1
      simp at c1
  · rw [if_neg (fun hc => c1 ⟨hc.1, hc.2⟩)]
    by_cases c2 : rest.length = 0
    · rw [if_pos (show ({ wk with windows := rest } : Workspace Win).windows.length = 0 from c2)]
      constructor
      · intro i hi
        simp at hi
      · intro _ _
        rfl
    · rw [if_neg (fun hc => c2 hc)]
      constructor
      · intro i hi
        obtain rfl : f = i := by
          have : wk.focused = some i := hi
          rw [hf] at this
          exact Option.some.inj this
        cases hbo : wk.ool_focus with
        | true =>
          simp only [hbo, if_true]
          rw [hbo] at hb
          simp only [if_true] at hb
          exact hb
        | false =>
          simp only [hbo, Bool.false_eq_true, if_false]
          have hnc : ¬(rest.length ≤ f) := fun hle => c1 ⟨hle, by omega⟩
          omega
      · intro h1 h2
        exfalso
        have h1' : rest = [] := h1
        rw [h1'] at c2
        simp at c2

set_option maxHeartbeats 1600000 in
theorem unmanage_inv {cfg : Config} {st : Lapin Win} {win : Win} {setF : Bool}
    {p : Lapin Win × List (Req Win)} (h : st.unmanage_window cfg win setF = some p) :
    (∀ b : Win, (p.1.allWindows).count b ≤ (st.allWindows).count b) ∧
    ((∀ s k w ool, st.window_location win = some (s, k, w, ool) →
        s = st.current_scr ∧ ∀ scr, st.screens.get? s = some scr → k = scr.current_wk) →
      stValid st → stValid p.1) := by
  unfold Lapin.unmanage_window at h
  cases hloc : st.window_location win with
  | none =>
    rw [hloc] at h
    obtain rfl := Option.some.inj h
    exact ⟨fun b => le_refl _, fun _ hv => hv⟩
  | some q =>
  obtain ⟨s, k, w, ool⟩ := q
  rw [hloc] at h
  dsimp only at h
  cases hscr : st.currentScreen? with
  | none => rw [hscr] at h; exact absurd h (by simp)
  | some scr =>
  rw [hscr] at h
  simp only [Option.pure_def, Option.bind_eq_bind, Option.some_bind] at h
  have hscr' : st.screens.get? st.current_scr = some scr := hscr
  cases hwk : scr.workspaces.get? scr.current_wk with
  | none => rw [hwk] at h; exact absurd h (by simp)
  | some wk =>
  rw [hwk] at h
  simp only [Option.some_bind] at h
  cases ool with
  | true =>
    simp only [eq_self_iff_true, if_true, ite_true, Option.bind_eq_bind,
      Option.bind_eq_some, Option.some.injEq] at h
    obtain ⟨pr, hrem, st1, hset, hrest⟩ := h
    obtain ⟨scrY, wkY, hsY, hkY, hstY⟩ := setWk?_inv hset
    rw [hscr'] at hsY
    obtain rfl := Option.some.inj hsY
    rw [hwk] at hkY
    obtain rfl := Option.some.inj hkY
    subst hstY
    cases setF with
    | true =>
      simp only [eq_self_iff_true, if_true, ite_true, Option.bind_eq_some,
        Option.some.injEq] at hrest
      obtain ⟨y, hy, hrest2⟩ := hrest
      obtain ⟨st2, fr⟩ := y
      simp only [Option.bind_eq_some, Option.some.injEq] at hrest2
      obtain ⟨lr, hlr, hp⟩ := hrest2
      constructor
      · intro b
        have hc1 := reset_count hy b
        have hc2 := count_setWkState { wk with ool_windows := pr.2 } hscr' hwk b
        have hc3 : (wkWins { wk with ool_windows := pr.2 }).count b + (if pr.1 = b then 1 else 0) = (wkWins wk).count b := by
          show (wk.windows ++ pr.2).count b + _ = (wk.windows ++ wk.ool_windows).count b
          have hrc := removeAt?_count hrem b
          simp only [List.count_append]
          omega
        rw [← hp]
        show (st2.allWindows).count b ≤ (st.allWindows).count b
        omega
      · intro hsafe hv
        obtain ⟨hseq, hkf⟩ := hsafe s k w true rfl
        subst hseq
        have hkeq := hkf scr hscr'
        subst hkeq
        have hsC1 : (setWkState st st.current_scr scr.current_wk scr { wk with ool_windows := pr.2 }).screens.get? (setWkState st st.current_scr scr.current_wk scr { wk with ool_windows := pr.2 }).current_scr = some { scr with workspaces := scr.workspaces.set scr.current_wk { wk with ool_windows := pr.2 } } := get?_set_self hscr'
        have hvE : stValidExcept (setWkState st st.current_scr scr.current_wk scr { wk with ool_windows := pr.2 }) (setWkState st st.current_scr scr.current_wk scr { wk with ool_windows := pr.2 }).current_scr ({ scr with workspaces := scr.workspaces.set scr.current_wk { wk with ool_windows := pr.2 } } : Screen Win).current_wk := by
          intro s2 scr2 k2 wk2 h2 h3 hne
          rcases stGet_setWkState hscr' hwk h2 h3 with ⟨hs2, hk2, rfl⟩ | ⟨hne2, scr0, h4, h5⟩
          · exact absurd ⟨hs2, hk2⟩ hne
          · exact hv s2 scr0 k2 wk2 h4 h5
        have hfinal := reset_validE hsC1 hy hvE
        rw [← hp]
        exact hfinal
    | false =>
      simp only [Bool.false_eq_true, if_false, ite_false, Option.bind_eq_bind,
        Option.bind_eq_some, Option.some.injEq] at hrest
      obtain ⟨wk1, hwk1, hym⟩ := hrest
      obtain ⟨scrZ, hsZ, hkZ⟩ := currentWorkspace?_inv hwk1
      have hsZ' : ((st.screens.set st.current_scr { scr with workspaces := scr.workspaces.set scr.current_wk { wk with ool_windows := pr.2 } }).get? st.current_scr) = some scrZ := hsZ
      rcases get?_set_inv hscr' hsZ' with ⟨-, rfl⟩ | ⟨hne, -⟩
      · have hkZ' : ((scr.workspaces.set scr.current_wk { wk with ool_windows := pr.2 }).get? scr.current_wk) = some wk1 := hkZ
        rcases get?_set_inv hwk hkZ' with ⟨-, rfl⟩ | ⟨hne2, -⟩
        · dsimp only at hym
          cases hfz : wk.focused with
          | none =>
            rw [hfz] at hym
            simp only [Option.bind_eq_some, Option.some.injEq] at hym
            obtain ⟨lr, hlr, hp⟩ := hym
            constructor
            · intro b
              have hc2 := count_setWkState { wk with ool_windows := pr.2, focused := none } hscr' hwk b
              have hc3 : (wkWins { wk with ool_windows := pr.2, focused := none }).count b + (if pr.1 = b then 1 else 0) = (wkWins wk).count b := by
                show (wk.windows ++ pr.2).count b + _ = (wk.windows ++ wk.ool_windows).count b
                have hrc := removeAt?_count hrem b
                simp only [List.count_append]
                omega
              rw [← hp]
              show ((setWkState st st.current_scr scr.current_wk scr { wk with ool_windows := pr.2, focused := none }).allWindows).count b ≤ (st.allWindows).count b
              omega
            · intro hsafe hv
              rw [← hp]
              refine stValid_setWkState hscr' hwk hv ?_
              constructor
              · intro i hi
                exact absurd hi (by simp)
              · intro _ _
                rfl
          | some f =>
            rw [hfz] at hym
            simp only [Option.bind_eq_some, Option.some.injEq] at hym
            obtain ⟨st2w, hmod, lr, hlr, hp⟩ := hym
            obtain ⟨scrW, wkW, hsW, hkW, hstW⟩ := modifyCurrentWk?_inv hmod
            have hsW' : ((st.screens.set st.current_scr { scr with workspaces := scr.workspaces.set scr.current_wk { wk with ool_windows := pr.2, focused := some f } }).get? st.current_scr) = some scrW := hsW
            rcases get?_set_inv hscr' hsW' with ⟨-, rfl⟩ | ⟨hneW, -⟩
            · have hkW' : ((scr.workspaces.set scr.current_wk { wk with ool_windows := pr.2, focused := some f }).get? scr.current_wk) = some wkW := hkW
              rcases get?_set_inv hwk hkW' with ⟨-, rfl⟩ | ⟨hneW2, -⟩
              · have e1 : (setWkState st st.current_scr scr.current_wk scr { wk with ool_windows := pr.2, focused := some f }).current_scr = st.current_scr := rfl
                have e2 : ({ scr with workspaces := scr.workspaces.set scr.current_wk { wk with ool_windows := pr.2, focused := some f } } : Screen Win).current_wk = scr.current_wk := rfl
                rw [e1, e2, setWkState_setWkState] at hstW
                subst hstW
                constructor
                · intro b
                  have hc2 := count_setWkState (Lapin.focusFixup true f { wk with ool_windows := pr.2, focused := some f }) hscr' hwk b
                  rw [focusFixup_wkWins] at hc2
                  have hc3 : (wkWins { wk with ool_windows := pr.2, focused := some f }).count b + (if pr.1 = b then 1 else 0) = (wkWins wk).count b := by
                    show (wk.windows ++ pr.2).count b + _ = (wk.windows ++ wk.ool_windows).count b
                    have hrc := removeAt?_count hrem b
                    simp only [List.count_append]
                    omega
                  rw [← hp]
                  show ((setWkState st st.current_scr scr.current_wk scr (Lapin.focusFixup true f { wk with ool_windows := pr.2, focused := some f })).allWindows).count b ≤ (st.allWindows).count b
                  omega
                · intro hsafe hv
                  rw [← hp]
                  refine stValid_setWkState hscr' hwk hv ?_
                  have hwkv : wkValid ({ wk with focused := some f } : Workspace Win) := by
                    have hE : ({ wk with focused := some f } : Workspace Win) = wk := by
                      rw [← hfz]
                    rw [hE]
                    exact hv st.current_scr scr scr.current_wk wk hscr' hwk
                  exact focusFixup_valid_ool (show ({ wk with focused := some f } : Workspace Win).ool_windows.length = pr.2.length + 1 from (removeAt?_get hrem).2) rfl hwkv
              · exact absurd rfl hneW2
            · exact absurd rfl hneW
        · exact absurd rfl hne2
      · exact absurd rfl hne
  | false =>
    simp only [Bool.false_eq_true, if_false, ite_false, Option.bind_eq_bind,
      Option.bind_eq_some, Option.some.injEq] at h
    obtain ⟨pr, hrem, st1, hset, hrest⟩ := h
    obtain ⟨scrY, wkY, hsY, hkY, hstY⟩ := setWk?_inv hset
    rw [hscr'] at hsY
    obtain rfl := Option.some.inj hsY
    rw [hwk] at hkY
    obtain rfl := Option.some.inj hkY
    subst hstY
    cases setF with
    | true =>
      simp only [eq_self_iff_true, if_true, ite_true, Option.bind_eq_some,
        Option.some.injEq] at hrest
      obtain ⟨y, hy, hrest2⟩ := hrest
      obtain ⟨st2, fr⟩ := y
      simp only [Option.bind_eq_some, Option.some.injEq] at hrest2
      obtain ⟨lr, hlr, hp⟩ := hrest2
      constructor
      · intro b
        have hc1 := reset_count hy b
        have hc2 := count_setWkState { wk with windows := pr.2 } hscr' hwk b
        have hc3 : (wkWins { wk with windows := pr.2 }).count b + (if pr.1 = b then 1 else 0) = (wkWins wk).count b := by
          show (pr.2 ++ wk.ool_windows).count b + _ = (wk.windows ++ wk.ool_windows).count b
          have hrc := removeAt?_count hrem b
          simp only [List.count_append]
          omega
        rw [← hp]
        show (st2.allWindows).count b ≤ (st.allWindows).count b
        omega
      · intro hsafe hv
        obtain ⟨hseq, hkf⟩ := hsafe s k w false rfl
        subst hseq
        have hkeq := hkf scr hscr'
        subst hkeq
        have hsC1 : (setWkState st st.current_scr scr.current_wk scr { wk with windows := pr.2 }).screens.get? (setWkState st st.current_scr scr.current_wk scr { wk with windows := pr.2 }).current_scr = some { scr with workspaces := scr.workspaces.set scr.current_wk { wk with windows := pr.2 } } := get?_set_self hscr'
        have hvE : stValidExcept (setWkState st st.current_scr scr.current_wk scr { wk with windows := pr.2 }) (setWkState st st.current_scr scr.current_wk scr { wk with windows := pr.2 }).current_scr ({ scr with workspaces := scr.workspaces.set scr.current_wk { wk with windows := pr.2 } } : Screen Win).current_wk := by
          intro s2 scr2 k2 wk2 h2 h3 hne
          rcases stGet_setWkState hscr' hwk h2 h3 with ⟨hs2, hk2, rfl⟩ | ⟨hne2, scr0, h4, h5⟩
          · exact absurd ⟨hs2, hk2⟩ hne
          · exact hv s2 scr0 k2 wk2 h4 h5
        have hfinal := reset_validE hsC1 hy hvE
        rw [← hp]
        exact hfinal
    | false =>
      simp only [Bool.false_eq_true, if_false, ite_false, Option.bind_eq_bind,
        Option.bind_eq_some, Option.some.injEq] at hrest
      obtain ⟨wk1, hwk1, hym⟩ := hrest
      obtain ⟨scrZ, hsZ, hkZ⟩ := currentWorkspace?_inv hwk1
      have hsZ' : ((st.screens.set st.current_scr { scr with workspaces := scr.workspaces.set scr.current_wk { wk with windows := pr.2 } }).get? st.current_scr) = some scrZ := hsZ
      rcases get?_set_inv hscr' hsZ' with ⟨-, rfl⟩ | ⟨hne, -⟩
      · have hkZ' : ((scr.workspaces.set scr.current_wk { wk with windows := pr.2 }).get? scr.current_wk) = some wk1 := hkZ
        rcases get?_set_inv hwk hkZ' with ⟨-, rfl⟩ | ⟨hne2, -⟩
        · dsimp only at hym
          cases hfz : wk.focused with
          | none =>
            rw [hfz] at hym
            simp only [Option.bind_eq_some, Option.some.injEq] at hym
            obtain ⟨lr, hlr, hp⟩ := hym
            constructor
            · intro b
              have hc2 := count_setWkState { wk with windows := pr.2, focused := none } hscr' hwk b
              have hc3 : (wkWins { wk with windows := pr.2, focused := none }).count b + (if pr.1 = b then 1 else 0) = (wkWins wk).count b := by
                show (pr.2 ++ wk.ool_windows).count b + _ = (wk.windows ++ wk.ool_windows).count b
                have hrc := removeAt?_count hrem b
                simp only [List.count_append]
                omega
              rw [← hp]
              show ((setWkState st st.current_scr scr.current_wk scr { wk with windows := pr.2, focused := none }).allWindows).count b ≤ (st.allWindows).count b
              omega
            · intro hsafe hv
              rw [← hp]
              refine stValid_setWkState hscr' hwk hv ?_
              constructor
              · intro i hi
                exact absurd hi (by simp)
              · intro _ _
                rfl
          | some f =>
            rw [hfz] at hym
            simp only [Option.bind_eq_some, Option.some.injEq] at hym
            obtain ⟨st2w, hmod, lr, hlr, hp⟩ := hym
            obtain ⟨scrW, wkW, hsW, hkW, hstW⟩ := modifyCurrentWk?_inv hmod
            have hsW' : ((st.screens.set st.current_scr { scr with workspaces := scr.workspaces.set scr.current_wk { wk with windows := pr.2, focused := some f } }).get? st.current_scr) = some scrW := hsW
            rcases get?_set_inv hscr' hsW' with ⟨-, rfl⟩ | ⟨hneW, -⟩
            · have hkW' : ((scr.workspaces.set scr.current_wk { wk with windows := pr.2, focused := some f }).get? scr.current_wk) = some wkW := hkW
              rcases get?_set_inv hwk hkW' with ⟨-, rfl⟩ | ⟨hneW2, -⟩
              · have e1 : (setWkState st st.current_scr scr.current_wk scr { wk with windows := pr.2, focused := some f }).current_scr = st.current_scr := rfl
                have e2 : ({ scr with workspaces := scr.workspaces.set scr.current_wk { wk with windows := pr.2, focused := some f } } : Screen Win).current_wk = scr.current_wk := rfl
                rw [e1, e2, setWkState_setWkState] at hstW
                subst hstW
                constructor
                · intro b
                  have hc2 := count_setWkState (Lapin.focusFixup false f { wk with windows := pr.2, focused := some f }) hscr' hwk b
                  rw [focusFixup_wkWins] at hc2
                  have hc3 : (wkWins { wk with windows := pr.2, focused := some f }).count b + (if pr.1 = b then 1 else 0) = (wkWins wk).count b := by
                    show (pr.2 ++ wk.ool_windows).count b + _ = (wk.windows ++ wk.ool_windows).count b
                    have hrc := removeAt?_count hrem b
                    simp only [List.count_append]
                    omega
                  rw [← hp]
                  show ((setWkState st st.current_scr scr.current_wk scr (Lapin.focusFixup false f { wk with windows := pr.2, focused := some f })).allWindows).count b ≤ (st.allWindows).count b
                  omega
                · intro hsafe hv
                  rw [← hp]
                  refine stValid_setWkState hscr' hwk hv ?_
                  have hwkv : wkValid ({ wk with focused := some f } : Workspace Win) := by
                    have hE : ({ wk with focused := some f } : Workspace Win) = wk := by
                      rw [← hfz]
                    rw [hE]
                    exact hv st.current_scr scr scr.current_wk wk hscr' hwk
                  exact focusFixup_valid_win (show ({ wk with focused := some f } : Workspace Win).windows.length = pr.2.length + 1 from (removeAt?_get hrem).2) rfl hwkv
              · exact absurd rfl hneW2
            · exact absurd rfl hneW
        · exact absurd rfl hne2
      · exact absurd rfl hne

set_option maxHeartbeats 1600000 in
theorem send_window_inv {cfg : Config} {st : Lapin Win} {wkIdx : Nat}
    {p : Lapin Win × List (Req Win)} (h : st.send_window_to_workspace cfg wkIdx = some p) :
    (∀ b : Win, (p.1.allWindows).count b = (st.allWindows).count b) ∧
      (stValid st → stValid p.1) := by
  unfold Lapin.send_window_to_workspace at h
  cases hscr : st.currentScreen? with
  | none => rw [hscr] at h; exact absurd h (by simp)
  | some scr =>
  rw [hscr] at h
  simp only [Option.pure_def, Option.bind_eq_bind, Option.some_bind] at h
  have hscr' : st.screens.get? st.current_scr = some scr := hscr
  by_cases hck : scr.current_wk = wkIdx
  · rw [if_pos hck] at h
    obtain rfl := Option.some.inj h
    exact ⟨fun b => rfl, fun hv => hv⟩
  · rw [if_neg hck] at h
    cases hwkc : st.currentWorkspace? with
    | none => rw [hwkc] at h; exact absurd h (by simp)
    | some wk =>
    rw [hwkc] at h
    simp only [Option.some_bind] at h
    obtain ⟨scrX, hsX, hkX⟩ := currentWorkspace?_inv hwkc
    rw [hscr'] at hsX
    obtain rfl := Option.some.inj hsX
    have hwk' : scr.workspaces.get? scr.current_wk = some wk := hkX
    cases hf : wk.focused with
    | none =>
      rw [hf] at h
      dsimp only at h
      obtain rfl := Option.some.inj h
      exact ⟨fun b => rfl, fun hv => hv⟩
    | some w =>
    rw [hf] at h
    dsimp only at h
    simp only [Option.pure_def, Option.bind_eq_bind, Option.bind_eq_some,
      Option.some.injEq] at h
    obtain ⟨x, hmv, hrest⟩ := h
    obtain ⟨oolv, window, st1⟩ := x
    simp only [Option.bind_eq_some, Option.some.injEq] at hrest
    obtain ⟨st2, hmod2, wkAfter, hwkAfter, wNow, hwNow, scr2, hscr2, y, hy, dr, hdr, hp⟩ := hrest
    obtain ⟨st3, rReqs⟩ := y
    cases hbo : wk.ool_focus with
    | true =>
      unfold Lapin.sendMove at hmv
      rw [if_pos hbo] at hmv
      simp only [Option.pure_def, Option.bind_eq_bind, Option.bind_eq_some,
        Option.some.injEq, Prod.mk.injEq] at hmv
      obtain ⟨pr, hrem, sA, hsetA, sB, hmodB, htr1, htr2, htr3⟩ := hmv
      subst htr1
      subst htr2
      subst htr3
      obtain ⟨scrY, wkY, hsY, hkY, hstA⟩ := setWk?_inv hsetA
      rw [hscr'] at hsY
      obtain rfl := Option.some.inj hsY
      rw [hwk'] at hkY
      obtain rfl := Option.some.inj hkY
      subst hstA
      obtain ⟨scrA, twkA, hsA2, hkA2, hstB⟩ := modifyWk?_inv hmodB
      have hsA2' : ((st.screens.set st.current_scr { scr with workspaces := scr.workspaces.set scr.current_wk { wk with ool_windows := pr.2 } }).get? st.current_scr) = some scrA := hsA2
      rcases get?_set_inv hscr' hsA2' with ⟨-, rfl⟩ | ⟨hneA, -⟩
      · have hkA2' : ((scr.workspaces.set scr.current_wk { wk with ool_windows := pr.2 }).get? wkIdx) = some twkA := hkA2
        rcases get?_set_inv hwk' hkA2' with ⟨heqA, -⟩ | ⟨-, hgetIdx⟩
        · exact absurd heqA.symm hck
        · subst hstB
          obtain ⟨scrB, twkB, hsB2, hkB2, hstC⟩ := modifyWk?_inv hmod2
          have hsB2' : (((setWkState st st.current_scr scr.current_wk scr { wk with ool_windows := pr.2 }).screens.set st.current_scr ({ ({ scr with workspaces := scr.workspaces.set scr.current_wk { wk with ool_windows := pr.2 } } : Screen Win) with workspaces := ({ scr with workspaces := scr.workspaces.set scr.current_wk { wk with ool_windows := pr.2 } } : Screen Win).workspaces.set wkIdx ({ twkA with ool_windows := pr.1 :: twkA.ool_windows, ool_focus := true }) } : Screen Win)).get? st.current_scr) = some scrB := hsB2
          rcases get?_set_inv hsA2 hsB2' with ⟨-, rfl⟩ | ⟨hneB, -⟩
          · have hkB2' : ((({ scr with workspaces := scr.workspaces.set scr.current_wk { wk with ool_windows := pr.2 } } : Screen Win).workspaces.set wkIdx ({ twkA with ool_windows := pr.1 :: twkA.ool_windows, ool_focus := true } : Workspace Win)).get? wkIdx) = some twkB := hkB2
            rcases get?_set_inv hkA2 hkB2' with ⟨-, rfl⟩ | ⟨hneB2, -⟩
            · rw [setWkState_setWkState] at hstC
              subst hstC
              constructor
              · intro b
                have hcr := reset_count hy b
                have hcr' : (st3.allWindows).count b = ((setWkState (setWkState st st.current_scr scr.current_wk scr { wk with ool_windows := pr.2 }) st.current_scr wkIdx ({ scr with workspaces := scr.workspaces.set scr.current_wk { wk with ool_windows := pr.2 } }) ({ ({ twkA with ool_windows := pr.1 :: twkA.ool_windows, ool_focus := true } : Workspace Win) with focused := some 0 })).allWindows).count b := hcr
                have hE1 := count_setWkState ({ wk with ool_windows := pr.2 } : Workspace Win) hscr' hwk' b
                have hE2 : (wkWins ({ wk with ool_windows := pr.2 } : Workspace Win)).count b + (if pr.1 = b then 1 else 0) = (wkWins wk).count b := by
                  show (wk.windows ++ pr.2).count b + _ = (wk.windows ++ wk.ool_windows).count b
                  have hrc := removeAt?_count hrem b
                  simp only [List.count_append]
                  omega
                have hE3 := count_setWkState ({ ({ twkA with ool_windows := pr.1 :: twkA.ool_windows, ool_focus := true } : Workspace Win) with focused := some 0 } : Workspace Win) hsA2 hkA2 b
                have hE4 : (wkWins ({ ({ twkA with ool_windows := pr.1 :: twkA.ool_windows, ool_focus := true } : Workspace Win) with focused := some 0 } : Workspace Win)).count b = (wkWins twkA).count b + (if pr.1 = b then 1 else 0) := by
                  show (twkA.windows ++ (pr.1 :: twkA.ool_windows)).count b = (twkA.windows ++ twkA.ool_windows).count b + (if pr.1 = b then 1 else 0)
                  exact count_cons_append1f _ _ _ _
                rw [← hp]
                show (st3.allWindows).count b = (st.allWindows).count b
                omega
              · intro hv
                have hscr2' : (((setWkState st st.current_scr scr.current_wk scr { wk with ool_windows := pr.2 }).screens.set st.current_scr ({ ({ scr with workspaces := scr.workspaces.set scr.current_wk { wk with ool_windows := pr.2 } } : Screen Win) with workspaces := ({ scr with workspaces := scr.workspaces.set scr.current_wk { wk with ool_windows := pr.2 } } : Screen Win).workspaces.set wkIdx ({ ({ twkA with ool_windows := pr.1 :: twkA.ool_windows, ool_focus := true } : Workspace Win) with focused := some 0 }) } : Screen Win)).get? st.current_scr) = some scr2 := hscr2
                rcases get?_set_inv hsA2 hscr2' with ⟨-, rfl⟩ | ⟨hneC, -⟩
                swap
                · exact absurd rfl hneC
                have hsC2 : (setWkState (setWkState st st.current_scr scr.current_wk scr { wk with ool_windows := pr.2 }) st.current_scr wkIdx ({ scr with workspaces := scr.workspaces.set scr.current_wk { wk with ool_windows := pr.2 } }) ({ ({ twkA with ool_windows := pr.1 :: twkA.ool_windows, ool_focus := true } : Workspace Win) with focused := some 0 })).screens.get? (setWkState (setWkState st st.current_scr scr.current_wk scr { wk with ool_windows := pr.2 }) st.current_scr wkIdx ({ scr with workspaces := scr.workspaces.set scr.current_wk { wk with ool_windows := pr.2 } }) ({ ({ twkA with ool_windows := pr.1 :: twkA.ool_windows, ool_focus := true } : Workspace Win) with focused := some 0 })).current_scr = some ({ ({ scr with workspaces := scr.workspaces.set scr.current_wk { wk with ool_windows := pr.2 } } : Screen Win) with workspaces := ({ scr with workspaces := scr.workspaces.set scr.current_wk { wk with ool_windows := pr.2 } } : Screen Win).workspaces.set wkIdx ({ ({ twkA with ool_windows := pr.1 :: twkA.ool_windows, ool_focus := true } : Workspace Win) with focused := some 0 }) } : Screen Win) := get?_set_self hsA2
                have hvE : stValidExcept (setWkState (setWkState st st.current_scr scr.current_wk scr { wk with ool_windows := pr.2 }) st.current_scr wkIdx ({ scr with workspaces := scr.workspaces.set scr.current_wk { wk with ool_windows := pr.2 } }) ({ ({ twkA with ool_windows := pr.1 :: twkA.ool_windows, ool_focus := true } : Workspace Win) with focused := some 0 })) (setWkState (setWkState st st.current_scr scr.current_wk scr { wk with ool_windows := pr.2 }) st.current_scr wkIdx ({ scr with workspaces := scr.workspaces.set scr.current_wk { wk with ool_windows := pr.2 } }) ({ ({ twkA with ool_windows := pr.1 :: twkA.ool_windows, ool_focus := true } : Workspace Win) with focused := some 0 })).current_scr (({ ({ scr with workspaces := scr.workspaces.set scr.current_wk { wk with ool_windows := pr.2 } } : Screen Win) with workspaces := ({ scr with workspaces := scr.workspaces.set scr.current_wk { wk with ool_windows := pr.2 } } : Screen Win).workspaces.set wkIdx ({ ({ twkA with ool_windows := pr.1 :: twkA.ool_windows, ool_focus := true } : Workspace Win) with focused := some 0 }) } : Screen Win)).current_wk := by
                  intro s2 scr2x k2 wk2 h2 h3 hne
                  rcases stGet_setWkState hsA2 hkA2 h2 h3 with ⟨-, -, rfl⟩ | ⟨hne2, scr0, h4, h5⟩
                  · constructor
                    · intro i hi
                      obtain rfl : (0 : Nat) = i := by simpa using hi
                      simp
                    · intro h1 h2
                      exact absurd h2 (by simp)
                  · rcases stGet_setWkState hscr' hwk' h4 h5 with ⟨hs2e, hk2e, rfl⟩ | ⟨-, scr1, h6, h7⟩
                    · exact absurd ⟨hs2e, hk2e⟩ hne
                    · exact hv s2 scr1 k2 wk2 h6 h7
                have hfinal := reset_validE hsC2 hy hvE
                rw [← hp]
                exact hfinal
            · exact absurd rfl hneB2
          · exact absurd rfl hneB
      · exact absurd rfl hneA
    | false =>
      unfold Lapin.sendMove at hmv
      rw [if_neg (show ¬(wk.ool_focus = true) by simp [hbo])] at hmv
      simp only [Option.pure_def, Option.bind_eq_bind, Option.bind_eq_some,
        Option.some.injEq, Prod.mk.injEq] at hmv
      obtain ⟨pr, hrem, sA, hsetA, sB, hmodB, htr1, htr2, htr3⟩ := hmv
      subst htr1
      subst htr2
      subst htr3
      obtain ⟨scrY, wkY, hsY, hkY, hstA⟩ := setWk?_inv hsetA
      rw [hscr'] at hsY
      obtain rfl := Option.some.inj hsY
      rw [hwk'] at hkY
      obtain rfl := Option.some.inj hkY
      subst hstA
      obtain ⟨scrA, twkA, hsA2, hkA2, hstB⟩ := modifyWk?_inv hmodB
      have hsA2' : ((st.screens.set st.current_scr { scr with workspaces := scr.workspaces.set scr.current_wk { wk with windows := pr.2 } }).get? st.current_scr) = some scrA := hsA2
      rcases get?_set_inv hscr' hsA2' with ⟨-, rfl⟩ | ⟨hneA, -⟩
      · have hkA2' : ((scr.workspaces.set scr.current_wk { wk with windows := pr.2 }).get? wkIdx) = some twkA := hkA2
        rcases get?_set_inv hwk' hkA2' with ⟨heqA, -⟩ | ⟨-, hgetIdx⟩
        · exact absurd heqA.symm hck
        · subst hstB
          obtain ⟨scrB, twkB, hsB2, hkB2, hstC⟩ := modifyWk?_inv hmod2
          have hsB2' : (((setWkState st st.current_scr scr.current_wk scr { wk with windows := pr.2 }).screens.set st.current_scr ({ ({ scr with workspaces := scr.workspaces.set scr.current_wk { wk with windows := pr.2 } } : Screen Win) with workspaces := ({ scr with workspaces := scr.workspaces.set scr.current_wk { wk with windows := pr.2 } } : Screen Win).workspaces.set wkIdx ({ twkA with windows := pr.1 :: twkA.windows, ool_focus := false }) } : Screen Win)).get? st.current_scr) = some scrB := hsB2
          rcases get?_set_inv hsA2 hsB2' with ⟨-, rfl⟩ | ⟨hneB, -⟩
          · have hkB2' : ((({ scr with workspaces := scr.workspaces.set scr.current_wk { wk with windows := pr.2 } } : Screen Win).workspaces.set wkIdx ({ twkA with windows := pr.1 :: twkA.windows, ool_focus := false } : Workspace Win)).get? wkIdx) = some twkB := hkB2
            rcases get?_set_inv hkA2 hkB2' with ⟨-, rfl⟩ | ⟨hneB2, -⟩
            · rw [setWkState_setWkState] at hstC
              subst hstC
              constructor
              · intro b
                have hcr := reset_count hy b
                have hcr' : (st3.allWindows).count b = ((setWkState (setWkState st st.current_scr scr.current_wk scr { wk with windows := pr.2 }) st.current_scr wkIdx ({ scr with workspaces := scr.workspaces.set scr.current_wk { wk with windows := pr.2 } }) ({ ({ twkA with windows := pr.1 :: twkA.windows, ool_focus := false } : Workspace Win) with focused := some 0 })).allWindows).count b := hcr
                have hE1 := count_setWkState ({ wk with windows := pr.2 } : Workspace Win) hscr' hwk' b
                have hE2 : (wkWins ({ wk with windows := pr.2 } : Workspace Win)).count b + (if pr.1 = b then 1 else 0) = (wkWins wk).count b := by
                  show (pr.2 ++ wk.ool_windows).count b + _ = (wk.windows ++ wk.ool_windows).count b
                  have hrc := removeAt?_count hrem b
                  simp only [List.count_append]
                  omega
                have hE3 := count_setWkState ({ ({ twkA with windows := pr.1 :: twkA.windows, ool_focus := false } : Workspace Win) with focused := some 0 } : Workspace Win) hsA2 hkA2 b
                have hE4 : (wkWins ({ ({ twkA with windows := pr.1 :: twkA.windows, ool_focus := false } : Workspace Win) with focused := some 0 } : Workspace Win)).count b = (wkWins twkA).count b + (if pr.1 = b then 1 else 0) := by
                  show ((pr.1 :: twkA.windows) ++ twkA.ool_windows).count b = (twkA.windows ++ twkA.ool_windows).count b + (if pr.1 = b then 1 else 0)
                  exact count_cons_append2f _ _ _ _
                rw [← hp]
                show (st3.allWindows).count b = (st.allWindows).count b
                omega
              · intro hv
                have hscr2' : (((setWkState st st.current_scr scr.current_wk scr { wk with windows := pr.2 }).screens.set st.current_scr ({ ({ scr with workspaces := scr.workspaces.set scr.current_wk { wk with windows := pr.2 } } : Screen Win) with workspaces := ({ scr with workspaces := scr.workspaces.set scr.current_wk { wk with windows := pr.2 } } : Screen Win).workspaces.set wkIdx ({ ({ twkA with windows := pr.1 :: twkA.windows, ool_focus := false } : Workspace Win) with focused := some 0 }) } : Screen Win)).get? st.current_scr) = some scr2 := hscr2
                rcases get?_set_inv hsA2 hscr2' with ⟨-, rfl⟩ | ⟨hneC, -⟩
                swap
                · exact absurd rfl hneC
                have hsC2 : (setWkState (setWkState st st.current_scr scr.current_wk scr { wk with windows := pr.2 }) st.current_scr wkIdx ({ scr with workspaces := scr.workspaces.set scr.current_wk { wk with windows := pr.2 } }) ({ ({ twkA with windows := pr.1 :: twkA.windows, ool_focus := false } : Workspace Win) with focused := some 0 })).screens.get? (setWkState (setWkState st st.current_scr scr.current_wk scr { wk with windows := pr.2 }) st.current_scr wkIdx ({ scr with workspaces := scr.workspaces.set scr.current_wk { wk with windows := pr.2 } }) ({ ({ twkA with windows := pr.1 :: twkA.windows, ool_focus := false } : Workspace Win) with focused := some 0 })).current_scr = some ({ ({ scr with workspaces := scr.workspaces.set scr.current_wk { wk with windows := pr.2 } } : Screen Win) with workspaces := ({ scr with workspaces := scr.workspaces.set scr.current_wk { wk with windows := pr.2 } } : Screen Win).workspaces.set wkIdx ({ ({ twkA with windows := pr.1 :: twkA.windows, ool_focus := false } : Workspace Win) with focused := some 0 }) } : Screen Win) := get?_set_self hsA2
                have hvE : stValidExcept (setWkState (setWkState st st.current_scr scr.current_wk scr { wk with windows := pr.2 }) st.current_scr wkIdx ({ scr with workspaces := scr.workspaces.set scr.current_wk { wk with windows := pr.2 } }) ({ ({ twkA with windows := pr.1 :: twkA.windows, ool_focus := false } : Workspace Win) with focused := some 0 })) (setWkState (setWkState st st.current_scr scr.current_wk scr { wk with windows := pr.2 }) st.current_scr wkIdx ({ scr with workspaces := scr.workspaces.set scr.current_wk { wk with windows := pr.2 } }) ({ ({ twkA with windows := pr.1 :: twkA.windows, ool_focus := false } : Workspace Win) with focused := some 0 })).current_scr (({ ({ scr with workspaces := scr.workspaces.set scr.current_wk { wk with windows := pr.2 } } : Screen Win) with workspaces := ({ scr with workspaces := scr.workspaces.set scr.current_wk { wk with windows := pr.2 } } : Screen Win).workspaces.set wkIdx ({ ({ twkA with windows := pr.1 :: twkA.windows, ool_focus := false } : Workspace Win) with focused := some 0 }) } : Screen Win)).current_wk := by
                  intro s2 scr2x k2 wk2 h2 h3 hne
                  rcases stGet_setWkState hsA2 hkA2 h2 h3 with ⟨-, -, rfl⟩ | ⟨hne2, scr0, h4, h5⟩
                  · constructor
                    · intro i hi
                      obtain rfl : (0 : Nat) = i := by simpa using hi
                      simp
                    · intro h1 h2
                      exact absurd h1 (by simp)
                  · rcases stGet_setWkState hscr' hwk' h4 h5 with ⟨hs2e, hk2e, rfl⟩ | ⟨-, scr1, h6, h7⟩
                    · exact absurd ⟨hs2e, hk2e⟩ hne
                    · exact hv s2 scr1 k2 wk2 h6 h7
                have hfinal := reset_validE hsC2 hy hvE
                rw [← hp]
                exact hfinal
            · exact absurd rfl hneB2
          · exact absurd rfl hneB
      · exact absurd rfl hneA

theorem get_focused_window_inv {st : Lapin Win} {win : Win}
    (h : st.get_focused_window = some (some win)) :
    ∃ scr wk w, st.screens.get? st.current_scr = some scr ∧
      scr.workspaces.get? scr.current_wk = some wk ∧ wk.focused = some w ∧
      (if wk.ool_focus then wk.ool_windows.get? w else wk.windows.get? w) = some win := by
  unfold Lapin.get_focused_window at h
  cases hwk : st.currentWorkspace? with
  | none => rw [hwk] at h; exact absurd h (by simp)
  | some wk =>
  rw [hwk] at h
  dsimp only at h
  obtain ⟨scr, hs, hk⟩ := currentWorkspace?_inv hwk
  cases hf : wk.focused with
  | none =>
    rw [hf] at h
    exact absurd h (by simp)
  | some w =>
  rw [hf] at h
  dsimp only at h
  rw [Option.map_eq_some'] at h
  obtain ⟨x, hx, hxx⟩ := h
  obtain rfl := Option.some.inj hxx
  exact ⟨scr, wk, w, hs, hk, hf, hx⟩

theorem removeFocusedAt_inv {st : Lapin Win} {s k : Nat} {wk : Workspace Win}
    {ool : Bool} {w : Nat} {st1 : Lapin Win}
    (h : st.removeFocusedAt s k wk ool w = some st1) :
    ∃ pr scr0 wk0, st.screens.get? s = some scr0 ∧ scr0.workspaces.get? k = some wk0 ∧
      ((ool = true ∧ removeAt? wk.ool_windows w = some pr ∧
        st1 = setWkState st s k scr0 { wk with ool_windows := pr.2 }) ∨
       (ool = false ∧ removeAt? wk.windows w = some pr ∧
        st1 = setWkState st s k scr0 { wk with windows := pr.2 })) := by
  unfold Lapin.removeFocusedAt at h
  cases ool with
  | true =>
    simp only [eq_self_iff_true, if_true, ite_true, Option.pure_def,
      Option.bind_eq_bind, Option.bind_eq_some] at h
    obtain ⟨pr, hrem, hset⟩ := h
    obtain ⟨scr0, wk0, hs0, hk0, hst⟩ := setWk?_inv hset
    exact ⟨pr, scr0, wk0, hs0, hk0, Or.inl ⟨rfl, hrem, hst⟩⟩
  | false =>
    simp only [Bool.false_eq_true, if_false, ite_false, Option.pure_def,
      Option.bind_eq_bind, Option.bind_eq_some] at h
    obtain ⟨pr, hrem, hset⟩ := h
    obtain ⟨scr0, wk0, hs0, hk0, hst⟩ := setWk?_inv hset
    exact ⟨pr, scr0, wk0, hs0, hk0, Or.inr ⟨rfl, hrem, hst⟩⟩

set_option maxHeartbeats 1600000 in
theorem change_window_screen_inv {cfg : Config} {st : Lapin Win} {previous : Bool}
    {p : Lapin Win × List (Req Win)} (h : st.change_window_screen cfg previous = some p) :
    (∀ b : Win, (p.1.allWindows).count b = (st.allWindows).count b) ∧
      (stValid st → stValid p.1) := by
  unfold Lapin.change_window_screen at h
  cases hfw : st.get_focused_window with
  | none => rw [hfw] at h; exact absurd h (by simp)
  | some fv =>
  rw [hfw] at h
  simp only [Option.pure_def, Option.bind_eq_bind, Option.some_bind] at h
  cases fv with
  | none =>
    obtain rfl := Option.some.inj h
    exact ⟨fun b => rfl, fun hv => hv⟩
  | some window =>
  dsimp only at h
  unfold Lapin.change_window_screen_go at h
  cases hscr : st.currentScreen? with
  | none =>
    rw [hscr] at h
    exact absurd (show (none : Option (Lapin Win × List (Req Win))) = some p from h)
      (by simp)
  | some scr =>
  rw [hscr] at h
  simp only [Option.pure_def, Option.bind_eq_bind, Option.some_bind] at h
  have hscr' : st.screens.get? st.current_scr = some scr := hscr
  cases hwkc : st.currentWorkspace? with
  | none => rw [hwkc] at h; exact absurd h (by simp)
  | some wk =>
  rw [hwkc] at h
  simp only [Option.some_bind] at h
  obtain ⟨scrX, hsX, hkX⟩ := currentWorkspace?_inv hwkc
  rw [hscr'] at hsX
  obtain rfl := Option.some.inj hsX
  have hwk' : scr.workspaces.get? scr.current_wk = some wk := hkX
  cases hf : wk.focused with
  | none => rw [hf] at h; exact absurd h (by simp)
  | some w =>
  rw [hf] at h
  simp only [Option.pure_def, Option.bind_eq_bind, Option.some_bind,
    Option.bind_eq_some, Option.some.injEq] at h
  obtain ⟨st1, hrm, y, hy, hrest⟩ := h
  obtain ⟨st2, rReqs⟩ := y
  simp only [Option.bind_eq_some, Option.some.injEq] at hrest
  obtain ⟨dr, hdr, oscr, hosc, st3, hmod3, hrest2⟩ := hrest
  have hkTs : st2.screens.get? (cycleScreen st.screens.length st.current_scr previous) = some oscr := hosc
  cases hbo : wk.ool_focus with
  | true =>
    rw [if_pos hbo] at hrest2
    simp only [Option.bind_eq_some, Option.some.injEq] at hrest2
    obtain ⟨st4, hmod4, hp⟩ := hrest2
    obtain ⟨pr, scr0, wk0, hs0, hk0, hdisj⟩ := removeFocusedAt_inv hrm
    rw [hscr'] at hs0
    obtain rfl := Option.some.inj hs0
    rw [hwk'] at hk0
    obtain rfl := Option.some.inj hk0
    rcases hdisj with ⟨-, hrem, hst1⟩ | ⟨hff, -, -⟩
    swap
    · rw [hbo] at hff
      exact absurd hff (by simp)
    subst hst1
    obtain ⟨scrg, wkg, wg, hsg, hkg, hfg, hgetg⟩ := get_focused_window_inv hfw
    rw [hscr'] at hsg
    obtain rfl := Option.some.inj hsg
    rw [hwk'] at hkg
    obtain rfl := Option.some.inj hkg
    rw [hf] at hfg
    obtain rfl := Option.some.inj hfg
    rw [hbo] at hgetg
    rw [if_pos rfl] at hgetg
    have hprw : pr.1 = window := by
      have := (removeAt?_get hrem).1
      rw [hgetg] at this
      exact (Option.some.inj this).symm
    subst hprw
    obtain ⟨scrT, owkT, hsT, hkT, hst3⟩ := modifyWk?_inv hmod3
    rw [hosc] at hsT
    obtain rfl := Option.some.inj hsT
    subst hst3
    obtain ⟨scrU, owkU, hsU, hkU, hst4⟩ := modifyWk?_inv hmod4
    have hsU' : ((st2.screens.set (cycleScreen st.screens.length st.current_scr previous) { oscr with workspaces := oscr.workspaces.set oscr.current_wk ({ owkT with focused := some 0 } : Workspace Win) }).get? (cycleScreen st.screens.length st.current_scr previous)) = some scrU := hsU
    rcases get?_set_inv hosc hsU' with ⟨-, rfl⟩ | ⟨hneU, -⟩
    · have hkU' : ((oscr.workspaces.set oscr.current_wk ({ owkT with focused := some 0 } : Workspace Win)).get? oscr.current_wk) = some owkU := hkU
      rcases get?_set_inv hkT hkU' with ⟨-, rfl⟩ | ⟨hneU2, -⟩
      · rw [setWkState_setWkState] at hst4
        have hst4' : st4 = setWkState st2 (cycleScreen st.screens.length st.current_scr previous) oscr.current_wk oscr ({ owkT with ool_windows := pr.1 :: owkT.ool_windows, focused := some 0, ool_focus := true } : Workspace Win) := hst4
        constructor
        · intro b
          have hA1 := count_setWkState ({ wk with ool_windows := pr.2 } : Workspace Win) hscr' hwk' b
          have hA2 : (wkWins ({ wk with ool_windows := pr.2 } : Workspace Win)).count b + (if pr.1 = b then 1 else 0) = (wkWins wk).count b := by
            show (wk.windows ++ pr.2).count b + _ = (wk.windows ++ wk.ool_windows).count b
            have hrc := removeAt?_count hrem b
            simp only [List.count_append]
            omega
          have hA3 := reset_count hy b
          have hA5 := count_setWkState ({ owkT with ool_windows := pr.1 :: owkT.ool_windows, focused := some 0, ool_focus := true } : Workspace Win) hkTs hkT b
          have hA6 : (wkWins ({ owkT with ool_windows := pr.1 :: owkT.ool_windows, focused := some 0, ool_focus := true } : Workspace Win)).count b = (wkWins owkT).count b + (if pr.1 = b then 1 else 0) := by
            show (owkT.windows ++ (pr.1 :: owkT.ool_windows)).count b = (owkT.windows ++ owkT.ool_windows).count b + (if pr.1 = b then 1 else 0)
            exact count_cons_append1f _ _ _ _
          rw [← hp]
          show (st4.allWindows).count b = (st.allWindows).count b
          rw [hst4']
          omega
        · intro hv
          have hsC1 : (setWkState st st.current_scr scr.current_wk scr { wk with ool_windows := pr.2 }).screens.get? (setWkState st st.current_scr scr.current_wk scr { wk with ool_windows := pr.2 }).current_scr = some { scr with workspaces := scr.workspaces.set scr.current_wk { wk with ool_windows := pr.2 } } := get?_set_self hscr'
          have hvE : stValidExcept (setWkState st st.current_scr scr.current_wk scr { wk with ool_windows := pr.2 }) (setWkState st st.current_scr scr.current_wk scr { wk with ool_windows := pr.2 }).current_scr ({ scr with workspaces := scr.workspaces.set scr.current_wk { wk with ool_windows := pr.2 } } : Screen Win).current_wk := by
            intro s2 scr2 k2 wk2 h2 h3 hne
            rcases stGet_setWkState hscr' hwk' h2 h3 with ⟨hs2, hk2, rfl⟩ | ⟨hne2, scrz, h4, h5⟩
            · exact absurd ⟨hs2, hk2⟩ hne
            · exact hv s2 scrz k2 wk2 h4 h5
          have hv2 := reset_validE hsC1 hy hvE
          rw [← hp]
          show stValid st4
          rw [hst4']
          refine stValid_setWkState hkTs hkT hv2 ?_
          constructor
          · intro i hi
            obtain rfl : (0 : Nat) = i := by simpa using hi
            simp
          · intro h1 h2
            exact absurd h2 (by simp)
      · exact absurd rfl hneU2
    · exact absurd rfl hneU
  | false =>
    rw [if_neg (show ¬(wk.ool_focus = true) by simp [hbo])] at hrest2
    simp only [Option.bind_eq_some, Option.some.injEq] at hrest2
    obtain ⟨owk0, ⟨o3, ho3, hok3⟩, olay, holay, st4, hmod4, owk4, ⟨o4, ho4, hok4⟩, nr, hnr, hp⟩ := hrest2
    obtain ⟨pr, scr0, wk0, hs0, hk0, hdisj⟩ := removeFocusedAt_inv hrm
    rw [hscr'] at hs0
    obtain rfl := Option.some.inj hs0
    rw [hwk'] at hk0
    obtain rfl := Option.some.inj hk0
    rcases hdisj with ⟨hff, -, -⟩ | ⟨-, hrem, hst1⟩
    · rw [hbo] at hff
      exact absurd hff (by simp)
    subst hst1
    obtain ⟨scrg, wkg, wg, hsg, hkg, hfg, hgetg⟩ := get_focused_window_inv hfw
    rw [hscr'] at hsg
    obtain rfl := Option.some.inj hsg
    rw [hwk'] at hkg
    obtain rfl := Option.some.inj hkg
    rw [hf] at hfg
    obtain rfl := Option.some.inj hfg
    rw [hbo] at hgetg
    rw [if_neg Bool.false_ne_true] at hgetg
    have hprw : pr.1 = window := by
      have := (removeAt?_get hrem).1
      rw [hgetg] at this
      exact (Option.some.inj this).symm
    subst hprw
    obtain ⟨scrT, owkT, hsT, hkT, hst3⟩ := modifyWk?_inv hmod3
    rw [hosc] at hsT
    obtain rfl := Option.some.inj hsT
    subst hst3
    obtain ⟨scrU, owkU, hsU, hkU, hst4⟩ := modifyWk?_inv hmod4
    have hsU' : ((st2.screens.set (cycleScreen st.screens.length st.current_scr previous) { oscr with workspaces := oscr.workspaces.set oscr.current_wk ({ owkT with focused := some 0 } : Workspace Win) }).get? (cycleScreen st.screens.length st.current_scr previous)) = some scrU := hsU
    rcases get?_set_inv hosc hsU' with ⟨-, rfl⟩ | ⟨hneU, -⟩
    · have hkU' : ((oscr.workspaces.set oscr.current_wk ({ owkT with focused := some 0 } : Workspace Win)).get? oscr.current_wk) = some owkU := hkU
      rcases get?_set_inv hkT hkU' with ⟨-, rfl⟩ | ⟨hneU2, -⟩
      · rw [setWkState_setWkState] at hst4
        have hst4' : st4 = setWkState st2 (cycleScreen st.screens.length st.current_scr previous) oscr.current_wk oscr ({ owkT with windows := pr.1 :: owkT.windows, focused := some 0, ool_focus := false } : Workspace Win) := hst4
        constructor
        · intro b
          have hA1 := count_setWkState ({ wk with windows := pr.2 } : Workspace Win) hscr' hwk' b
          have hA2 : (wkWins ({ wk with windows := pr.2 } : Workspace Win)).count b + (if pr.1 = b then 1 else 0) = (wkWins wk).count b := by
            show (pr.2 ++ wk.ool_windows).count b + _ = (wk.windows ++ wk.ool_windows).count b
            have hrc := removeAt?_count hrem b
            simp only [List.count_append]
            omega
          have hA3 := reset_count hy b
          have hA5 := count_setWkState ({ owkT with windows := pr.1 :: owkT.windows, focused := some 0, ool_focus := false } : Workspace Win) hkTs hkT b
          have hA6 : (wkWins ({ owkT with windows := pr.1 :: owkT.windows, focused := some 0, ool_focus := false } : Workspace Win)).count b = (wkWins owkT).count b + (if pr.1 = b then 1 else 0) := by
            show ((pr.1 :: owkT.windows) ++ owkT.ool_windows).count b = (owkT.windows ++ owkT.ool_windows).count b + (if pr.1 = b then 1 else 0)
            exact count_cons_append2f _ _ _ _
          rw [← hp]
          show (st4.allWindows).count b = (st.allWindows).count b
          rw [hst4']
          omega
        · intro hv
          have hsC1 : (setWkState st st.current_scr scr.current_wk scr { wk with windows := pr.2 }).screens.get? (setWkState st st.current_scr scr.current_wk scr { wk with windows := pr.2 }).current_scr = some { scr with workspaces := scr.workspaces.set scr.current_wk { wk with windows := pr.2 } } := get?_set_self hscr'
          have hvE : stValidExcept (setWkState st st.current_scr scr.current_wk scr { wk with windows := pr.2 }) (setWkState st st.current_scr scr.current_wk scr { wk with windows := pr.2 }).current_scr ({ scr with workspaces := scr.workspaces.set scr.current_wk { wk with windows := pr.2 } } : Screen Win).current_wk := by
            intro s2 scr2 k2 wk2 h2 h3 hne
            rcases stGet_setWkState hscr' hwk' h2 h3 with ⟨hs2, hk2, rfl⟩ | ⟨hne2, scrz, h4, h5⟩
            · exact absurd ⟨hs2, hk2⟩ hne
            · exact hv s2 scrz k2 wk2 h4 h5
          have hv2 := reset_validE hsC1 hy hvE
          rw [← hp]
          show stValid st4
          rw [hst4']
          refine stValid_setWkState hkTs hkT hv2 ?_
          constructor
          · intro i hi
            obtain rfl : (0 : Nat) = i := by simpa using hi
            simp
          · intro h1 h2
            exact absurd h1 (by simp)
      · exact absurd rfl hneU2
    · exact absurd rfl hneU


/-! ## Claims C1 and C2: the claim theorems -/

theorem initState_allWindows {st : Lapin Win} (h : InitState st) :
    st.allWindows = [] := by
  rw [List.eq_nil_iff_forall_not_mem]
  intro a ha
  rw [Lapin.allWindows, List.mem_flatMap] at ha
  obtain ⟨scr, hscr, ha2⟩ := ha
  rw [scrWins, List.mem_flatMap] at ha2
  obtain ⟨wk, hwk, ha3⟩ := ha2
  obtain ⟨h1, h2, -⟩ := h scr hscr wk hwk
  rw [wkWins, h1, h2] at ha3
  exact absurd ha3 (by simp)

theorem initState_valid {st : Lapin Win} (h : InitState st) : stValid st := by
  intro s scr k wk hs hk
  obtain ⟨h1, h2, h3⟩ := h scr (List.get?_mem hs) wk (List.get?_mem hk)
  refine ⟨?_, fun _ _ => h3⟩
  intro i hi
  rw [h3] at hi
  exact absurd hi (by simp)

theorem applyOp_uniq {cfg : Config} {op : Op Win} {st st' : Lapin Win}
    (h : applyOp cfg op st = some st') (hu : Uniq st) : Uniq st' := by
  unfold applyOp at h
  rw [Option.map_eq_some'] at h
  obtain ⟨p, hp, hst'⟩ := h
  subst hst'
  cases op with
  | manage win attr cls =>
    rcases (manage_inv hp).1 with heq | ⟨hlocn, hcnt⟩
    · rw [heq]; exact hu
    · intro b
      rw [hcnt b]
      by_cases hb : b = win
      · subst hb
        have h0 : (st.allWindows).count b = 0 :=
          List.count_eq_zero.mpr (window_location_none_not_mem hlocn)
        rw [h0, if_pos rfl]
      · rw [if_neg hb]
        have := hu b
        omega
  | unmanage win setF =>
    intro b
    have h1 := (unmanage_inv hp).1 b
    have h2 := hu b
    omega
  | toggleFocus win raise => intro b; rw [(toggle_focus_inv hp).1 b]; exact hu b
  | changeWin previous => intro b; rw [(change_win_inv hp).1 b]; exact hu b
  | toggleOol => intro b; rw [(toggle_ool_inv hp).1 b]; exact hu b
  | gotoWorkspace k => intro b; rw [(goto_workspace_inv hp).1 b]; exact hu b
  | changeScreen previous => intro b; rw [(change_screen_inv hp).1 b]; exact hu b
  | changeWindowScreen previous =>
    intro b; rw [(change_window_screen_inv hp).1 b]; exact hu b
  | sendWindowToWorkspace k => intro b; rw [(send_window_inv hp).1 b]; exact hu b

theorem applyOp_valid {cfg : Config} {op : Op Win} {st st' : Lapin Win}
    (h : applyOp cfg op st = some st') (hsafe : SafeOp op st) (hv : stValid st) :
    stValid st' := by
  unfold applyOp at h
  rw [Option.map_eq_some'] at h
  obtain ⟨p, hp, hst'⟩ := h
  subst hst'
  cases op with
  | manage win attr cls => exact (manage_inv hp).2 hv
  | unmanage win setF => exact (unmanage_inv hp).2 hsafe hv
  | toggleFocus win raise => exact (toggle_focus_inv hp).2 hv
  | changeWin previous => exact (change_win_inv hp).2 hv
  | toggleOol => exact (toggle_ool_inv hp).2 hv
  | gotoWorkspace k => exact (goto_workspace_inv hp).2 hv
  | changeScreen previous => exact (change_screen_inv hp).2 hv
  | changeWindowScreen previous => exact (change_window_screen_inv hp).2 hv
  | sendWindowToWorkspace k => exact (send_window_inv hp).2 hv

/-- C2 (window uniqueness): in every state reachable from a startup
state through non-panicking operations, each tracked window occurs
exactly once over all `(screen, workspace, sequence)` triples — it
appears in exactly one workspace sequence, exactly once. -/
theorem C2_window_uniqueness {cfg : Config} {st : Lapin Win}
    (h : Reachable cfg st) : ∀ w ∈ st.allWindows, (st.allWindows).count w = 1 := by
  have hu : Uniq st := by
    induction h with
    | init st0 h0 =>
      intro b
      rw [initState_allWindows h0]
      simp
    | step st0 st1 op h0 hs ih => exact applyOp_uniq hs ih
  intro w hw
  have h1 : (st.allWindows).count w ≠ 0 := fun hc => List.count_eq_zero.mp hc hw
  have h2 := hu w
  omega

/-- C2 witness: after managing window `7` from a one-workspace startup
state, `7` is tracked exactly once. -/
theorem C2_window_uniqueness_witness : (stOne7.allWindows).count 7 = 1 :=
  @C2_window_uniqueness Nat _ cfgNoRules stOne7
    (Reachable.step stEmpty1 stOne7 (Op.manage 7 (some false) none)
      (Reachable.init stEmpty1 (by unfold InitState; decide)) (by rfl)) 7 (by decide)

/-- C1 counterexample: the spec says `focused` is `None` exactly when
both window sequences are empty, in every workspace.  One reachable
`manage` under a workspace-targeting rule refutes the "only if"
direction: the rule routes window `7` to the non-current workspace 1,
which ends with `windows = [7]` but `focused = none`. -/
theorem C1_counterexample :
    Reachable cfgWkRule stRuled7 ∧ ¬ specStateInvariant stRuled7 := by
  constructor
  · exact Reachable.step stEmpty2 stRuled7 (Op.manage 7 (some false) (some ("x", "y")))
      (Reachable.init stEmpty2 (by unfold InitState; decide)) (by rfl)
  · intro hinv
    have h := hinv ⟨[⟨[], [], none, false, 0, true⟩, ⟨[7], [], none, false, 0, true⟩], 0, 800, 600, 0, 0⟩
      (by decide) ⟨[7], [], none, false, 0, true⟩ (by decide)
    exact List.cons_ne_nil 7 [] (h.1.mp rfl).1

/-- C1 (focus validity, amended): along non-panicking runs that only
unmanage windows living in the current workspace (the workspace
`unmanage_window` actually removes from), every workspace satisfies
the provable part of the invariant: a `Some` focus indexes inside the
sequence selected by `ool_focus`, and a workspace with both sequences
empty has no focus.  The spec's converse direction ("`None` only when
both sequences are empty") is refuted by the counterexample. -/
theorem C1_focus_validity {cfg : Config} {st : Lapin Win}
    (h : ReachableSafe cfg st) : stValid st := by
  induction h with
  | init st0 h0 => exact initState_valid h0
  | step st0 st1 op h0 hsafe hs ih => exact applyOp_valid hs hsafe ih

/-- C1 witness: the amended invariant holds at the state reached by
managing window `7` from a one-workspace startup state. -/
theorem C1_focus_validity_witness : stValid stOne7 :=
  @C1_focus_validity Nat _ cfgNoRules stOne7
    (ReachableSafe.step stEmpty1 stOne7 (Op.manage 7 (some false) none)
      (ReachableSafe.init stEmpty1 (by unfold InitState; decide)) trivial (by rfl))

end LPL
